import Mathlib

/-!
Kuroko object heap and bytecode disassembler.

A shallow embedding of `object.c` (string interning, sdbm hash, object
constructors) and `debug.c` (line lookup, instruction disassembly) of the
Kuroko runtime, with the properties of its specification stated over it.

Conventions of the embedding:

* `size_t` values (lengths, offsets, indices) are natural numbers; 32-bit
  quantities (`uint32_t`, `int`, `unsigned int`) are reduced explicitly.
* pointers are natural-number addresses into the stores of `KrkVM`.
* text written with `fprintf(stderr, ...)` is collected as a list of strings,
  one element per call.
-/

namespace Kuroko

/-- An 8-bit storage unit: a `uint8_t` of the code array or the bit pattern of a `char`. -/
abbrev Byte := Fin 256

/-! ## Machine integers -/

/-- Reduction of an integer to `uint32_t` (also `unsigned int`). -/
def toU32 (x : Int) : Nat := (x % 4294967296).toNat

/-- Conversion of a `size_t` (or any integer) to `int`: the low 32 bits, read in two's complement. -/
def toInt32 (x : Int) : Int :=
  if x % 4294967296 < 2147483648 then x % 4294967296 else x % 4294967296 - 4294967296

/-- Reduction of an integer to `size_t` (64 bits), used where the source subtracts. -/
def toSizeT (x : Int) : Nat := (x % 18446744073709551616).toNat

/-- The conversion `(int)key[i]` of a plain `char` holding the bit pattern `c`.
Whether plain `char` is signed is fixed by the C implementation, so it is a
parameter: with a signed `char` bytes 128..255 are negative. -/
def charToInt (signedChar : Bool) (c : Byte) : Int :=
  if signedChar && decide (128 ≤ c.val) then (c.val : Int) - 256 else (c.val : Int)

/-! ## object.c: hashString -/

/-- One iteration of the loop body of `hashString`:
`hash = (int)key[i] + (hash << 6) + (hash << 16) - hash` in `uint32_t`. -/
def hashString.step (signedChar : Bool) (hash : Nat) (c : Byte) : Nat :=
  toU32 (charToInt signedChar c + ((hash <<< 6) % 4294967296 : Nat)
    + ((hash <<< 16) % 4294967296 : Nat) - hash)

/-- The function `hashString(key, length)`: the loop `for (i = 0; i < length; ++i)`. -/
def hashString (signedChar : Bool) (key : List Byte) (length : Nat) : Nat :=
  (List.range length).foldl (fun hash i => hashString.step signedChar hash (key.getD i 0)) 0

/-- The recurrence of the specification: `h = b + (h << 6) + (h << 16) - h` with
32-bit wrap-around, `b` being the value 0..255 of the byte. -/
def sdbmStep (h : Nat) (b : Byte) : Nat :=
  toU32 ((b.val : Int) + ((h <<< 6) % 4294967296 : Nat) + ((h <<< 16) % 4294967296 : Nat) - h)

/-- The sdbm hash of the specification: the recurrence folded over the bytes in order, from 0. -/
def sdbmHash (s : List Byte) : Nat := s.foldl sdbmStep 0

/-! ## Values and chunks -/

/-- The tagged union `KrkValue`; an object value carries the address of a heap object. -/
inductive KrkValue where
  | none
  | boolean (b : Bool)
  | integer (i : Int)
  | object (ref : Nat)
  deriving DecidableEq, Repr

/-- One entry `(startOffset, line)` of a chunk's line map. -/
structure KrkLineMap where
  startOffset : Nat
  line : Nat
  deriving DecidableEq, Repr

/-- A `KrkChunk`: `count` is `code.length`, `linesCount` is `lines.length`, and
`constants` holds `constants.values[0 .. constants.count)`. -/
structure KrkChunk where
  code : List Byte
  lines : List KrkLineMap
  constants : List KrkValue
  filename : Option Nat
  deriving DecidableEq, Repr

/-- Number of code bytes, `chunk->count`. -/
def KrkChunk.count (chunk : KrkChunk) : Nat := chunk.code.length

/-- Modelled from the spec: `krk_initChunk` (chunk.c is not among the sources):
the empty chunk, with no code, no lines and no constants. -/
def krk_initChunk : KrkChunk := { code := [], lines := [], constants := [], filename := Option.none }

/-- Modelled from the spec: append-byte, `krk_writeChunk` (chunk.c is not among
the sources): push `byte` onto `code`; when `lines` is empty or its last entry
has a different line, append `(currentOffset, line)`, `currentOffset` being the
offset of the byte pushed. -/
def krk_writeChunk (chunk : KrkChunk) (byte : Byte) (line : Nat) : KrkChunk :=
  { chunk with
    code := chunk.code ++ [byte]
    lines :=
      match chunk.lines.getLast? with
      | Option.none => chunk.lines ++ [{ startOffset := chunk.code.length, line := line }]
      | some last =>
        if last.line ≠ line then chunk.lines ++ [{ startOffset := chunk.code.length, line := line }]
        else chunk.lines }

/-- The chunk built from the empty chunk by a sequence of append-byte calls. -/
def buildChunk (writes : List (Byte × Nat)) : KrkChunk :=
  writes.foldl (fun chunk w => krk_writeChunk chunk w.1 w.2) krk_initChunk

/-! ## debug.c: krk_lineNumber -/

/-- The loop of `krk_lineNumber` over the entries not yet visited, `line` being
the local variable: stop at the first entry whose `startOffset > offset`. -/
def krk_lineNumber.loop (offset : Nat) : List KrkLineMap → Nat → Nat
  | [], line => line
  | e :: rest, line =>
    if e.startOffset > offset then line else krk_lineNumber.loop offset rest e.line

/-- The function `krk_lineNumber(chunk, offset)`. -/
def krk_lineNumber (chunk : KrkChunk) (offset : Nat) : Nat :=
  krk_lineNumber.loop offset chunk.lines 0

/-- The line of the last entry, in write order, whose `startOffset <= offset`; 0 when there is none. -/
def lastLineAtOrBefore (lines : List KrkLineMap) (offset : Nat) : Nat :=
  match (lines.filter (fun e => decide (e.startOffset ≤ offset))).getLast? with
  | some e => e.line
  | Option.none => 0

/-! ## Heap objects and the VM state -/

/-- The kind tag `ObjType` stored in every object header. -/
inductive ObjType where
  | OBJ_FUNCTION | OBJ_NATIVE | OBJ_CLOSURE | OBJ_STRING
  | OBJ_UPVALUE | OBJ_CLASS | OBJ_INSTANCE | OBJ_BOUND_METHOD
  deriving DecidableEq, Repr

/-- One slot of a `KrkTable`. -/
structure KrkTableEntry where
  key : KrkValue
  value : KrkValue
  deriving DecidableEq, Repr

/-- Modelled from the spec: the `KrkTable` of the table module (table.c is not
among the sources), as the sequence of its occupied slots. -/
abbrev KrkTable := List KrkTableEntry

/-- Fields of a `KrkString` after the header; `chars` is the address of its byte array. -/
structure KrkString where
  length : Nat
  chars : Nat
  hash : Nat
  deriving DecidableEq, Repr

/-- Fields of a `KrkFunction` after the header; `name` is a nullable string pointer. -/
structure KrkFunction where
  arity : Nat
  upvalueCount : Nat
  name : Option Nat
  chunk : KrkChunk
  deriving DecidableEq, Repr

/-- Fields of a `KrkNative` after the header; the host callable is an opaque code address. -/
structure KrkNative where
  function : Nat
  isMethod : Nat
  deriving DecidableEq, Repr

/-- Fields of a `KrkClosure` after the header; `upvalues` is the address of its pointer array. -/
structure KrkClosure where
  function : Nat
  upvalues : Nat
  upvalueCount : Nat
  deriving DecidableEq, Repr

/-- Fields of a `KrkUpvalue` after the header. -/
structure KrkUpvalue where
  location : Int
  next : Option Nat
  closed : KrkValue
  deriving DecidableEq, Repr

/-- Fields of a `KrkClass` after the header. -/
structure KrkClass where
  name : Option Nat
  filename : Option Nat
  methods : KrkTable
  deriving DecidableEq, Repr

/-- Fields of a `KrkInstance` after the header. -/
structure KrkInstance where
  _class : Option Nat
  fields : KrkTable
  deriving DecidableEq, Repr

/-- Fields of a `KrkBoundMethod` after the header. -/
structure KrkBoundMethod where
  receiver : KrkValue
  method : Option Nat
  deriving DecidableEq, Repr

/-- The variant part of a heap object. -/
inductive ObjBody where
  | string (s : KrkString)
  | function (f : KrkFunction)
  | native (n : KrkNative)
  | closure (c : KrkClosure)
  | upvalue (u : KrkUpvalue)
  | class (c : KrkClass)
  | instance (i : KrkInstance)
  | boundMethod (b : KrkBoundMethod)
  deriving DecidableEq, Repr

/-- A heap object: the common header `KrkObj` (`type`, `isMarked`, `next`) and its variant part. -/
structure KrkObj where
  type : ObjType
  isMarked : Bool
  next : Option Nat
  body : ObjBody
  deriving DecidableEq, Repr

/-- A block handed out by `ALLOCATE`: the bytes of a `char` array or the slots of a
`KrkUpvalue*` array. -/
inductive RawBlock where
  | chars (bytes : List Byte)
  | upvalues (slots : List (Option Nat))
  deriving DecidableEq, Repr

/-- The state the object layer works on: the two stores of the memory layer and the
fields `objects`, `strings` and the value stack of the global `vm`.
`heap[a]` is the object at address `a`; `arrays[p]` is the block at address `p`,
`none` once it has been freed. -/
structure KrkVM where
  heap : List KrkObj
  arrays : List (Option RawBlock)
  objects : Option Nat
  strings : KrkTable
  stack : List KrkValue
  deriving DecidableEq, Repr

/-- A VM with nothing allocated. -/
def KrkVM.empty : KrkVM :=
  { heap := [], arrays := [], objects := Option.none, strings := [], stack := [] }

/-- The string fields of the object at address `r`, `AS_STRING` followed by a read. -/
def KrkVM.stringAt (vm : KrkVM) (r : Nat) : Option KrkString :=
  match vm.heap[r]? with
  | some o => match o.body with
    | ObjBody.string s => some s
    | _ => Option.none
  | Option.none => Option.none

/-- The bytes of the live `char` array at address `p`. -/
def KrkVM.charsAt (vm : KrkVM) (p : Nat) : Option (List Byte) :=
  match vm.arrays[p]? with
  | some (some (RawBlock.chars bytes)) => some bytes
  | _ => Option.none

/-! ## Memory layer, value stack and table module -/

/-- Modelled from the spec: `ALLOCATE(char, n)` of the memory layer (memory.c is not
among the sources), followed by the writes that fill the block: a fresh address, distinct
from every block handed out before, now holding `bytes`. -/
def ALLOCATE_char (vm : KrkVM) (bytes : List Byte) : KrkVM × Nat :=
  ({ vm with arrays := vm.arrays ++ [some (RawBlock.chars bytes)] }, vm.arrays.length)

/-- Modelled from the spec: `FREE_ARRAY(T, ptr, n)` of the memory layer: the block at
`ptr` is released. -/
def FREE_ARRAY (vm : KrkVM) (ptr : Nat) : KrkVM :=
  { vm with arrays := vm.arrays.set ptr Option.none }

/-- Modelled from the spec: `krk_push` of the VM context (vm.c is not among the sources). -/
def krk_push (vm : KrkVM) (value : KrkValue) : KrkVM :=
  { vm with stack := value :: vm.stack }

/-- Modelled from the spec: `krk_pop` of the VM context (vm.c is not among the sources). -/
def krk_pop (vm : KrkVM) : KrkVM :=
  { vm with stack := vm.stack.tail }

/-- Modelled from the spec: `krk_tableSet(table, key, value)` of the table module: the
slot of `key` receives `value`, a new slot being added when the key is absent. -/
def krk_tableSet (table : KrkTable) (key value : KrkValue) : KrkTable :=
  if table.any (fun e => decide (e.key = key)) then
    table.map (fun e => if e.key = key then { e with value := value } else e)
  else table ++ [{ key := key, value := value }]

/-- Whether the table key `key` is a string with the given length, hash and bytes:
the comparison `krk_tableFindString` makes on a slot. -/
def keyMatches (vm : KrkVM) (chars : List Byte) (length hash : Nat) (key : KrkValue) :
    Option Nat :=
  match key with
  | KrkValue.object r =>
    match vm.stringAt r with
    | some s =>
      match vm.charsAt s.chars with
      | some bytes =>
        if s.length = length ∧ s.hash = hash ∧ bytes.take length = chars.take length
        then some r else Option.none
      | Option.none => Option.none
    | Option.none => Option.none
  | _ => Option.none

/-- Modelled from the spec: `krk_tableFindString(table, bytes, length, hash)` of the
table module: the table is a set of strings queried by `(bytes, length, hash)`; the
result is a key that is a string with that length, hash and bytes, or null. -/
def krk_tableFindString (vm : KrkVM) (table : KrkTable) (chars : List Byte)
    (length hash : Nat) : Option Nat :=
  table.findSome? (fun e => keyMatches vm chars length hash e.key)

/-! ## object.c: string constructors -/

/-- The function `allocateObject(size, type)`: a fresh object with `type`, `isMarked = 0`
and `next = vm.objects` becomes the head of `vm.objects`. The variant fields, which
every caller assigns right after the call, are passed as `body`. -/
def allocateObject (vm : KrkVM) (type : ObjType) (body : ObjBody) : KrkVM × Nat :=
  ({ vm with
      heap := vm.heap ++ [{ type := type, isMarked := false, next := vm.objects, body := body }]
      objects := some vm.heap.length },
   vm.heap.length)

/-- The function `allocateString(chars, length, hash)`. -/
def allocateString (vm : KrkVM) (chars : Nat) (length hash : Nat) : KrkVM × Nat :=
  let (vm1, string) := allocateObject vm ObjType.OBJ_STRING
    (ObjBody.string { length := length, chars := chars, hash := hash })
  let vm2 := krk_push vm1 (KrkValue.object string)
  let vm3 := { vm2 with strings := krk_tableSet vm2.strings (KrkValue.object string) KrkValue.none }
  let vm4 := krk_pop vm3
  (vm4, string)

/-- The function `krk_takeString(chars, length)`; `chars` is the address of the
caller's array, whose bytes the hash and the lookup read. -/
def krk_takeString (signedChar : Bool) (vm : KrkVM) (chars : Nat) (length : Nat) : KrkVM × Nat :=
  let bytes := (vm.charsAt chars).getD []
  let hash := hashString signedChar bytes length
  match krk_tableFindString vm vm.strings bytes length hash with
  | some interned => (FREE_ARRAY vm chars, interned)
  | Option.none => allocateString vm chars length hash

/-- The function `krk_copyString(chars, length)`; `chars` is the content of the
caller's buffer, which the function only reads. -/
def krk_copyString (signedChar : Bool) (vm : KrkVM) (chars : List Byte) (length : Nat) :
    KrkVM × Nat :=
  let hash := hashString signedChar chars length
  match krk_tableFindString vm vm.strings chars length hash with
  | some interned => (vm, interned)
  | Option.none =>
    let (vm1, heapChars) := ALLOCATE_char vm (chars.take length ++ [0])
    allocateString vm1 heapChars length hash

/-- The strings table holds, as a key, the string object `r`, whose length is `length`
and whose bytes are the first `length` bytes of `chars`. -/
def KrkVM.holdsString (vm : KrkVM) (r : Nat) (chars : List Byte) (length : Nat) : Prop :=
  (∃ e ∈ vm.strings, e.key = KrkValue.object r) ∧
  ∃ s bytes, vm.stringAt r = some s ∧ vm.charsAt s.chars = some bytes ∧
    s.length = length ∧ bytes.take length = chars.take length

/-- No string of the strings table points at a byte array that has not been handed out. -/
def KrkVM.charsAllocated (vm : KrkVM) : Prop :=
  ∀ e ∈ vm.strings, ∀ r s, e.key = KrkValue.object r → vm.stringAt r = some s →
    s.chars < vm.arrays.length

/-- A VM in which the string "hi" has been interned by one copy call. -/
def vmWithHi : KrkVM := (krk_copyString true KrkVM.empty [104, 105] 2).1

/-- The VM `vmWithHi` after the memory layer handed out one more array holding "hi" and
a terminator: the buffer a caller is about to give away. -/
def vmWithHiAndBuffer : KrkVM := (ALLOCATE_char vmWithHi [104, 105, 0]).1

/-- The empty VM after the memory layer handed out one array holding "hi" and a terminator. -/
def vmWithBuffer : KrkVM := (ALLOCATE_char KrkVM.empty [104, 105, 0]).1

/-! ## Formatted output -/

/-- The text `s` preceded by as many copies of `c` as a field of width `w` requires. -/
def padLeft (c : Char) (w : Nat) (s : String) : String :=
  String.mk (List.replicate (w - s.length) c) ++ s

/-- The conversion `%<w>d` of `printf`: decimal, right-justified with blanks (`%d` for `w = 0`). -/
def fmtD (w : Nat) (v : Int) : String := padLeft ' ' w (toString v)

/-- The conversion `%0<w>d` of `printf`: decimal, zero-padded after the sign. -/
def fmtZeroD (w : Nat) (v : Int) : String :=
  if v < 0 then "-" ++ padLeft '0' (w - 1) (toString v.natAbs) else padLeft '0' w (toString v.natAbs)

/-- The conversion `%0<w>u` of `printf`: unsigned decimal, zero-padded. -/
def fmtZeroU (w : Nat) (v : Nat) : String := padLeft '0' w (toString v)

/-- The conversion `%0<w>x` of `printf`: lower-case hexadecimal, zero-padded. -/
def fmtZeroX (w : Nat) (v : Nat) : String := padLeft '0' w (String.mk (Nat.toDigits 16 v))

/-- The conversion `%-<w>s` of `printf`: the string, left-justified in a field of width `w`. -/
def fmtLeftS (w : Nat) (s : String) : String :=
  s ++ String.mk (List.replicate (w - s.length) ' ')

/-! ## debug.c: the disassembler -/

/-- Modelled from the spec: the enumeration `KrkOpCode` of chunk.h, which is not among the
sources; its members are the case labels of the switch in `krk_disassembleInstruction`. -/
inductive KrkOpCode where
  | OP_RETURN | OP_ADD | OP_SUBTRACT | OP_MULTIPLY | OP_DIVIDE | OP_NEGATE | OP_MODULO
  | OP_NONE | OP_TRUE | OP_FALSE | OP_NOT | OP_EQUAL | OP_GREATER | OP_LESS | OP_POP
  | OP_INHERIT | OP_RAISE | OP_CLOSE_UPVALUE | OP_DOCSTRING | OP_CALL_STACK
  | OP_BITOR | OP_BITXOR | OP_BITAND | OP_SHIFTLEFT | OP_SHIFTRIGHT | OP_BITNEGATE
  | OP_INVOKE_GETTER | OP_INVOKE_SETTER | OP_INVOKE_GETSLICE | OP_SWAP | OP_FINALIZE
  | OP_DUP | OP_EXPAND_ARGS
  | OP_DEFINE_GLOBAL | OP_DEFINE_GLOBAL_LONG | OP_CONSTANT | OP_CONSTANT_LONG
  | OP_GET_GLOBAL | OP_GET_GLOBAL_LONG | OP_SET_GLOBAL | OP_SET_GLOBAL_LONG
  | OP_CLASS | OP_CLASS_LONG | OP_GET_PROPERTY | OP_GET_PROPERTY_LONG
  | OP_SET_PROPERTY | OP_SET_PROPERTY_LONG | OP_METHOD | OP_METHOD_LONG
  | OP_CLOSURE | OP_CLOSURE_LONG | OP_IMPORT | OP_IMPORT_LONG
  | OP_GET_SUPER | OP_GET_SUPER_LONG
  | OP_KWARGS | OP_KWARGS_LONG | OP_SET_LOCAL | OP_SET_LOCAL_LONG
  | OP_GET_LOCAL | OP_GET_LOCAL_LONG | OP_SET_UPVALUE | OP_SET_UPVALUE_LONG
  | OP_GET_UPVALUE | OP_GET_UPVALUE_LONG | OP_CALL | OP_CALL_LONG | OP_INC | OP_INC_LONG
  | OP_JUMP | OP_JUMP_IF_FALSE | OP_JUMP_IF_TRUE | OP_LOOP | OP_PUSH_TRY
  deriving DecidableEq, Repr

/-- What `debug.c` takes from files that are not among the sources: the numbering of
the enumeration `KrkOpCode` (chunk.h), read as the member a byte value denotes, if any,
and the printers `krk_printValueSafe` and `krk_typeName` (value.c), read as the text
they produce. -/
structure DebugEnv where
  opcode : Byte → Option KrkOpCode
  printValueSafe : KrkValue → String
  typeName : KrkValue → String

/-- The read `chunk->code[i]`; the index is recorded by the caller, and a read at or
past `count`, which C leaves undefined, yields 0. -/
def KrkChunk.codeAt (chunk : KrkChunk) (i : Nat) : Byte := chunk.code.getD i 0

/-- The read `chunk->constants.values[k]`; a read at or past the constants count, which C
leaves undefined, yields the none value. -/
def KrkChunk.constantAt (chunk : KrkChunk) (k : Nat) : KrkValue :=
  chunk.constants.getD k KrkValue.none

/-- The read `AS_FUNCTION(value)->upvalueCount`; on a value that is not a function object,
where C leaves the read undefined, it yields 0. -/
def KrkVM.upvalueCountOf (vm : KrkVM) (value : KrkValue) : Nat :=
  match value with
  | KrkValue.object r =>
    match vm.heap[r]? with
    | some o => match o.body with
      | ObjBody.function f => f.upvalueCount
      | _ => 0
    | Option.none => 0
  | _ => 0

/-- What one call of `krk_disassembleInstruction`, or a part of it, does: the texts written
to `stderr` (one element per call of `fprintf` or `krk_printValueSafe`), the indices of
the reads of `chunk->code` and of `chunk->constants.values` in order, and the value of
`offset` at the end (for the whole function: the returned offset). -/
structure Disassembly where
  out : List String
  codeReads : List Nat
  constReads : List Nat
  next : Nat
  deriving DecidableEq, Repr

/-- The trailer line of `CLOSURE_MORE`:
`fprintf(stderr, "%04d      |                     %s %d\n", (int)offset - 2, isLocal ? "local" : "upvalue", index)`. -/
def closureLine (label : Int) (isLocal index : Nat) : String :=
  fmtZeroD 4 label ++ "      |                     "
    ++ (if isLocal ≠ 0 then "local" else "upvalue") ++ " " ++ fmtD 0 (index : Int) ++ "\n"

/-- The loop of the macro `CLOSURE_MORE` with `remaining` iterations to go
(`function->upvalueCount - j`): each iteration reads `isLocal` and `index` at
`offset++ + 2` and writes one line labelled `(int)offset - 2`. -/
def CLOSURE_MORE.loop (chunk : KrkChunk) : Nat → Nat → Disassembly
  | 0, offset => { out := [], codeReads := [], constReads := [], next := offset }
  | remaining + 1, offset =>
    let isLocal := (chunk.codeAt (offset + 2)).val
    let offset1 := offset + 1
    let index := (chunk.codeAt (offset1 + 2)).val
    let offset2 := offset1 + 1
    let line := closureLine (toInt32 offset2 - 2) isLocal index
    let rest := CLOSURE_MORE.loop chunk remaining offset2
    { out := line :: rest.out
      codeReads := (offset + 2) :: (offset1 + 2) :: rest.codeReads
      constReads := rest.constReads
      next := rest.next }

/-- The macro `CLOSURE_MORE`, the `more` argument of `CONSTANT(OP_CLOSURE, ...)`. -/
def CLOSURE_MORE (vm : KrkVM) (chunk : KrkChunk) (constant offset : Nat) : Disassembly :=
  let function := chunk.constantAt constant
  let r := CLOSURE_MORE.loop chunk (vm.upvalueCountOf function) offset
  { r with constReads := constant :: r.constReads }

/-- The `more` argument `(void)0` of the other uses of `CONSTANT`. -/
def noMore (_vm : KrkVM) (_chunk : KrkChunk) (_constant offset : Nat) : Disassembly :=
  { out := [], codeReads := [], constReads := [], next := offset }

/-- The macro `SIMPLE(opc)`. -/
def SIMPLE (opc : String) (offset : Nat) : Disassembly :=
  { out := [opc ++ "\n"], codeReads := [], constReads := [], next := offset + 1 }

/-- The first case of the macro `CONSTANT(opc, more)`: a one-byte constant index. -/
def CONSTANT (env : DebugEnv) (vm : KrkVM) (chunk : KrkChunk) (opc : String)
    (more : KrkVM → KrkChunk → Nat → Nat → Disassembly) (offset : Nat) : Disassembly :=
  let constant := (chunk.codeAt (offset + 1)).val
  let m := more vm chunk constant offset
  { out := [fmtLeftS 16 opc ++ " " ++ fmtD 4 (toInt32 constant) ++ " ",
            env.printValueSafe (chunk.constantAt constant),
            " (type=" ++ env.typeName (chunk.constantAt constant) ++ ")\n"] ++ m.out
    codeReads := (offset + 1) :: m.codeReads
    constReads := constant :: constant :: m.constReads
    next := m.next + 2 }

/-- The index `(code[offset + 1] << 16) | (code[offset + 2] << 8) | code[offset + 3]`
of the long forms. -/
def longOperand (chunk : KrkChunk) (offset : Nat) : Nat :=
  ((chunk.codeAt (offset + 1)).val <<< 16) ||| ((chunk.codeAt (offset + 2)).val <<< 8)
    ||| (chunk.codeAt (offset + 3)).val

/-- The second case of the macro `CONSTANT(opc, more)`, `opc ## _LONG`: a three-byte index. -/
def CONSTANT_LONG (env : DebugEnv) (vm : KrkVM) (chunk : KrkChunk) (opc : String)
    (more : KrkVM → KrkChunk → Nat → Nat → Disassembly) (offset : Nat) : Disassembly :=
  let constant := longOperand chunk offset
  let m := more vm chunk constant offset
  { out := [fmtLeftS 16 (opc ++ "_LONG") ++ " " ++ fmtD 4 (toInt32 constant) ++ " ",
            env.printValueSafe (chunk.constantAt constant),
            " (type=" ++ env.typeName (chunk.constantAt constant) ++ ")\n"] ++ m.out
    codeReads := (offset + 1) :: (offset + 2) :: (offset + 3) :: m.codeReads
    constReads := constant :: constant :: m.constReads
    next := m.next + 4 }

/-- The macro `OPERANDB(opc)`: a one-byte operand. -/
def OPERANDB (chunk : KrkChunk) (opc : String) (offset : Nat) : Disassembly :=
  let operand := (chunk.codeAt (offset + 1)).val
  { out := [fmtLeftS 16 opc ++ " " ++ fmtD 4 (toInt32 operand) ++ "\n"]
    codeReads := [offset + 1], constReads := [], next := offset + 2 }

/-- The second case of the macro `OPERAND(opc)`, `opc ## _LONG`: a three-byte operand. -/
def OPERAND_LONG (chunk : KrkChunk) (opc : String) (offset : Nat) : Disassembly :=
  let operand := longOperand chunk offset % 4294967296
  { out := [fmtLeftS 16 (opc ++ "_LONG") ++ " " ++ fmtD 4 (toInt32 operand) ++ "\n"]
    codeReads := [offset + 1, offset + 2, offset + 3], constReads := [], next := offset + 4 }

/-- The sign argument of the macro `JUMP`. -/
inductive JumpSign where
  | plus | minus
  deriving DecidableEq, Repr

/-- The `uint16_t jump = (code[offset + 1] << 8) | code[offset + 2]` of the macro `JUMP`. -/
def jumpOperand (chunk : KrkChunk) (offset : Nat) : Nat :=
  (((chunk.codeAt (offset + 1)).val <<< 8) ||| (chunk.codeAt (offset + 2)).val) % 65536

/-- The target `(int)(offset + 3 sign jump)` of the macro `JUMP`, computed in `size_t`. -/
def jumpTarget (sign : JumpSign) (offset jump : Nat) : Int :=
  match sign with
  | JumpSign.plus => toInt32 (toSizeT ((offset : Int) + 3 + jump))
  | JumpSign.minus => toInt32 (toSizeT ((offset : Int) + 3 - jump))

/-- The macro `JUMP(opc, sign)`. -/
def JUMP (chunk : KrkChunk) (opc : String) (sign : JumpSign) (offset : Nat) : Disassembly :=
  let jump := jumpOperand chunk offset
  { out := [fmtLeftS 16 opc ++ " " ++ fmtD 4 (toInt32 offset) ++ " -> "
              ++ fmtD 0 (jumpTarget sign offset jump) ++ "\n"]
    codeReads := [offset + 1, offset + 2], constReads := [], next := offset + 3 }

/-- The two `fprintf` calls that open `krk_disassembleInstruction`: the offset as `%04u`,
then `   | ` when the previous byte is on the same line and the line as `%4d` otherwise. -/
def gutter (chunk : KrkChunk) (offset : Nat) : List String :=
  [fmtZeroU 4 (offset % 4294967296) ++ " ",
   if offset > 0 ∧ krk_lineNumber chunk offset = krk_lineNumber chunk (offset - 1)
   then "   | "
   else fmtD 4 (toInt32 (krk_lineNumber chunk offset)) ++ " "]

/-- The text written for a byte that is no case label: `"Unknown opcode: %02x\n"`. -/
def unknownOpcode (opcode : Byte) (offset : Nat) : Disassembly :=
  { out := ["Unknown opcode: " ++ fmtZeroX 2 opcode.val ++ "\n"]
    codeReads := [], constReads := [], next := offset + 1 }

/-- The switch of `krk_disassembleInstruction` on the opcode byte read at `offset`: one
case per macro use, in the order of the source, and the text for an unknown opcode when
no case applies. -/
def disassembleSwitch (env : DebugEnv) (vm : KrkVM) (chunk : KrkChunk) (opcode : Byte)
    (offset : Nat) : Disassembly :=
  match env.opcode opcode with
  | some KrkOpCode.OP_RETURN => SIMPLE "OP_RETURN" offset
  | some KrkOpCode.OP_ADD => SIMPLE "OP_ADD" offset
  | some KrkOpCode.OP_SUBTRACT => SIMPLE "OP_SUBTRACT" offset
  | some KrkOpCode.OP_MULTIPLY => SIMPLE "OP_MULTIPLY" offset
  | some KrkOpCode.OP_DIVIDE => SIMPLE "OP_DIVIDE" offset
  | some KrkOpCode.OP_NEGATE => SIMPLE "OP_NEGATE" offset
  | some KrkOpCode.OP_MODULO => SIMPLE "OP_MODULO" offset
  | some KrkOpCode.OP_NONE => SIMPLE "OP_NONE" offset
  | some KrkOpCode.OP_TRUE => SIMPLE "OP_TRUE" offset
  | some KrkOpCode.OP_FALSE => SIMPLE "OP_FALSE" offset
  | some KrkOpCode.OP_NOT => SIMPLE "OP_NOT" offset
  | some KrkOpCode.OP_EQUAL => SIMPLE "OP_EQUAL" offset
  | some KrkOpCode.OP_GREATER => SIMPLE "OP_GREATER" offset
  | some KrkOpCode.OP_LESS => SIMPLE "OP_LESS" offset
  | some KrkOpCode.OP_POP => SIMPLE "OP_POP" offset
  | some KrkOpCode.OP_INHERIT => SIMPLE "OP_INHERIT" offset
  | some KrkOpCode.OP_RAISE => SIMPLE "OP_RAISE" offset
  | some KrkOpCode.OP_CLOSE_UPVALUE => SIMPLE "OP_CLOSE_UPVALUE" offset
  | some KrkOpCode.OP_DOCSTRING => SIMPLE "OP_DOCSTRING" offset
  | some KrkOpCode.OP_CALL_STACK => SIMPLE "OP_CALL_STACK" offset
  | some KrkOpCode.OP_BITOR => SIMPLE "OP_BITOR" offset
  | some KrkOpCode.OP_BITXOR => SIMPLE "OP_BITXOR" offset
  | some KrkOpCode.OP_BITAND => SIMPLE "OP_BITAND" offset
  | some KrkOpCode.OP_SHIFTLEFT => SIMPLE "OP_SHIFTLEFT" offset
  | some KrkOpCode.OP_SHIFTRIGHT => SIMPLE "OP_SHIFTRIGHT" offset
  | some KrkOpCode.OP_BITNEGATE => SIMPLE "OP_BITNEGATE" offset
  | some KrkOpCode.OP_INVOKE_GETTER => SIMPLE "OP_INVOKE_GETTER" offset
  | some KrkOpCode.OP_INVOKE_SETTER => SIMPLE "OP_INVOKE_SETTER" offset
  | some KrkOpCode.OP_INVOKE_GETSLICE => SIMPLE "OP_INVOKE_GETSLICE" offset
  | some KrkOpCode.OP_SWAP => SIMPLE "OP_SWAP" offset
  | some KrkOpCode.OP_FINALIZE => SIMPLE "OP_FINALIZE" offset
  | some KrkOpCode.OP_DUP => OPERANDB chunk "OP_DUP" offset
  | some KrkOpCode.OP_EXPAND_ARGS => OPERANDB chunk "OP_EXPAND_ARGS" offset
  | some KrkOpCode.OP_DEFINE_GLOBAL => CONSTANT env vm chunk "OP_DEFINE_GLOBAL" noMore offset
  | some KrkOpCode.OP_DEFINE_GLOBAL_LONG => CONSTANT_LONG env vm chunk "OP_DEFINE_GLOBAL" noMore offset
  | some KrkOpCode.OP_CONSTANT => CONSTANT env vm chunk "OP_CONSTANT" noMore offset
  | some KrkOpCode.OP_CONSTANT_LONG => CONSTANT_LONG env vm chunk "OP_CONSTANT" noMore offset
  | some KrkOpCode.OP_GET_GLOBAL => CONSTANT env vm chunk "OP_GET_GLOBAL" noMore offset
  | some KrkOpCode.OP_GET_GLOBAL_LONG => CONSTANT_LONG env vm chunk "OP_GET_GLOBAL" noMore offset
  | some KrkOpCode.OP_SET_GLOBAL => CONSTANT env vm chunk "OP_SET_GLOBAL" noMore offset
  | some KrkOpCode.OP_SET_GLOBAL_LONG => CONSTANT_LONG env vm chunk "OP_SET_GLOBAL" noMore offset
  | some KrkOpCode.OP_CLASS => CONSTANT env vm chunk "OP_CLASS" noMore offset
  | some KrkOpCode.OP_CLASS_LONG => CONSTANT_LONG env vm chunk "OP_CLASS" noMore offset
  | some KrkOpCode.OP_GET_PROPERTY => CONSTANT env vm chunk "OP_GET_PROPERTY" noMore offset
  | some KrkOpCode.OP_GET_PROPERTY_LONG => CONSTANT_LONG env vm chunk "OP_GET_PROPERTY" noMore offset
  | some KrkOpCode.OP_SET_PROPERTY => CONSTANT env vm chunk "OP_SET_PROPERTY" noMore offset
  | some KrkOpCode.OP_SET_PROPERTY_LONG => CONSTANT_LONG env vm chunk "OP_SET_PROPERTY" noMore offset
  | some KrkOpCode.OP_METHOD => CONSTANT env vm chunk "OP_METHOD" noMore offset
  | some KrkOpCode.OP_METHOD_LONG => CONSTANT_LONG env vm chunk "OP_METHOD" noMore offset
  | some KrkOpCode.OP_CLOSURE => CONSTANT env vm chunk "OP_CLOSURE" CLOSURE_MORE offset
  | some KrkOpCode.OP_CLOSURE_LONG => CONSTANT_LONG env vm chunk "OP_CLOSURE" CLOSURE_MORE offset
  | some KrkOpCode.OP_IMPORT => CONSTANT env vm chunk "OP_IMPORT" noMore offset
  | some KrkOpCode.OP_IMPORT_LONG => CONSTANT_LONG env vm chunk "OP_IMPORT" noMore offset
  | some KrkOpCode.OP_GET_SUPER => CONSTANT env vm chunk "OP_GET_SUPER" noMore offset
  | some KrkOpCode.OP_GET_SUPER_LONG => CONSTANT_LONG env vm chunk "OP_GET_SUPER" noMore offset
  | some KrkOpCode.OP_KWARGS => OPERANDB chunk "OP_KWARGS" offset
  | some KrkOpCode.OP_KWARGS_LONG => OPERAND_LONG chunk "OP_KWARGS" offset
  | some KrkOpCode.OP_SET_LOCAL => OPERANDB chunk "OP_SET_LOCAL" offset
  | some KrkOpCode.OP_SET_LOCAL_LONG => OPERAND_LONG chunk "OP_SET_LOCAL" offset
  | some KrkOpCode.OP_GET_LOCAL => OPERANDB chunk "OP_GET_LOCAL" offset
  | some KrkOpCode.OP_GET_LOCAL_LONG => OPERAND_LONG chunk "OP_GET_LOCAL" offset
  | some KrkOpCode.OP_SET_UPVALUE => OPERANDB chunk "OP_SET_UPVALUE" offset
  | some KrkOpCode.OP_SET_UPVALUE_LONG => OPERAND_LONG chunk "OP_SET_UPVALUE" offset
  | some KrkOpCode.OP_GET_UPVALUE => OPERANDB chunk "OP_GET_UPVALUE" offset
  | some KrkOpCode.OP_GET_UPVALUE_LONG => OPERAND_LONG chunk "OP_GET_UPVALUE" offset
  | some KrkOpCode.OP_CALL => OPERANDB chunk "OP_CALL" offset
  | some KrkOpCode.OP_CALL_LONG => OPERAND_LONG chunk "OP_CALL" offset
  | some KrkOpCode.OP_INC => OPERANDB chunk "OP_INC" offset
  | some KrkOpCode.OP_INC_LONG => OPERAND_LONG chunk "OP_INC" offset
  | some KrkOpCode.OP_JUMP => JUMP chunk "OP_JUMP" JumpSign.plus offset
  | some KrkOpCode.OP_JUMP_IF_FALSE => JUMP chunk "OP_JUMP_IF_FALSE" JumpSign.plus offset
  | some KrkOpCode.OP_JUMP_IF_TRUE => JUMP chunk "OP_JUMP_IF_TRUE" JumpSign.plus offset
  | some KrkOpCode.OP_LOOP => JUMP chunk "OP_LOOP" JumpSign.minus offset
  | some KrkOpCode.OP_PUSH_TRY => JUMP chunk "OP_PUSH_TRY" JumpSign.plus offset
  | Option.none => unknownOpcode opcode offset

/-- The function `krk_disassembleInstruction(chunk, offset)`: the gutter, the read of the
opcode byte, the switch. -/
def krk_disassembleInstruction (env : DebugEnv) (vm : KrkVM) (chunk : KrkChunk)
    (offset : Nat) : Disassembly :=
  let opcode := chunk.codeAt offset
  let r := disassembleSwitch env vm chunk opcode offset
  { out := gutter chunk offset ++ r.out
    codeReads := offset :: r.codeReads
    constReads := r.constReads
    next := r.next }

/-! ## Encoding classes of the specification -/

/-- The simple opcodes: one byte, no operand. -/
def KrkOpCode.isSimple : KrkOpCode → Bool
  | KrkOpCode.OP_RETURN => true
  | KrkOpCode.OP_ADD => true
  | KrkOpCode.OP_SUBTRACT => true
  | KrkOpCode.OP_MULTIPLY => true
  | KrkOpCode.OP_DIVIDE => true
  | KrkOpCode.OP_NEGATE => true
  | KrkOpCode.OP_MODULO => true
  | KrkOpCode.OP_NONE => true
  | KrkOpCode.OP_TRUE => true
  | KrkOpCode.OP_FALSE => true
  | KrkOpCode.OP_NOT => true
  | KrkOpCode.OP_EQUAL => true
  | KrkOpCode.OP_GREATER => true
  | KrkOpCode.OP_LESS => true
  | KrkOpCode.OP_POP => true
  | KrkOpCode.OP_INHERIT => true
  | KrkOpCode.OP_RAISE => true
  | KrkOpCode.OP_CLOSE_UPVALUE => true
  | KrkOpCode.OP_DOCSTRING => true
  | KrkOpCode.OP_CALL_STACK => true
  | KrkOpCode.OP_BITOR => true
  | KrkOpCode.OP_BITXOR => true
  | KrkOpCode.OP_BITAND => true
  | KrkOpCode.OP_SHIFTLEFT => true
  | KrkOpCode.OP_SHIFTRIGHT => true
  | KrkOpCode.OP_BITNEGATE => true
  | KrkOpCode.OP_INVOKE_GETTER => true
  | KrkOpCode.OP_INVOKE_SETTER => true
  | KrkOpCode.OP_INVOKE_GETSLICE => true
  | KrkOpCode.OP_SWAP => true
  | KrkOpCode.OP_FINALIZE => true
  | _ => false

/-- The operand-short and constant-short opcodes other than closure: one operand byte. -/
def KrkOpCode.isShort : KrkOpCode → Bool
  | KrkOpCode.OP_DUP => true
  | KrkOpCode.OP_EXPAND_ARGS => true
  | KrkOpCode.OP_DEFINE_GLOBAL => true
  | KrkOpCode.OP_CONSTANT => true
  | KrkOpCode.OP_GET_GLOBAL => true
  | KrkOpCode.OP_SET_GLOBAL => true
  | KrkOpCode.OP_CLASS => true
  | KrkOpCode.OP_GET_PROPERTY => true
  | KrkOpCode.OP_SET_PROPERTY => true
  | KrkOpCode.OP_METHOD => true
  | KrkOpCode.OP_IMPORT => true
  | KrkOpCode.OP_GET_SUPER => true
  | KrkOpCode.OP_KWARGS => true
  | KrkOpCode.OP_SET_LOCAL => true
  | KrkOpCode.OP_GET_LOCAL => true
  | KrkOpCode.OP_SET_UPVALUE => true
  | KrkOpCode.OP_GET_UPVALUE => true
  | KrkOpCode.OP_CALL => true
  | KrkOpCode.OP_INC => true
  | _ => false

/-- The operand-long and constant-long opcodes other than closure-long: three operand bytes. -/
def KrkOpCode.isLong : KrkOpCode → Bool
  | KrkOpCode.OP_DEFINE_GLOBAL_LONG => true
  | KrkOpCode.OP_CONSTANT_LONG => true
  | KrkOpCode.OP_GET_GLOBAL_LONG => true
  | KrkOpCode.OP_SET_GLOBAL_LONG => true
  | KrkOpCode.OP_CLASS_LONG => true
  | KrkOpCode.OP_GET_PROPERTY_LONG => true
  | KrkOpCode.OP_SET_PROPERTY_LONG => true
  | KrkOpCode.OP_METHOD_LONG => true
  | KrkOpCode.OP_IMPORT_LONG => true
  | KrkOpCode.OP_GET_SUPER_LONG => true
  | KrkOpCode.OP_KWARGS_LONG => true
  | KrkOpCode.OP_SET_LOCAL_LONG => true
  | KrkOpCode.OP_GET_LOCAL_LONG => true
  | KrkOpCode.OP_SET_UPVALUE_LONG => true
  | KrkOpCode.OP_GET_UPVALUE_LONG => true
  | KrkOpCode.OP_CALL_LONG => true
  | KrkOpCode.OP_INC_LONG => true
  | _ => false

/-- The jump-class opcodes: a two-byte displacement. -/
def KrkOpCode.isJump : KrkOpCode → Bool
  | KrkOpCode.OP_JUMP => true
  | KrkOpCode.OP_JUMP_IF_FALSE => true
  | KrkOpCode.OP_JUMP_IF_TRUE => true
  | KrkOpCode.OP_LOOP => true
  | KrkOpCode.OP_PUSH_TRY => true
  | _ => false

/-- The name of an opcode as the disassembler prints it, `#opc`. -/
def KrkOpCode.name : KrkOpCode → String
  | KrkOpCode.OP_RETURN => "OP_RETURN"
  | KrkOpCode.OP_ADD => "OP_ADD"
  | KrkOpCode.OP_SUBTRACT => "OP_SUBTRACT"
  | KrkOpCode.OP_MULTIPLY => "OP_MULTIPLY"
  | KrkOpCode.OP_DIVIDE => "OP_DIVIDE"
  | KrkOpCode.OP_NEGATE => "OP_NEGATE"
  | KrkOpCode.OP_MODULO => "OP_MODULO"
  | KrkOpCode.OP_NONE => "OP_NONE"
  | KrkOpCode.OP_TRUE => "OP_TRUE"
  | KrkOpCode.OP_FALSE => "OP_FALSE"
  | KrkOpCode.OP_NOT => "OP_NOT"
  | KrkOpCode.OP_EQUAL => "OP_EQUAL"
  | KrkOpCode.OP_GREATER => "OP_GREATER"
  | KrkOpCode.OP_LESS => "OP_LESS"
  | KrkOpCode.OP_POP => "OP_POP"
  | KrkOpCode.OP_INHERIT => "OP_INHERIT"
  | KrkOpCode.OP_RAISE => "OP_RAISE"
  | KrkOpCode.OP_CLOSE_UPVALUE => "OP_CLOSE_UPVALUE"
  | KrkOpCode.OP_DOCSTRING => "OP_DOCSTRING"
  | KrkOpCode.OP_CALL_STACK => "OP_CALL_STACK"
  | KrkOpCode.OP_BITOR => "OP_BITOR"
  | KrkOpCode.OP_BITXOR => "OP_BITXOR"
  | KrkOpCode.OP_BITAND => "OP_BITAND"
  | KrkOpCode.OP_SHIFTLEFT => "OP_SHIFTLEFT"
  | KrkOpCode.OP_SHIFTRIGHT => "OP_SHIFTRIGHT"
  | KrkOpCode.OP_BITNEGATE => "OP_BITNEGATE"
  | KrkOpCode.OP_INVOKE_GETTER => "OP_INVOKE_GETTER"
  | KrkOpCode.OP_INVOKE_SETTER => "OP_INVOKE_SETTER"
  | KrkOpCode.OP_INVOKE_GETSLICE => "OP_INVOKE_GETSLICE"
  | KrkOpCode.OP_SWAP => "OP_SWAP"
  | KrkOpCode.OP_FINALIZE => "OP_FINALIZE"
  | KrkOpCode.OP_DUP => "OP_DUP"
  | KrkOpCode.OP_EXPAND_ARGS => "OP_EXPAND_ARGS"
  | KrkOpCode.OP_DEFINE_GLOBAL => "OP_DEFINE_GLOBAL"
  | KrkOpCode.OP_DEFINE_GLOBAL_LONG => "OP_DEFINE_GLOBAL_LONG"
  | KrkOpCode.OP_CONSTANT => "OP_CONSTANT"
  | KrkOpCode.OP_CONSTANT_LONG => "OP_CONSTANT_LONG"
  | KrkOpCode.OP_GET_GLOBAL => "OP_GET_GLOBAL"
  | KrkOpCode.OP_GET_GLOBAL_LONG => "OP_GET_GLOBAL_LONG"
  | KrkOpCode.OP_SET_GLOBAL => "OP_SET_GLOBAL"
  | KrkOpCode.OP_SET_GLOBAL_LONG => "OP_SET_GLOBAL_LONG"
  | KrkOpCode.OP_CLASS => "OP_CLASS"
  | KrkOpCode.OP_CLASS_LONG => "OP_CLASS_LONG"
  | KrkOpCode.OP_GET_PROPERTY => "OP_GET_PROPERTY"
  | KrkOpCode.OP_GET_PROPERTY_LONG => "OP_GET_PROPERTY_LONG"
  | KrkOpCode.OP_SET_PROPERTY => "OP_SET_PROPERTY"
  | KrkOpCode.OP_SET_PROPERTY_LONG => "OP_SET_PROPERTY_LONG"
  | KrkOpCode.OP_METHOD => "OP_METHOD"
  | KrkOpCode.OP_METHOD_LONG => "OP_METHOD_LONG"
  | KrkOpCode.OP_CLOSURE => "OP_CLOSURE"
  | KrkOpCode.OP_CLOSURE_LONG => "OP_CLOSURE_LONG"
  | KrkOpCode.OP_IMPORT => "OP_IMPORT"
  | KrkOpCode.OP_IMPORT_LONG => "OP_IMPORT_LONG"
  | KrkOpCode.OP_GET_SUPER => "OP_GET_SUPER"
  | KrkOpCode.OP_GET_SUPER_LONG => "OP_GET_SUPER_LONG"
  | KrkOpCode.OP_KWARGS => "OP_KWARGS"
  | KrkOpCode.OP_KWARGS_LONG => "OP_KWARGS_LONG"
  | KrkOpCode.OP_SET_LOCAL => "OP_SET_LOCAL"
  | KrkOpCode.OP_SET_LOCAL_LONG => "OP_SET_LOCAL_LONG"
  | KrkOpCode.OP_GET_LOCAL => "OP_GET_LOCAL"
  | KrkOpCode.OP_GET_LOCAL_LONG => "OP_GET_LOCAL_LONG"
  | KrkOpCode.OP_SET_UPVALUE => "OP_SET_UPVALUE"
  | KrkOpCode.OP_SET_UPVALUE_LONG => "OP_SET_UPVALUE_LONG"
  | KrkOpCode.OP_GET_UPVALUE => "OP_GET_UPVALUE"
  | KrkOpCode.OP_GET_UPVALUE_LONG => "OP_GET_UPVALUE_LONG"
  | KrkOpCode.OP_CALL => "OP_CALL"
  | KrkOpCode.OP_CALL_LONG => "OP_CALL_LONG"
  | KrkOpCode.OP_INC => "OP_INC"
  | KrkOpCode.OP_INC_LONG => "OP_INC_LONG"
  | KrkOpCode.OP_JUMP => "OP_JUMP"
  | KrkOpCode.OP_JUMP_IF_FALSE => "OP_JUMP_IF_FALSE"
  | KrkOpCode.OP_JUMP_IF_TRUE => "OP_JUMP_IF_TRUE"
  | KrkOpCode.OP_LOOP => "OP_LOOP"
  | KrkOpCode.OP_PUSH_TRY => "OP_PUSH_TRY"

/-- The members of `KrkOpCode` in the order of the switch. -/
def KrkOpCode.all : List KrkOpCode :=
  [KrkOpCode.OP_RETURN, KrkOpCode.OP_ADD, KrkOpCode.OP_SUBTRACT, KrkOpCode.OP_MULTIPLY,
   KrkOpCode.OP_DIVIDE, KrkOpCode.OP_NEGATE, KrkOpCode.OP_MODULO, KrkOpCode.OP_NONE,
   KrkOpCode.OP_TRUE, KrkOpCode.OP_FALSE, KrkOpCode.OP_NOT, KrkOpCode.OP_EQUAL,
   KrkOpCode.OP_GREATER, KrkOpCode.OP_LESS, KrkOpCode.OP_POP, KrkOpCode.OP_INHERIT,
   KrkOpCode.OP_RAISE, KrkOpCode.OP_CLOSE_UPVALUE, KrkOpCode.OP_DOCSTRING, KrkOpCode.OP_CALL_STACK,
   KrkOpCode.OP_BITOR, KrkOpCode.OP_BITXOR, KrkOpCode.OP_BITAND, KrkOpCode.OP_SHIFTLEFT,
   KrkOpCode.OP_SHIFTRIGHT, KrkOpCode.OP_BITNEGATE, KrkOpCode.OP_INVOKE_GETTER, KrkOpCode.OP_INVOKE_SETTER,
   KrkOpCode.OP_INVOKE_GETSLICE, KrkOpCode.OP_SWAP, KrkOpCode.OP_FINALIZE, KrkOpCode.OP_DUP,
   KrkOpCode.OP_EXPAND_ARGS, KrkOpCode.OP_DEFINE_GLOBAL, KrkOpCode.OP_DEFINE_GLOBAL_LONG, KrkOpCode.OP_CONSTANT,
   KrkOpCode.OP_CONSTANT_LONG, KrkOpCode.OP_GET_GLOBAL, KrkOpCode.OP_GET_GLOBAL_LONG, KrkOpCode.OP_SET_GLOBAL,
   KrkOpCode.OP_SET_GLOBAL_LONG, KrkOpCode.OP_CLASS, KrkOpCode.OP_CLASS_LONG, KrkOpCode.OP_GET_PROPERTY,
   KrkOpCode.OP_GET_PROPERTY_LONG, KrkOpCode.OP_SET_PROPERTY, KrkOpCode.OP_SET_PROPERTY_LONG, KrkOpCode.OP_METHOD,
   KrkOpCode.OP_METHOD_LONG, KrkOpCode.OP_CLOSURE, KrkOpCode.OP_CLOSURE_LONG, KrkOpCode.OP_IMPORT,
   KrkOpCode.OP_IMPORT_LONG, KrkOpCode.OP_GET_SUPER, KrkOpCode.OP_GET_SUPER_LONG, KrkOpCode.OP_KWARGS,
   KrkOpCode.OP_KWARGS_LONG, KrkOpCode.OP_SET_LOCAL, KrkOpCode.OP_SET_LOCAL_LONG, KrkOpCode.OP_GET_LOCAL,
   KrkOpCode.OP_GET_LOCAL_LONG, KrkOpCode.OP_SET_UPVALUE, KrkOpCode.OP_SET_UPVALUE_LONG, KrkOpCode.OP_GET_UPVALUE,
   KrkOpCode.OP_GET_UPVALUE_LONG, KrkOpCode.OP_CALL, KrkOpCode.OP_CALL_LONG, KrkOpCode.OP_INC,
   KrkOpCode.OP_INC_LONG, KrkOpCode.OP_JUMP, KrkOpCode.OP_JUMP_IF_FALSE, KrkOpCode.OP_JUMP_IF_TRUE,
   KrkOpCode.OP_LOOP, KrkOpCode.OP_PUSH_TRY]

/-- A sample numbering of `KrkOpCode` for the worked examples: the members numbered from 1
in the order of the switch, every other byte value denoting no opcode. -/
def sampleOpcode (b : Byte) : Option KrkOpCode :=
  if b.val = 0 then Option.none else KrkOpCode.all[b.val - 1]?

/-- The byte that `sampleOpcode` assigns to an opcode. -/
def sampleByte (op : KrkOpCode) : Byte := Fin.ofNat (KrkOpCode.all.indexOf op + 1)

/-- A sample environment for the worked examples: the sample numbering, integers printed
in decimal and typed `int`, every other value printed as `<value>` and typed `object`. -/
def sampleEnv : DebugEnv :=
  { opcode := sampleOpcode
    printValueSafe := fun v => match v with
      | KrkValue.integer i => toString i
      | _ => "<value>"
    typeName := fun v => match v with
      | KrkValue.integer _ => "int"
      | _ => "object" }

/-- The chunk of the round-trip sample: code `[OP_CONSTANT 0, OP_RETURN]`, all on
line 1, constants `[42]`. -/
def sampleChunk : KrkChunk :=
  { code := [sampleByte KrkOpCode.OP_CONSTANT, 0, sampleByte KrkOpCode.OP_RETURN]
    lines := [{ startOffset := 0, line := 1 }]
    constants := [KrkValue.integer 42]
    filename := Option.none }

/-- A chunk holding `OP_CONSTANT_LONG 01 02 03`. -/
def sampleLongChunk : KrkChunk :=
  { code := [sampleByte KrkOpCode.OP_CONSTANT_LONG, 1, 2, 3]
    lines := [{ startOffset := 0, line := 1 }]
    constants := []
    filename := Option.none }

/-- A VM whose only object is a function with `upvalueCount = 2`. -/
def vmWithFunction : KrkVM :=
  { KrkVM.empty with
    heap := [{ type := ObjType.OBJ_FUNCTION, isMarked := false, next := Option.none,
               body := ObjBody.function { arity := 0, upvalueCount := 2, name := Option.none,
                                          chunk := krk_initChunk } }]
    objects := some 0 }

/-- A chunk holding `OP_CLOSURE 0` followed by the trailer bytes `[1, 5, 0, 3]`, constant 0
being the function of `vmWithFunction`. -/
def sampleClosureChunk : KrkChunk :=
  { code := [sampleByte KrkOpCode.OP_CLOSURE, 0, 1, 5, 0, 3]
    lines := [{ startOffset := 0, line := 1 }]
    constants := [KrkValue.object 0]
    filename := Option.none }

/-- A chunk holding `OP_JUMP 00 05` at offset 0 and `OP_LOOP 00 09` at offset 3. -/
def sampleJumpChunk : KrkChunk :=
  { code := [sampleByte KrkOpCode.OP_JUMP, 0, 5, sampleByte KrkOpCode.OP_LOOP, 0, 9]
    lines := [{ startOffset := 0, line := 1 }]
    constants := []
    filename := Option.none }

/-- The constant-long opcodes, closure-long included: a three-byte index into the constants. -/
def KrkOpCode.isConstantLong : KrkOpCode → Bool
  | KrkOpCode.OP_DEFINE_GLOBAL_LONG => true
  | KrkOpCode.OP_CONSTANT_LONG => true
  | KrkOpCode.OP_GET_GLOBAL_LONG => true
  | KrkOpCode.OP_SET_GLOBAL_LONG => true
  | KrkOpCode.OP_CLASS_LONG => true
  | KrkOpCode.OP_GET_PROPERTY_LONG => true
  | KrkOpCode.OP_SET_PROPERTY_LONG => true
  | KrkOpCode.OP_METHOD_LONG => true
  | KrkOpCode.OP_CLOSURE_LONG => true
  | KrkOpCode.OP_IMPORT_LONG => true
  | KrkOpCode.OP_GET_SUPER_LONG => true
  | _ => false

/-- The operand-long opcodes: a three-byte operand. -/
def KrkOpCode.isOperandLong : KrkOpCode → Bool
  | KrkOpCode.OP_KWARGS_LONG => true
  | KrkOpCode.OP_SET_LOCAL_LONG => true
  | KrkOpCode.OP_GET_LOCAL_LONG => true
  | KrkOpCode.OP_SET_UPVALUE_LONG => true
  | KrkOpCode.OP_GET_UPVALUE_LONG => true
  | KrkOpCode.OP_CALL_LONG => true
  | KrkOpCode.OP_INC_LONG => true
  | _ => false

/-- A chunk holding `OP_GET_LOCAL_LONG 00 01 2c`, operand 300. -/
def sampleOperandLongChunk : KrkChunk :=
  { code := [sampleByte KrkOpCode.OP_GET_LOCAL_LONG, 0, 1, 44]
    lines := [{ startOffset := 0, line := 1 }]
    constants := []
    filename := Option.none }

/-! ## object.c: krk_printObject -/

/-- The character a byte is shown as in the texts written to a stream: the one with the
same code. -/
def byteChar (b : Byte) : Char := Char.ofNat b.val

/-- The text of a byte sequence, byte by byte. -/
def bytesText (bytes : List Byte) : String := String.mk (bytes.map byteChar)

/-- The C string that starts an array: its bytes before the first null byte; `none`
when the array holds no null byte, where reading it as a C string runs past its end. -/
def cString : List Byte → Option (List Byte)
  | [] => Option.none
  | b :: rest => if b = 0 then some [] else (cString rest).map (fun cs => b :: cs)

/-- The C string at address `p`, as `%s` and `AS_CSTRING` loops read it. -/
def KrkVM.cStringAt (vm : KrkVM) (p : Nat) : Option (List Byte) :=
  match vm.charsAt p with
  | some bytes => cString bytes
  | Option.none => Option.none

/-- The macro `NAME(obj)`, `obj->name ? obj->name->chars : "(unnamed)"`, as the text `%s`
writes for it; `name` is the field `obj->name`. The result is `none` when the pointer
does not lead to a string with a null-terminated array. -/
def NAME (vm : KrkVM) (name : Option Nat) : Option String :=
  match name with
  | Option.none => some "(unnamed)"
  | some r =>
    match vm.stringAt r with
    | some s => (vm.cStringAt s.chars).map bytesText
    | Option.none => Option.none

/-- The inner switch of the string case of `krk_printObject`: the text written for one
character of the C string. -/
def printStringChar (c : Byte) : String :=
  if c = 10 then "\\n"
  else if c = 13 then "\\r"
  else if c = 9 then "\\t"
  else if c = 34 then "\\\""
  else if c = 27 then "\\["
  else String.singleton (byteChar c)

/-- The function fields of the object at address `r`, `AS_FUNCTION` followed by a read. -/
def KrkVM.functionAt (vm : KrkVM) (r : Nat) : Option KrkFunction :=
  match vm.heap[r]? with
  | some o => match o.body with
    | ObjBody.function f => some f
    | _ => Option.none
  | Option.none => Option.none

/-- The text of the bound-method case of `krk_printObject`: the argument of `%s` in
`"<bound <def %s>>"`, chosen by the kind tag of the method object. -/
def boundMethodName (vm : KrkVM) (method : Option Nat) : Option String :=
  match method with
  | Option.none => Option.none
  | some m =>
    match vm.heap[m]? with
    | Option.none => Option.none
    | some mo =>
      if mo.type = ObjType.OBJ_CLOSURE then
        match mo.body with
        | ObjBody.closure c =>
          match vm.functionAt c.function with
          | some f => NAME vm f.name
          | Option.none => Option.none
        | _ => Option.none
      else if mo.type = ObjType.OBJ_NATIVE then some "<native>"
      else some "<unknown>"

/-- The function `krk_printObject(f, value)`: the texts written to `f`, one element per
call of `fprintf`; `none` when a pointer the function follows does not lead to an object
of the kind it is read as, which C leaves undefined. -/
def krk_printObject (vm : KrkVM) (value : KrkValue) : Option (List String) :=
  match value with
  | KrkValue.object r =>
    match vm.heap[r]? with
    | Option.none => Option.none
    | some o =>
      match o.type, o.body with
      | ObjType.OBJ_STRING, ObjBody.string s =>
        match vm.cStringAt s.chars with
        | some cs => some (["\""] ++ cs.map printStringChar ++ ["\""])
        | Option.none => Option.none
      | ObjType.OBJ_FUNCTION, ObjBody.function f =>
        match f.name with
        | Option.none => some ["<module>"]
        | some _ => (NAME vm f.name).map (fun n => ["<def " ++ n ++ ">"])
      | ObjType.OBJ_NATIVE, _ => some ["<native bind>"]
      | ObjType.OBJ_CLOSURE, ObjBody.closure c =>
        match vm.functionAt c.function with
        | some f => (NAME vm f.name).map (fun n => ["<closure <def " ++ n ++ ">>"])
        | Option.none => Option.none
      | ObjType.OBJ_UPVALUE, _ => some ["<upvalue>"]
      | ObjType.OBJ_CLASS, ObjBody.class c =>
        (NAME vm c.name).map (fun n => ["<class " ++ n ++ ">"])
      | ObjType.OBJ_INSTANCE, ObjBody.instance i =>
        match i._class with
        | Option.none => Option.none
        | some cr =>
          match vm.heap[cr]? with
          | some co =>
            match co.body with
            | ObjBody.class c => (NAME vm c.name).map (fun n => ["<instance of " ++ n ++ ">"])
            | _ => Option.none
          | Option.none => Option.none
      | ObjType.OBJ_BOUND_METHOD, ObjBody.boundMethod b =>
        (boundMethodName vm b.method).map (fun n => ["<bound <def " ++ n ++ ">>"])
      | _, _ => Option.none
  | _ => Option.none

/-- The rendering the specification gives for a string of `length` bytes: a double
quote, every one of the bytes in order (newline, carriage return, tab, double quote and
byte 0x1B escaped, any other byte unchanged), a double quote. -/
def renderString (bytes : List Byte) : List String :=
  ["\""] ++ bytes.map (fun c =>
    if c = 10 then "\\n" else if c = 13 then "\\r" else if c = 9 then "\\t"
    else if c = 34 then "\\\"" else if c = 27 then "\\[" else String.singleton (byteChar c))
  ++ ["\""]

/-! ## object.c: the other constructors -/

/-- Modelled from the spec: `krk_initTable` of the table module: the empty table. -/
def krk_initTable : KrkTable := []

/-- Modelled from the spec: `ALLOCATE(KrkUpvalue*, n)` of the memory layer (memory.c is
not among the sources), followed by the writes that fill the block: a fresh address,
distinct from every block handed out before, now holding `slots`. -/
def ALLOCATE_upvalues (vm : KrkVM) (slots : List (Option Nat)) : KrkVM × Nat :=
  ({ vm with arrays := vm.arrays ++ [some (RawBlock.upvalues slots)] }, vm.arrays.length)

/-- The function `krk_newFunction()`. -/
def krk_newFunction (vm : KrkVM) : KrkVM × Nat :=
  allocateObject vm ObjType.OBJ_FUNCTION
    (ObjBody.function { arity := 0, upvalueCount := 0, name := Option.none,
                        chunk := krk_initChunk })

/-- The function `krk_newNative(function)`. -/
def krk_newNative (vm : KrkVM) (function : Nat) : KrkVM × Nat :=
  allocateObject vm ObjType.OBJ_NATIVE (ObjBody.native { function := function, isMethod := 0 })

/-- The function `krk_newClosure(function)`: the array of `function->upvalueCount`
slots, each set to `NULL` by the loop over `i`, then the closure object. -/
def krk_newClosure (vm : KrkVM) (function : Nat) : KrkVM × Nat :=
  let upvalueCount := vm.upvalueCountOf (KrkValue.object function)
  let (vm1, upvalues) := ALLOCATE_upvalues vm
    ((List.range upvalueCount).map (fun _ => Option.none))
  allocateObject vm1 ObjType.OBJ_CLOSURE
    (ObjBody.closure { function := function, upvalues := upvalues,
                       upvalueCount := vm1.upvalueCountOf (KrkValue.object function) })

/-- The function `krk_newUpvalue(slot)`. -/
def krk_newUpvalue (vm : KrkVM) (slot : Int) : KrkVM × Nat :=
  allocateObject vm ObjType.OBJ_UPVALUE
    (ObjBody.upvalue { location := slot, next := Option.none, closed := KrkValue.none })

/-- The function `krk_newClass(name)`. -/
def krk_newClass (vm : KrkVM) (name : Option Nat) : KrkVM × Nat :=
  allocateObject vm ObjType.OBJ_CLASS
    (ObjBody.class { name := name, filename := Option.none, methods := krk_initTable })

/-- The function `krk_newInstance(_class)`. -/
def krk_newInstance (vm : KrkVM) (_class : Option Nat) : KrkVM × Nat :=
  allocateObject vm ObjType.OBJ_INSTANCE
    (ObjBody.instance { _class := _class, fields := krk_initTable })

/-- The function `krk_newBoundMethod(receiver, method)`. -/
def krk_newBoundMethod (vm : KrkVM) (receiver : KrkValue) (method : Option Nat) : KrkVM × Nat :=
  allocateObject vm ObjType.OBJ_BOUND_METHOD
    (ObjBody.boundMethod { receiver := receiver, method := method })

/-- The upvalue slots of the live pointer array at address `p`. -/
def KrkVM.upvaluesAt (vm : KrkVM) (p : Nat) : Option (List (Option Nat)) :=
  match vm.arrays[p]? with
  | some (some (RawBlock.upvalues slots)) => some slots
  | _ => Option.none

/-! ## The heap list -/

/-- The walk along the `next` links from `head`, at most `fuel` steps. -/
def objectListFrom (heap : List KrkObj) : Nat → Option Nat → List Nat
  | 0, _ => []
  | _ + 1, Option.none => []
  | fuel + 1, some a =>
    match heap[a]? with
    | some o => a :: objectListFrom heap fuel o.next
    | Option.none => []

/-- The intrusive list reachable from `vm.objects`, as the addresses met in order; a list
of distinct objects has at most as many elements as objects were ever allocated. -/
def KrkVM.objectList (vm : KrkVM) : List Nat :=
  objectListFrom vm.heap vm.heap.length vm.objects

/-- One call of a constructor of the object layer, with its arguments. -/
inductive ConstructorCall where
  | newFunction
  | newNative (function : Nat)
  | newClosure (function : Nat)
  | newUpvalue (slot : Int)
  | newClass (name : Option Nat)
  | newInstance (_class : Option Nat)
  | newBoundMethod (receiver : KrkValue) (method : Option Nat)
  | takeString (chars : Nat) (length : Nat)
  | copyString (chars : List Byte) (length : Nat)
  deriving DecidableEq, Repr

/-- The effect of one constructor call: the VM afterwards and the object returned. -/
def runCall (signedChar : Bool) (vm : KrkVM) : ConstructorCall → KrkVM × Nat
  | ConstructorCall.newFunction => krk_newFunction vm
  | ConstructorCall.newNative function => krk_newNative vm function
  | ConstructorCall.newClosure function => krk_newClosure vm function
  | ConstructorCall.newUpvalue slot => krk_newUpvalue vm slot
  | ConstructorCall.newClass name => krk_newClass vm name
  | ConstructorCall.newInstance _class => krk_newInstance vm _class
  | ConstructorCall.newBoundMethod receiver method => krk_newBoundMethod vm receiver method
  | ConstructorCall.takeString chars length => krk_takeString signedChar vm chars length
  | ConstructorCall.copyString chars length => krk_copyString signedChar vm chars length

/-- The VM after a sequence of constructor calls. -/
def runCalls (signedChar : Bool) (vm : KrkVM) (calls : List ConstructorCall) : KrkVM :=
  calls.foldl (fun v c => (runCall signedChar v c).1) vm

/-- Whether a call is a string constructor whose lookup finds an interned string: such a
call returns the existing object and creates none. -/
def isInterningHit (signedChar : Bool) (vm : KrkVM) : ConstructorCall → Bool
  | ConstructorCall.takeString chars length =>
    (krk_tableFindString vm vm.strings ((vm.charsAt chars).getD []) length
      (hashString signedChar ((vm.charsAt chars).getD []) length)).isSome
  | ConstructorCall.copyString chars length =>
    (krk_tableFindString vm vm.strings chars length (hashString signedChar chars length)).isSome
  | _ => false

/-- The number of objects a sequence of constructor calls creates: one per call, except
for the string calls that find their string interned. -/
def objectsCreated (signedChar : Bool) : KrkVM → List ConstructorCall → Nat
  | _, [] => 0
  | vm, c :: rest =>
    (if isInterningHit signedChar vm c then 0 else 1)
      + objectsCreated signedChar (runCall signedChar vm c).1 rest

/-! ## debug.c: krk_disassembleChunk -/

/-- The loop `for (size_t offset = 0; offset < chunk->count;) offset = krk_disassembleInstruction(chunk, offset);`
run for at most `fuel` calls from `offset`: the calls made, each with its offset and what
it did, and the value of `offset` when the loop ends; `none` when `fuel` calls do not end it. -/
def krk_disassembleChunk.loop (env : DebugEnv) (vm : KrkVM) (chunk : KrkChunk) :
    Nat → Nat → Option (List (Nat × Disassembly) × Nat)
  | 0, offset => if offset < chunk.count then Option.none else some ([], offset)
  | fuel + 1, offset =>
    if offset < chunk.count then
      match krk_disassembleChunk.loop env vm chunk fuel
          (krk_disassembleInstruction env vm chunk offset).next with
      | some (calls, final) =>
        some ((offset, krk_disassembleInstruction env vm chunk offset) :: calls, final)
      | Option.none => Option.none
    else some ([], offset)

/-- The text of `chunk->filename->chars` as `%s` reads it; `none` when `chunk->filename`
is null or does not lead to a string with a null-terminated array, where the read is
undefined in C. -/
def chunkFilename (vm : KrkVM) (chunk : KrkChunk) : Option String :=
  match chunk.filename with
  | some r =>
    match vm.stringAt r with
    | some s => (vm.cStringAt s.chars).map bytesText
    | Option.none => Option.none
  | Option.none => Option.none

/-- What a call of `krk_disassembleChunk` that returns has done: the header line written
first, the calls of `krk_disassembleInstruction` in order, and the final value of
`offset`. -/
structure ChunkDisassembly where
  header : String
  calls : List (Nat × Disassembly)
  offset : Nat
  deriving DecidableEq, Repr

/-- The function `krk_disassembleChunk(chunk, name)`, its loop run for at most `fuel`
calls; `name` is the text of the C string passed. The header
`fprintf(stderr, "[%s from %s]\n", name, chunk->filename->chars)` comes before the loop:
the result is `none` when `chunk->filename` does not lead to a null-terminated string,
where the function does not get past that read, and when `fuel` calls do not end the
loop. -/
def krk_disassembleChunk (env : DebugEnv) (vm : KrkVM) (chunk : KrkChunk) (name : String)
    (fuel : Nat) : Option ChunkDisassembly :=
  match chunkFilename vm chunk with
  | Option.none => Option.none
  | some file =>
    match krk_disassembleChunk.loop env vm chunk fuel 0 with
    | some (calls, final) =>
      some { header := "[" ++ name ++ " from " ++ file ++ "]\n"
             calls := calls
             offset := final }
    | Option.none => Option.none

/-! ## Well-formed code of the specification -/

/-- The constant-short opcodes, closure included: a one-byte index into the constants. -/
def KrkOpCode.isConstantShort : KrkOpCode → Bool
  | KrkOpCode.OP_DEFINE_GLOBAL => true
  | KrkOpCode.OP_CONSTANT => true
  | KrkOpCode.OP_GET_GLOBAL => true
  | KrkOpCode.OP_SET_GLOBAL => true
  | KrkOpCode.OP_CLASS => true
  | KrkOpCode.OP_GET_PROPERTY => true
  | KrkOpCode.OP_SET_PROPERTY => true
  | KrkOpCode.OP_METHOD => true
  | KrkOpCode.OP_CLOSURE => true
  | KrkOpCode.OP_IMPORT => true
  | KrkOpCode.OP_GET_SUPER => true
  | _ => false

/-- The 24-bit big-endian value of the three bytes after the opcode at `O`. -/
def bigEndian24 (chunk : KrkChunk) (O : Nat) : Nat :=
  (chunk.codeAt (O + 1)).val * 65536 + (chunk.codeAt (O + 2)).val * 256
    + (chunk.codeAt (O + 3)).val

/-- The constant index an instruction at `O` carries, for the opcodes that address the
constants pool: one byte in the short form, 24 bits big-endian in the long form. -/
def constantIndexOf (chunk : KrkChunk) (O : Nat) (op : KrkOpCode) : Option Nat :=
  if op.isConstantShort then some (chunk.codeAt (O + 1)).val
  else if op.isConstantLong then some (bigEndian24 chunk O)
  else Option.none

/-- The number of bytes of a complete instruction at `O` with opcode `op`, by encoding
class: 1 for simple, 2 for short, 4 for long and 3 for jump opcodes; a closure is
followed by `2 * upvalueCount` trailer bytes, `upvalueCount` being that of the function
its constant names. -/
def instructionWidth (vm : KrkVM) (chunk : KrkChunk) (O : Nat) (op : KrkOpCode) : Nat :=
  if op.isSimple then 1
  else if op.isShort then 2
  else if op.isLong then 4
  else if op.isJump then 3
  else if op = KrkOpCode.OP_CLOSURE then
    2 + 2 * vm.upvalueCountOf (chunk.constantAt (chunk.codeAt (O + 1)).val)
  else 4 + 2 * vm.upvalueCountOf (chunk.constantAt (bigEndian24 chunk O))

/-- The code of `chunk` from offset `O` on is a concatenation of complete instructions
that start at the offsets `starts`: each starts with an opcode of the catalogue, lies
within the code with all operand and trailer bytes of its class, and names a constant
below the constants count if it names one. -/
inductive InstructionsFrom (env : DebugEnv) (vm : KrkVM) (chunk : KrkChunk) :
    Nat → List Nat → Prop where
  | done (O : Nat) (h : O = chunk.count) : InstructionsFrom env vm chunk O []
  | step (O : Nat) (op : KrkOpCode) (rest : List Nat)
      (hop : env.opcode (chunk.codeAt O) = some op)
      (hfit : O + instructionWidth vm chunk O op ≤ chunk.count)
      (hconst : ∀ k, constantIndexOf chunk O op = some k → k < chunk.constants.length)
      (hrest : InstructionsFrom env vm chunk (O + instructionWidth vm chunk O op) rest) :
      InstructionsFrom env vm chunk O (O :: rest)

/-! ## More samples -/

/-- A VM after ten constructor calls: the string "a\0b" (object 0), a class named by it,
an instance of the class, a function, a closure of the function, a method bound to the
closure, a native, a method bound to the native, a method bound to the string, an upvalue. -/
def vmWithObjects : KrkVM :=
  runCalls true KrkVM.empty
    [ConstructorCall.copyString [97, 0, 98] 3, ConstructorCall.newClass (some 0),
     ConstructorCall.newInstance (some 1), ConstructorCall.newFunction,
     ConstructorCall.newClosure 3, ConstructorCall.newBoundMethod KrkValue.none (some 4),
     ConstructorCall.newNative 7, ConstructorCall.newBoundMethod KrkValue.none (some 6),
     ConstructorCall.newBoundMethod KrkValue.none (some 0), ConstructorCall.newUpvalue 3]

/-- A chunk holding `OP_CLOSURE_LONG 00 00 00` followed by the trailer bytes `[1, 5, 0, 3]`,
constant 0 being the function of `vmWithFunction`. -/
def sampleClosureLongChunk : KrkChunk :=
  { code := [sampleByte KrkOpCode.OP_CLOSURE_LONG, 0, 0, 0, 1, 5, 0, 3]
    lines := [{ startOffset := 0, line := 1 }]
    constants := [KrkValue.object 0]
    filename := Option.none }

/-- A chunk holding `OP_RETURN` at offset 0 and, at offset 1, `OP_CLOSURE 0` followed by
the trailer bytes `[1, 5, 0, 3]`, which lie at offsets 3 to 6. -/
def sampleClosureChunkAt1 : KrkChunk :=
  { code := [sampleByte KrkOpCode.OP_RETURN, sampleByte KrkOpCode.OP_CLOSURE, 0, 1, 5, 0, 3]
    lines := [{ startOffset := 0, line := 1 }]
    constants := [KrkValue.object 0]
    filename := Option.none }

/-- A chunk whose second byte, 200, is no opcode under the sample numbering. -/
def sampleUnknownChunk : KrkChunk :=
  { code := [sampleByte KrkOpCode.OP_RETURN, 200]
    lines := [{ startOffset := 0, line := 1 }, { startOffset := 1, line := 2 }]
    constants := []
    filename := Option.none }

/-- The VM `vmWithFunction` after the string "main" has been interned: object 0 is the
function with two upvalues, object 1 the string. -/
def vmWithFunctionAndFile : KrkVM :=
  (krk_copyString true vmWithFunction [109, 97, 105, 110] 4).1

/-- The chunk `sampleClosureChunkAt1` as part of a compiled file: its `filename` is the
string "main", object 1 of `vmWithFunctionAndFile`. -/
def sampleFileChunk : KrkChunk :=
  { sampleClosureChunkAt1 with filename := some 1 }

/-- Every object allocated so far is unmarked and linked to the one allocated just before
it, and `vm.objects` is the one allocated last: the state of the heap list when objects
are created by the constructors only, starting from nothing. -/
def KrkVM.allLinked (vm : KrkVM) : Prop :=
  vm.objects = (if vm.heap.length = 0 then Option.none else some (vm.heap.length - 1)) ∧
  ∀ a o, vm.heap[a]? = some o →
    o.isMarked = false ∧ o.next = (if a = 0 then Option.none else some (a - 1))

/-- A VM built by hand: the string "f" (object 0), a function named by it (object 1), a
closure of the function (object 2) and a method bound to the closure (object 3). -/
def vmWithNamedMethod : KrkVM :=
  { heap :=
      [{ type := ObjType.OBJ_STRING, isMarked := false, next := Option.none,
         body := ObjBody.string { length := 1, chars := 0, hash := 102 } },
       { type := ObjType.OBJ_FUNCTION, isMarked := false, next := some 0,
         body := ObjBody.function { arity := 0, upvalueCount := 0, name := some 0,
                                    chunk := krk_initChunk } },
       { type := ObjType.OBJ_CLOSURE, isMarked := false, next := some 1,
         body := ObjBody.closure { function := 1, upvalues := 1, upvalueCount := 0 } },
       { type := ObjType.OBJ_BOUND_METHOD, isMarked := false, next := some 2,
         body := ObjBody.boundMethod { receiver := KrkValue.none, method := some 2 } }]
    arrays := [some (RawBlock.chars [102, 0]), some (RawBlock.upvalues [])]
    objects := some 3
    strings := [{ key := KrkValue.object 0, value := KrkValue.none }]
    stack := [] }

/-! ## Properties -/

/-! ### hashString -/

theorem foldl_range_getD (f : Nat → Byte → Nat) (key : List Byte) :
    ∀ (n : Nat), n ≤ key.length → ∀ init : Nat,
      (List.range n).foldl (fun h i => f h (key.getD i 0)) init = (key.take n).foldl f init := by
  intro n
  induction n with
  | zero => intro _ init; simp
  | succ n ih =>
    intro hn init
    have hlt : n < key.length := by omega
    rw [List.range_succ, List.foldl_append, ih (by omega) init, List.take_succ, List.foldl_append]
    simp [List.getD, List.getElem?_eq_getElem hlt]

theorem hashString_eq_foldl (signedChar : Bool) (key : List Byte) :
    hashString signedChar key key.length = key.foldl (hashString.step signedChar) 0 := by
  unfold hashString
  rw [foldl_range_getD (hashString.step signedChar) key key.length (le_refl _) 0, List.take_length]

theorem step_eq_sdbmStep (signedChar : Bool) (h : Nat) (c : Byte)
    (hc : signedChar = false ∨ c.val < 128) : hashString.step signedChar h c = sdbmStep h c := by
  unfold hashString.step sdbmStep charToInt
  rcases hc with hc | hc
  · simp [hc]
  · have : ¬ (128 ≤ c.val) := by omega
    simp [this]

theorem foldl_step_eq_sdbm (signedChar : Bool) (key : List Byte) :
    (signedChar = false ∨ ∀ c ∈ key, c.val < 128) → ∀ init : Nat,
      key.foldl (hashString.step signedChar) init = key.foldl sdbmStep init := by
  induction key with
  | nil => intro _ init; rfl
  | cons c rest ih =>
    intro h init
    have hc : signedChar = false ∨ c.val < 128 := by
      rcases h with h | h
      · exact Or.inl h
      · exact Or.inr (h c (List.mem_cons_self c rest))
    have hrest : signedChar = false ∨ ∀ d ∈ rest, d.val < 128 := by
      rcases h with h | h
      · exact Or.inl h
      · exact Or.inr (fun d hd => h d (List.mem_cons_of_mem c hd))
    simp only [List.foldl_cons]
    rw [step_eq_sdbmStep signedChar init c hc]
    exact ih hrest _

/-- C4, as stated, fails: with a signed plain `char` the byte 128 is added as -128,
so the hash of the one-byte string `[128]` is 4294967168 and not the 128 of the
recurrence over byte values. -/
theorem C4_hashString_signed_char_counterexample :
    hashString true [128] 1 = 4294967168 ∧ sdbmHash [128] = 128 ∧
      hashString true [128] 1 ≠ sdbmHash [128] := by
  decide

/-- C4, amended: `hashString` folds `h := c + (h << 6) + (h << 16) - h` modulo 2^32
over the bytes in order from 0, `c` being the byte converted from plain `char` to
`int`; this is the recurrence over byte values whenever plain `char` is unsigned or
every byte is below 128, and `hash("") = 0`, `hash("a") = 97`, `hash("ab") = 6363201`. -/
theorem C4_hashString_sdbm (signedChar : Bool) (key : List Byte) :
    hashString signedChar key key.length = key.foldl (hashString.step signedChar) 0 ∧
    ((signedChar = false ∨ ∀ c ∈ key, c.val < 128) →
      hashString signedChar key key.length = sdbmHash key) ∧
    hashString signedChar [] 0 = 0 ∧
    hashString signedChar [97] 1 = 97 ∧
    hashString signedChar [97, 98] 2 = 6363201 ∧
    (97 <<< 6) + (97 <<< 16) - 97 + 98 = 6363201 := by
  refine ⟨hashString_eq_foldl signedChar key, ?_, ?_, ?_, ?_, ?_⟩
  · intro h
    rw [hashString_eq_foldl, foldl_step_eq_sdbm signedChar key h 0]
    rfl
  · rfl
  · cases signedChar <;> decide
  · cases signedChar <;> decide
  · decide

/-- Witness for C4: the string "ab" under a signed plain `char`. -/
theorem C4_hashString_sdbm_witness :
    hashString true [97, 98] 2 = sdbmHash [97, 98] :=
  (C4_hashString_sdbm true [97, 98]).2.1 (Or.inr (by simp; decide))

/-! ### krk_lineNumber -/

theorem loop_append_gt (offset : Nat) (e : KrkLineMap) (he : e.startOffset > offset) :
    ∀ (ls : List KrkLineMap) (line : Nat),
      krk_lineNumber.loop offset (ls ++ [e]) line = krk_lineNumber.loop offset ls line := by
  intro ls
  induction ls with
  | nil => intro line; simp [krk_lineNumber.loop, he]
  | cons x rest ih =>
    intro line
    simp only [List.cons_append, krk_lineNumber.loop]
    split
    · rfl
    · exact ih x.line

theorem loop_append_of_all_le (offset : Nat) (rest : List KrkLineMap) :
    ∀ (ls : List KrkLineMap) (line : Nat), (∀ x ∈ ls, x.startOffset ≤ offset) →
      krk_lineNumber.loop offset (ls ++ rest) line
        = krk_lineNumber.loop offset rest (krk_lineNumber.loop offset ls line) := by
  intro ls
  induction ls with
  | nil => intro line _; rfl
  | cons x xs ih =>
    intro line h
    have hx : ¬ x.startOffset > offset := by
      have := h x (List.mem_cons_self x xs)
      omega
    simp only [List.cons_append, krk_lineNumber.loop, hx, if_false]
    exact ih x.line (fun y hy => h y (List.mem_cons_of_mem x hy))

theorem loop_of_all_le (offset : Nat) :
    ∀ (ls : List KrkLineMap) (line : Nat), (∀ x ∈ ls, x.startOffset ≤ offset) →
      krk_lineNumber.loop offset ls line = ((ls.getLast?).map KrkLineMap.line).getD line := by
  intro ls
  induction ls with
  | nil => intro line _; rfl
  | cons x xs ih =>
    intro line h
    have hx : ¬ x.startOffset > offset := by
      have := h x (List.mem_cons_self x xs)
      omega
    simp only [krk_lineNumber.loop, hx, if_false]
    rw [ih x.line (fun y hy => h y (List.mem_cons_of_mem x hy)), List.getLast?_cons]
    cases xs.getLast? <;> rfl

theorem loop_eq_lastLine (offset : Nat) :
    ∀ (ls : List KrkLineMap) (line : Nat),
      ls.Pairwise (fun a b => a.startOffset ≤ b.startOffset) →
      krk_lineNumber.loop offset ls line
        = (((ls.filter (fun e => decide (e.startOffset ≤ offset))).getLast?).map
            KrkLineMap.line).getD line := by
  intro ls
  induction ls with
  | nil => intro line _; rfl
  | cons x xs ih =>
    intro line h
    rw [List.pairwise_cons] at h
    by_cases hx : x.startOffset > offset
    · have hnone : (x :: xs).filter (fun e => decide (e.startOffset ≤ offset)) = [] := by
        rw [List.filter_eq_nil_iff]
        intro y hy
        have hy2 : x.startOffset ≤ y.startOffset := by
          rcases List.mem_cons.mp hy with rfl | hy
          · exact le_refl _
          · exact h.1 y hy
        simp only [decide_eq_true_eq]
        omega
      simp [krk_lineNumber.loop, hx, hnone]
    · have hle : x.startOffset ≤ offset := by omega
      simp only [krk_lineNumber.loop, hx, if_false]
      rw [ih x.line h.2, List.filter_cons_of_pos (by simpa using hle), List.getLast?_cons]
      cases (xs.filter (fun e => decide (e.startOffset ≤ offset))).getLast? <;> rfl

/-- C6: when the entries of `lines` are in non-decreasing `startOffset` order,
`krk_lineNumber` returns the line of the last entry, in write order, whose
`startOffset <= offset` (of two entries with one `startOffset` the later wins),
and 0 when no entry qualifies, as for offset 0 on the empty chunk. -/
theorem C6_lineNumber_last_entry (chunk : KrkChunk) (offset : Nat)
    (hsorted : chunk.lines.Pairwise (fun a b => a.startOffset ≤ b.startOffset)) :
    krk_lineNumber chunk offset = lastLineAtOrBefore chunk.lines offset ∧
    ((∀ e ∈ chunk.lines, ¬ e.startOffset ≤ offset) → krk_lineNumber chunk offset = 0) ∧
    krk_lineNumber krk_initChunk 0 = 0 ∧
    krk_lineNumber { krk_initChunk with lines := [⟨0, 1⟩, ⟨0, 2⟩, ⟨4, 3⟩] } 2 = 2 := by
  have key := loop_eq_lastLine offset chunk.lines 0 hsorted
  refine ⟨?_, ?_, rfl, by decide⟩
  · unfold krk_lineNumber lastLineAtOrBefore
    rw [key]
    cases (chunk.lines.filter (fun e => decide (e.startOffset ≤ offset))).getLast? <;> rfl
  · intro hnone
    unfold krk_lineNumber
    rw [key]
    have : chunk.lines.filter (fun e => decide (e.startOffset ≤ offset)) = [] := by
      rw [List.filter_eq_nil_iff]
      intro y hy
      simpa using hnone y hy
    simp [this]

/-- Witness for C6: three entries, two of them sharing start offset 0, looked up at
offset 3; and a single entry starting at 5, looked up at offset 3, before it. -/
theorem C6_lineNumber_last_entry_witness :
    krk_lineNumber { krk_initChunk with lines := [⟨0, 1⟩, ⟨0, 2⟩, ⟨4, 3⟩] } 3
      = lastLineAtOrBefore [⟨0, 1⟩, ⟨0, 2⟩, ⟨4, 3⟩] 3 ∧
    krk_lineNumber { krk_initChunk with lines := [⟨5, 1⟩] } 3 = 0 :=
  ⟨(C6_lineNumber_last_entry { krk_initChunk with lines := [⟨0, 1⟩, ⟨0, 2⟩, ⟨4, 3⟩] } 3
      (by decide)).1,
   (C6_lineNumber_last_entry { krk_initChunk with lines := [⟨5, 1⟩] } 3 (by decide)).2.1
      (by decide)⟩

/-! ### Line map of a built chunk -/

theorem buildChunk_append (ws : List (Byte × Nat)) (w : Byte × Nat) :
    buildChunk (ws ++ [w]) = krk_writeChunk (buildChunk ws) w.1 w.2 := by
  simp [buildChunk, List.foldl_append]

/-- Invariant of a chunk built by append-byte calls. -/
theorem buildChunk_invariant (ws : List (Byte × Nat)) :
    (buildChunk ws).code.length = ws.length ∧
    (∀ e ∈ (buildChunk ws).lines, e.startOffset < ws.length) ∧
    ((buildChunk ws).lines.getLast?.map KrkLineMap.line = ws.getLast?.map Prod.snd) ∧
    (∀ (offset : Nat) (w : Byte × Nat), ws[offset]? = some w →
      krk_lineNumber.loop offset (buildChunk ws).lines 0 = w.2) := by
  induction ws using List.reverseRecOn with
  | nil => simp [buildChunk, krk_initChunk]
  | append_singleton ws a ih =>
    obtain ⟨hlen, hlt, hlast, hget⟩ := ih
    rw [buildChunk_append]
    -- the line list after the write
    have hlines : (krk_writeChunk (buildChunk ws) a.1 a.2).lines = (buildChunk ws).lines ∨
        (krk_writeChunk (buildChunk ws) a.1 a.2).lines
          = (buildChunk ws).lines ++ [⟨ws.length, a.2⟩] := by
      unfold krk_writeChunk
      simp only [hlen]
      cases (buildChunk ws).lines.getLast? with
      | none => exact Or.inr rfl
      | some last =>
        by_cases hl : last.line ≠ a.2
        · simp [hl]
        · simp [hl]
    have hlast2 : ((krk_writeChunk (buildChunk ws) a.1 a.2).lines.getLast?).map KrkLineMap.line
        = some a.2 := by
      unfold krk_writeChunk
      simp only [hlen]
      cases hg : (buildChunk ws).lines.getLast? with
      | none => simp
      | some last =>
        by_cases hl : last.line ≠ a.2
        · simp [hl]
        · have : last.line = a.2 := by simpa using hl
          simp [hl, hg, this]
    refine ⟨?_, ?_, ?_, ?_⟩
    · simp [krk_writeChunk, hlen]
    · intro e he
      rcases hlines with h | h
      · rw [h] at he
        have := hlt e he
        simp only [List.length_append, List.length_singleton]
        omega
      · rw [h] at he
        rcases List.mem_append.mp he with he | he
        · have := hlt e he
          simp only [List.length_append, List.length_singleton]
          omega
        · simp only [List.mem_singleton] at he
          subst he
          simp
    · rw [hlast2]
      simp
    · intro offset w hw
      by_cases hoff : offset < ws.length
      · rw [List.getElem?_append_left hoff] at hw
        rcases hlines with h | h
        · rw [h]; exact hget offset w hw
        · rw [h, loop_append_gt offset _ (by simpa using hoff)]
          exact hget offset w hw
      · have hoff2 : offset = ws.length := by
          have : offset < (ws ++ [a]).length := by
            by_contra hc
            rw [List.getElem?_eq_none (by omega)] at hw
            exact Option.noConfusion hw
          simp only [List.length_append, List.length_singleton] at this
          omega
        subst hoff2
        have hwa : w = a := by
          simp at hw
          exact hw.symm
        subst hwa
        have hall : ∀ x ∈ (krk_writeChunk (buildChunk ws) w.1 w.2).lines,
            x.startOffset ≤ ws.length := by
          intro x hx
          rcases hlines with h | h
          · rw [h] at hx
            exact Nat.le_of_lt (hlt x hx)
          · rw [h] at hx
            rcases List.mem_append.mp hx with hx | hx
            · exact Nat.le_of_lt (hlt x hx)
            · simp only [List.mem_singleton] at hx
              subst hx
              exact le_refl _
        rw [loop_of_all_le ws.length _ 0 hall, hlast2]
        rfl

/-- C5: in a chunk built from the empty chunk by append-byte calls, every offset
below the number of appended bytes maps under `krk_lineNumber` to the `line`
argument of the call that appended the byte at that offset. -/
theorem C5_lineNumber_of_built_chunk (writes : List (Byte × Nat)) (offset : Nat)
    (h : offset < writes.length) :
    (buildChunk writes).count = writes.length ∧
    krk_lineNumber (buildChunk writes) offset = (writes.get ⟨offset, h⟩).2 := by
  obtain ⟨hlen, _, _, hget⟩ := buildChunk_invariant writes
  refine ⟨hlen, ?_⟩
  unfold krk_lineNumber
  exact hget offset (writes.get ⟨offset, h⟩) (by simp [List.getElem?_eq_getElem h])

/-- Witness for C5: four bytes written on lines 1, 1, 2 and 1; offset 3 maps to line 1. -/
theorem C5_lineNumber_of_built_chunk_witness :
    krk_lineNumber (buildChunk [(0, 1), (7, 1), (3, 2), (9, 1)]) 3 = 1 :=
  (C5_lineNumber_of_built_chunk [(0, 1), (7, 1), (3, 2), (9, 1)] 3 (by decide)).2

/-! ### String interning -/

theorem getD_of_take_eq (a b : List Byte) (n : Nat) (h : a.take n = b.take n) :
    ∀ i, i < n → a.getD i 0 = b.getD i 0 := by
  intro i hi
  have ha : (a.take n)[i]? = a[i]? := by rw [List.getElem?_take, if_pos hi]
  have hb : (b.take n)[i]? = b[i]? := by rw [List.getElem?_take, if_pos hi]
  simp only [List.getD_eq_getElem?_getD, ← ha, ← hb, h]

theorem foldl_range_congr (f g : Nat → Nat → Nat) :
    ∀ (n : Nat), (∀ i, i < n → ∀ h, f h i = g h i) → ∀ init : Nat,
      (List.range n).foldl f init = (List.range n).foldl g init := by
  intro n
  induction n with
  | zero => intro _ init; rfl
  | succ n ih =>
    intro hfg init
    rw [List.range_succ, List.foldl_append, List.foldl_append,
      ih (fun i hi h => hfg i (by omega) h) init]
    simp [hfg n (by omega)]

theorem hashString_congr (signedChar : Bool) (a b : List Byte) (n : Nat)
    (h : a.take n = b.take n) : hashString signedChar a n = hashString signedChar b n := by
  unfold hashString
  apply foldl_range_congr
  intro i hi hash
  rw [getD_of_take_eq a b n h i hi]

theorem keyMatches_eq_some (vm : KrkVM) (chars : List Byte) (length hash : Nat)
    (key : KrkValue) (r : Nat) :
    keyMatches vm chars length hash key = some r ↔
      key = KrkValue.object r ∧ ∃ s bytes, vm.stringAt r = some s ∧
        vm.charsAt s.chars = some bytes ∧ s.length = length ∧ s.hash = hash ∧
        bytes.take length = chars.take length := by
  cases key with
  | none => simp [keyMatches]
  | boolean b => simp [keyMatches]
  | integer i => simp [keyMatches]
  | object r0 =>
    simp only [keyMatches, KrkValue.object.injEq]
    constructor
    · intro h
      cases hs : vm.stringAt r0 with
      | none => simp [hs] at h
      | some s =>
        cases hb : vm.charsAt s.chars with
        | none => simp [hs, hb] at h
        | some bytes =>
          simp only [hs, hb] at h
          by_cases hc : s.length = length ∧ s.hash = hash ∧
              bytes.take length = chars.take length
          · rw [if_pos hc] at h
            cases h
            exact ⟨rfl, s, bytes, hs, hb, hc.1, hc.2.1, hc.2.2⟩
          · rw [if_neg hc] at h
            cases h
    · rintro ⟨hr0, s, bytes, hs, hb, h1, h2, h3⟩
      subst hr0
      simp [hs, hb, h1, h2, h3]

theorem holdsString_of_find (vm : KrkVM) (chars : List Byte) (length hash r : Nat)
    (h : krk_tableFindString vm vm.strings chars length hash = some r) :
    vm.holdsString r chars length := by
  obtain ⟨e, he, hm⟩ := List.exists_of_findSome?_eq_some h
  obtain ⟨hk, s, bytes, hs, hb, h1, _, h3⟩ := (keyMatches_eq_some vm chars length hash e.key r).mp hm
  exact ⟨⟨e, he, hk⟩, s, bytes, hs, hb, h1, h3⟩

theorem find_eq_none_of_not_held (vm : KrkVM) (chars : List Byte) (length hash : Nat)
    (h : ∀ r, ¬ vm.holdsString r chars length) :
    krk_tableFindString vm vm.strings chars length hash = Option.none := by
  cases hf : krk_tableFindString vm vm.strings chars length hash with
  | none => rfl
  | some r => exact absurd (holdsString_of_find vm chars length hash r hf) (h r)

theorem tableSet_has_key (table : KrkTable) (key value : KrkValue) :
    ∃ e ∈ krk_tableSet table key value, e.key = key := by
  unfold krk_tableSet
  split
  · rename_i hany
    obtain ⟨e, he, hk⟩ := List.any_eq_true.mp hany
    have hk2 : e.key = key := by simpa using hk
    refine ⟨{ e with value := value }, ?_, hk2⟩
    rw [List.mem_map]
    exact ⟨e, he, by simp [hk2]⟩
  · exact ⟨{ key := key, value := value }, by simp, rfl⟩

theorem tableSet_keys (table : KrkTable) (key value : KrkValue) :
    ∀ e ∈ krk_tableSet table key value, e.key = key ∨ ∃ e0 ∈ table, e0.key = e.key := by
  intro e he
  unfold krk_tableSet at he
  split at he
  · rw [List.mem_map] at he
    obtain ⟨e0, he0, hmap⟩ := he
    by_cases hk : e0.key = key
    · left
      rw [if_pos hk] at hmap
      rw [← hmap]
      exact hk
    · right
      rw [if_neg hk] at hmap
      exact ⟨e0, he0, by rw [hmap]⟩
  · rcases List.mem_append.mp he with he | he
    · exact Or.inr ⟨e, he, rfl⟩
    · left
      simp only [List.mem_singleton] at he
      rw [he]

theorem findSome_eq_of_only (f : KrkTableEntry → Option Nat) (a : Nat) :
    ∀ (l : KrkTable), (∀ e ∈ l, f e = Option.none ∨ f e = some a) → (∃ e ∈ l, f e = some a) →
      l.findSome? f = some a := by
  intro l
  induction l with
  | nil => intro _ h; obtain ⟨e, he, _⟩ := h; cases he
  | cons x xs ih =>
    intro hall hex
    rw [List.findSome?_cons]
    rcases hall x (List.mem_cons_self x xs) with hx | hx
    · rw [hx]
      refine ih (fun e he => hall e (List.mem_cons_of_mem x he)) ?_
      obtain ⟨e, he, hfe⟩ := hex
      rcases List.mem_cons.mp he with rfl | he
      · rw [hx] at hfe; cases hfe
      · exact ⟨e, he, hfe⟩
    · rw [hx]

/-- What `krk_copyString` does when the lookup finds nothing. -/
theorem copyString_miss (signedChar : Bool) (vm : KrkVM) (chars : List Byte) (length : Nat)
    (h : krk_tableFindString vm vm.strings chars length (hashString signedChar chars length)
      = Option.none) :
    krk_copyString signedChar vm chars length =
      ({ heap := vm.heap ++ [{ type := ObjType.OBJ_STRING, isMarked := false, next := vm.objects,
                               body := ObjBody.string { length := length,
                                                        chars := vm.arrays.length,
                                                        hash := hashString signedChar chars length } }]
         arrays := vm.arrays ++ [some (RawBlock.chars (chars.take length ++ [0]))]
         objects := some vm.heap.length
         strings := krk_tableSet vm.strings (KrkValue.object vm.heap.length) KrkValue.none
         stack := vm.stack },
       vm.heap.length) := by
  unfold krk_copyString
  simp only [h]
  rfl

/-- What `krk_takeString` does when the lookup finds nothing. -/
theorem takeString_miss (signedChar : Bool) (vm : KrkVM) (chars length : Nat)
    (h : krk_tableFindString vm vm.strings ((vm.charsAt chars).getD []) length
      (hashString signedChar ((vm.charsAt chars).getD []) length) = Option.none) :
    krk_takeString signedChar vm chars length =
      ({ heap := vm.heap ++ [{ type := ObjType.OBJ_STRING, isMarked := false, next := vm.objects,
                               body := ObjBody.string { length := length,
                                                        chars := chars,
                                                        hash := hashString signedChar
                                                          ((vm.charsAt chars).getD []) length } }]
         arrays := vm.arrays
         objects := some vm.heap.length
         strings := krk_tableSet vm.strings (KrkValue.object vm.heap.length) KrkValue.none
         stack := vm.stack },
       vm.heap.length) := by
  unfold krk_takeString
  simp only [h]
  rfl

theorem stringAt_of_heap_append (vm vm2 : KrkVM) (o : KrkObj) (r : Nat)
    (hheap : vm2.heap = vm.heap ++ [o]) (hr : r ≠ vm.heap.length) :
    vm2.stringAt r = vm.stringAt r := by
  unfold KrkVM.stringAt
  rw [hheap]
  by_cases hlt : r < vm.heap.length
  · rw [List.getElem?_append_left hlt]
  · have h1 : (vm.heap ++ [o])[r]? = Option.none :=
      List.getElem?_eq_none (by simp only [List.length_append, List.length_singleton]; omega)
    have h2 : vm.heap[r]? = Option.none := List.getElem?_eq_none (by omega)
    rw [h1, h2]

theorem stringAt_new (vm2 : KrkVM) (heap : List KrkObj) (o : KrkObj) (s : KrkString)
    (hheap : vm2.heap = heap ++ [o]) (hbody : o.body = ObjBody.string s) :
    vm2.stringAt heap.length = some s := by
  unfold KrkVM.stringAt
  rw [hheap, List.getElem?_concat_length]
  simp [hbody]

theorem charsAt_of_arrays_append (vm vm2 : KrkVM) (b : Option RawBlock) (p : Nat)
    (harr : vm2.arrays = vm.arrays ++ [b]) (hp : p < vm.arrays.length) :
    vm2.charsAt p = vm.charsAt p := by
  unfold KrkVM.charsAt
  rw [harr, List.getElem?_append_left hp]

theorem charsAt_new (vm2 : KrkVM) (arrays : List (Option RawBlock)) (bytes : List Byte)
    (harr : vm2.arrays = arrays ++ [some (RawBlock.chars bytes)]) :
    vm2.charsAt arrays.length = some bytes := by
  unfold KrkVM.charsAt
  rw [harr, List.getElem?_concat_length]

/-- C3: when no string of the table has the bytes and length of `s`, `krk_copyString`
returns a new string object (header: kind string, unmarked, linked in front of the old
head) of length `n`, whose array holds the `n` bytes of `s` followed by a null byte,
whose hash is `hashString(s, n)`, and which is a key of the strings table afterwards. -/
theorem C3_copyString_miss_installs (signedChar : Bool) (vm : KrkVM) (s : List Byte) (n : Nat)
    (hlen : s.length = n) (hmiss : ∀ r, ¬ vm.holdsString r s n) :
    (krk_copyString signedChar vm s n).2 = vm.heap.length ∧
    vm.heap[(krk_copyString signedChar vm s n).2]? = Option.none ∧
    ∃ str bytes,
      (krk_copyString signedChar vm s n).1.heap[(krk_copyString signedChar vm s n).2]?
        = some { type := ObjType.OBJ_STRING, isMarked := false, next := vm.objects,
                 body := ObjBody.string str } ∧
      (krk_copyString signedChar vm s n).1.charsAt str.chars = some bytes ∧
      vm.arrays[str.chars]? = Option.none ∧
      str.length = n ∧
      bytes.take n = s ∧
      bytes[n]? = some 0 ∧
      str.hash = hashString signedChar s n ∧
      ∃ e ∈ (krk_copyString signedChar vm s n).1.strings,
        e.key = KrkValue.object (krk_copyString signedChar vm s n).2 := by
  have hfind := find_eq_none_of_not_held vm s n (hashString signedChar s n) hmiss
  rw [copyString_miss signedChar vm s n hfind]
  refine ⟨rfl, List.getElem?_length _, _, s.take n ++ [0], List.getElem?_concat_length _ _,
    ?_, List.getElem?_length _, rfl, ?_, ?_, rfl, ?_⟩
  · exact charsAt_new _ vm.arrays _ rfl
  · subst hlen
    simp
  · subst hlen
    simp
  · exact tableSet_has_key _ _ _

/-- Witness for C3: copying "hi" into the empty VM. -/
theorem C3_copyString_miss_installs_witness :
    (krk_copyString true KrkVM.empty [104, 105] 2).2 = 0 :=
  (C3_copyString_miss_installs true KrkVM.empty [104, 105] 2 rfl
    (by
      intro r h
      obtain ⟨⟨e, he, _⟩, _⟩ := h
      cases he)).1

/-- The lookup after an installation: in a VM `vm2` obtained from `vm` by adding one
string object for the first `n` bytes of `s`, a fresh array holding them and the table
key, a copy call on equal bytes returns that object. -/
theorem copyString_after_install (signedChar : Bool) (vm vm2 : KrkVM) (s t : List Byte)
    (n : Nat) (o : KrkObj) (block : List Byte)
    (hwf : vm.charsAllocated) (heq : s.take n = t.take n)
    (hfind : krk_tableFindString vm vm.strings s n (hashString signedChar s n) = Option.none)
    (hbody : o.body = ObjBody.string { length := n, chars := vm.arrays.length,
                                       hash := hashString signedChar s n })
    (hblock : block.take n = s.take n)
    (hheap : vm2.heap = vm.heap ++ [o])
    (harr : vm2.arrays = vm.arrays ++ [some (RawBlock.chars block)])
    (hstr : vm2.strings
      = krk_tableSet vm.strings (KrkValue.object vm.heap.length) KrkValue.none) :
    (krk_copyString signedChar vm2 t n).2 = vm.heap.length := by
  have hhash : hashString signedChar t n = hashString signedChar s n :=
    (hashString_congr signedChar s t n heq).symm
  -- the new object answers the lookup
  have hnew : keyMatches vm2 t n (hashString signedChar t n) (KrkValue.object vm.heap.length)
      = some vm.heap.length := by
    rw [keyMatches_eq_some]
    exact ⟨rfl, _, block, stringAt_new vm2 vm.heap o _ hheap hbody,
      charsAt_new vm2 vm.arrays _ harr, rfl, hhash.symm, by rw [hblock, heq]⟩
  -- and no other key does
  have hall : ∀ e ∈ vm2.strings,
      keyMatches vm2 t n (hashString signedChar t n) e.key = Option.none ∨
      keyMatches vm2 t n (hashString signedChar t n) e.key = some vm.heap.length := by
    intro e he
    cases hm : keyMatches vm2 t n (hashString signedChar t n) e.key with
    | none => exact Or.inl rfl
    | some r =>
      right
      by_cases hr : r = vm.heap.length
      · rw [hr]
      · exfalso
        obtain ⟨hk, st, bytes, hs, hb, h1, h2, h3⟩ :=
          (keyMatches_eq_some vm2 t n _ e.key r).mp hm
        rw [hstr] at he
        rcases tableSet_keys _ _ _ e he with hkey | ⟨e0, he0, hkey⟩
        · rw [hk] at hkey
          cases hkey
          exact hr rfl
        · rw [stringAt_of_heap_append vm vm2 _ r hheap hr] at hs
          have hk0 : e0.key = KrkValue.object r := by rw [hkey, hk]
          have hin := hwf e0 he0 r st hk0 hs
          rw [charsAt_of_arrays_append vm vm2 _ st.chars harr hin] at hb
          have hold : keyMatches vm s n (hashString signedChar s n) e0.key = some r := by
            rw [keyMatches_eq_some]
            exact ⟨hk0, st, bytes, hs, hb, h1, by rw [h2, hhash], by rw [h3, heq]⟩
          have hnone := (List.findSome?_eq_none_iff.mp hfind) e0 he0
          rw [hold] at hnone
          cases hnone
  have hex : ∃ e ∈ vm2.strings,
      keyMatches vm2 t n (hashString signedChar t n) e.key = some vm.heap.length := by
    obtain ⟨e, he, hk⟩ := tableSet_has_key vm.strings (KrkValue.object vm.heap.length)
      KrkValue.none
    rw [← hstr] at he
    exact ⟨e, he, by rw [hk]; exact hnew⟩
  have hfind2 : krk_tableFindString vm2 vm2.strings t n (hashString signedChar t n)
      = some vm.heap.length :=
    findSome_eq_of_only _ _ _ hall hex
  unfold krk_copyString
  simp only [hfind2]

/-- C1: in a VM whose interned strings all point at allocated byte arrays, two successive
`krk_copyString` calls on buffers that hold the same `n` bytes return the same string
object. -/
theorem C1_copyString_twice_same_object (signedChar : Bool) (vm : KrkVM) (s t : List Byte)
    (n : Nat) (hwf : vm.charsAllocated) (hn : n ≤ s.length) (heq : s.take n = t.take n) :
    (krk_copyString signedChar (krk_copyString signedChar vm s n).1 t n).2
      = (krk_copyString signedChar vm s n).2 := by
  cases hfind : krk_tableFindString vm vm.strings s n (hashString signedChar s n) with
  | some r =>
    have hhash : hashString signedChar t n = hashString signedChar s n :=
      (hashString_congr signedChar s t n heq).symm
    have h1 : krk_copyString signedChar vm s n = (vm, r) := by
      unfold krk_copyString
      simp only [hfind]
    have hfind2 : krk_tableFindString vm vm.strings t n (hashString signedChar t n) = some r := by
      rw [hhash, ← hfind]
      unfold krk_tableFindString
      congr 1
      funext e
      unfold keyMatches
      simp only [heq]
    rw [h1]
    unfold krk_copyString
    simp only [hfind2]
  | none =>
    rw [copyString_miss signedChar vm s n hfind]
    exact copyString_after_install signedChar vm _ s t n _ (s.take n ++ [0]) hwf heq hfind rfl
      (by rw [List.take_append_of_le_length (by simp [hn]), List.take_take]; simp) rfl rfl rfl

theorem vmWithHi_eq :
    vmWithHi =
      { heap := [{ type := ObjType.OBJ_STRING, isMarked := false, next := Option.none,
                   body := ObjBody.string { length := 2, chars := 0, hash := 6822401 } }]
        arrays := [some (RawBlock.chars [104, 105, 0])]
        objects := some 0
        strings := [{ key := KrkValue.object 0, value := KrkValue.none }]
        stack := [] } := by
  decide

theorem vmWithHi_charsAllocated : vmWithHi.charsAllocated := by
  intro e he r s hk hs
  rw [vmWithHi_eq] at he hs ⊢
  simp only [List.mem_singleton] at he
  subst he
  cases hk
  simp only [KrkVM.stringAt, List.getElem?_cons_zero, Option.some.injEq] at hs
  subst hs
  decide

/-- Witness for C1: with "hi" already interned, "ho" is copied twice from two buffers;
the first call installs object 1 and the second returns it. -/
theorem C1_copyString_twice_same_object_witness :
    (krk_copyString true (krk_copyString true vmWithHi [104, 111] 2).1 [104, 111, 33] 2).2
      = (krk_copyString true vmWithHi [104, 111] 2).2 :=
  C1_copyString_twice_same_object true vmWithHi [104, 111] [104, 111, 33] 2
    vmWithHi_charsAllocated (by decide) (by decide)

/-- C2: when the strings table holds a string `r` with the bytes and length of the
supplied buffer, its stored hash being the hash of those bytes, `krk_takeString` returns
a string the table holds with those bytes and that length (`r` itself when `r` is the only
one), leaves the heap list, `vm.objects`, the strings table and the stack unchanged and
releases the supplied buffer, touching no other array; when the table holds no such
string it installs a new string object whose `chars` is the supplied buffer itself, no
array being allocated, copied or freed. -/
theorem C2_takeString_hit_or_wrap (signedChar : Bool) (vm : KrkVM) (chars n : Nat)
    (buf : List Byte) (hbuf : vm.charsAt chars = some buf) :
    (∀ r s, vm.holdsString r buf n → vm.stringAt r = some s →
        s.hash = hashString signedChar buf n →
      vm.holdsString (krk_takeString signedChar vm chars n).2 buf n ∧
      ((∀ r2, vm.holdsString r2 buf n → r2 = r) →
        (krk_takeString signedChar vm chars n).2 = r) ∧
      (krk_takeString signedChar vm chars n).1.heap = vm.heap ∧
      (krk_takeString signedChar vm chars n).1.objects = vm.objects ∧
      (krk_takeString signedChar vm chars n).1.strings = vm.strings ∧
      (krk_takeString signedChar vm chars n).1.stack = vm.stack ∧
      (krk_takeString signedChar vm chars n).1.arrays[chars]? = some Option.none ∧
      (krk_takeString signedChar vm chars n).1.charsAt chars = Option.none ∧
      (∀ q, q ≠ chars →
        (krk_takeString signedChar vm chars n).1.arrays[q]? = vm.arrays[q]?)) ∧
    ((∀ r, ¬ vm.holdsString r buf n) →
      (krk_takeString signedChar vm chars n).2 = vm.heap.length ∧
      (krk_takeString signedChar vm chars n).1.heap
        = vm.heap ++ [{ type := ObjType.OBJ_STRING, isMarked := false, next := vm.objects,
                        body := ObjBody.string { length := n, chars := chars,
                                                 hash := hashString signedChar buf n } }] ∧
      (krk_takeString signedChar vm chars n).1.objects = some vm.heap.length ∧
      (krk_takeString signedChar vm chars n).1.arrays = vm.arrays ∧
      (krk_takeString signedChar vm chars n).1.charsAt chars = some buf ∧
      (krk_takeString signedChar vm chars n).1.stack = vm.stack ∧
      ∃ e ∈ (krk_takeString signedChar vm chars n).1.strings,
        e.key = KrkValue.object vm.heap.length) := by
  have hbytes : (vm.charsAt chars).getD [] = buf := by rw [hbuf]; rfl
  have hlt : chars < vm.arrays.length := by
    by_contra hc
    unfold KrkVM.charsAt at hbuf
    rw [List.getElem?_eq_none (by omega)] at hbuf
    cases hbuf
  constructor
  · intro r s hr hs hhash
    -- the slot of `r` answers the lookup, so the lookup succeeds
    obtain ⟨⟨e, he, hk⟩, s2, bytes, hs2, hb, h1, h3⟩ := hr
    have hs_eq : s2 = s := by
      rw [hs] at hs2
      cases hs2
      rfl
    subst hs_eq
    have hmatch : keyMatches vm buf n (hashString signedChar buf n) e.key = some r := by
      rw [keyMatches_eq_some]
      exact ⟨hk, s2, bytes, hs, hb, h1, hhash, h3⟩
    cases hfind : krk_tableFindString vm vm.strings buf n (hashString signedChar buf n) with
    | none =>
      have hnone := (List.findSome?_eq_none_iff.mp hfind) e he
      rw [hmatch] at hnone
      cases hnone
    | some r0 =>
      have hheld := holdsString_of_find vm buf n _ r0 hfind
      have htake : krk_takeString signedChar vm chars n = (FREE_ARRAY vm chars, r0) := by
        unfold krk_takeString
        simp only [hbytes, hfind]
      rw [htake]
      refine ⟨hheld, fun huniq => huniq r0 hheld, rfl, rfl, rfl, rfl, ?_, ?_, ?_⟩
      · simp only [FREE_ARRAY]
        exact List.getElem?_set_self hlt
      · simp only [FREE_ARRAY, KrkVM.charsAt]
        rw [List.getElem?_set_self hlt]
      · intro q hq
        simp only [FREE_ARRAY]
        exact List.getElem?_set_ne (fun h => hq h.symm)
  · intro hmiss
    have hfind := find_eq_none_of_not_held vm buf n (hashString signedChar buf n) hmiss
    have htake := takeString_miss signedChar vm chars n (by rw [hbytes]; exact hfind)
    rw [htake, hbytes]
    refine ⟨rfl, rfl, rfl, rfl, ?_, rfl, ?_⟩
    · unfold KrkVM.charsAt
      unfold KrkVM.charsAt at hbuf
      exact hbuf
    · exact tableSet_has_key _ _ _

theorem vmWithHiAndBuffer_eq :
    vmWithHiAndBuffer =
      { heap := [{ type := ObjType.OBJ_STRING, isMarked := false, next := Option.none,
                   body := ObjBody.string { length := 2, chars := 0, hash := 6822401 } }]
        arrays := [some (RawBlock.chars [104, 105, 0]), some (RawBlock.chars [104, 105, 0])]
        objects := some 0
        strings := [{ key := KrkValue.object 0, value := KrkValue.none }]
        stack := [] } := by
  decide

/-- Witness for C2, first branch: "hi" is interned as object 0 and the caller hands over
the array at address 1, which holds "hi" as well; second branch: the same hand-over to a
VM whose table is empty. -/
theorem C2_takeString_hit_or_wrap_witness :
    ((krk_takeString true vmWithHiAndBuffer 1 2).2 = 0 ∧
      (krk_takeString true vmWithHiAndBuffer 1 2).1.heap = vmWithHiAndBuffer.heap ∧
      (krk_takeString true vmWithHiAndBuffer 1 2).1.arrays[1]? = some Option.none) ∧
    ((krk_takeString true vmWithBuffer 0 2).2 = 0 ∧
      (krk_takeString true vmWithBuffer 0 2).1.arrays = vmWithBuffer.arrays) := by
  have hit := (C2_takeString_hit_or_wrap true vmWithHiAndBuffer 1 2 [104, 105, 0]
    (by decide)).1 0 { length := 2, chars := 0, hash := 6822401 }
    ⟨⟨{ key := KrkValue.object 0, value := KrkValue.none }, by decide, rfl⟩,
      { length := 2, chars := 0, hash := 6822401 }, [104, 105, 0], by decide, by decide, rfl,
      by decide⟩
    (by decide) (by decide)
  have huniq : ∀ r2, vmWithHiAndBuffer.holdsString r2 [104, 105, 0] 2 → r2 = 0 := by
    intro r2 h
    obtain ⟨⟨e, he, hk⟩, _⟩ := h
    rw [vmWithHiAndBuffer_eq] at he
    simp only [List.mem_singleton] at he
    rw [he] at hk
    cases hk
    rfl
  have miss := (C2_takeString_hit_or_wrap true vmWithBuffer 0 2 [104, 105, 0]
    (by decide)).2
    (by
      intro r h
      obtain ⟨⟨e, he, _⟩, _⟩ := h
      cases he)
  exact ⟨⟨hit.2.1 huniq, hit.2.2.1, hit.2.2.2.2.2.2.1⟩, miss.1, miss.2.2.2.1⟩

/-! ### Machine arithmetic of the disassembler -/

theorem or_shift_bytes2 (a b : Nat) (hb : b < 256) :
    (a <<< 8) ||| b = a * 256 + b := by
  have hlt : b < 2 ^ 8 := by omega
  have h := Nat.mul_add_lt_is_or hlt a
  rw [Nat.shiftLeft_eq, Nat.mul_comm a (2 ^ 8), ← h]

theorem or_shift_bytes3 (a b c : Nat) (hb : b < 256) (hc : c < 256) :
    (a <<< 16) ||| (b <<< 8) ||| c = a * 65536 + b * 256 + c := by
  have h1 : (a <<< 16) ||| (b <<< 8) = a * 65536 + b * 256 := by
    have hlt : b * 2 ^ 8 < 2 ^ 16 := by omega
    have h := Nat.mul_add_lt_is_or hlt a
    rw [Nat.shiftLeft_eq, Nat.shiftLeft_eq, Nat.mul_comm a (2 ^ 16), ← h]
    norm_num
  have h2 : (a * 65536 + b * 256) ||| c = a * 65536 + b * 256 + c := by
    have hlt : c < 2 ^ 8 := by omega
    have h := Nat.mul_add_lt_is_or hlt (a * 256 + b)
    have e : 2 ^ 8 * (a * 256 + b) = a * 65536 + b * 256 := by ring
    rw [e] at h
    exact h.symm
  rw [h1, h2]

theorem longOperand_eq (chunk : KrkChunk) (offset : Nat) :
    longOperand chunk offset
      = (chunk.codeAt (offset + 1)).val * 65536 + (chunk.codeAt (offset + 2)).val * 256
        + (chunk.codeAt (offset + 3)).val :=
  or_shift_bytes3 _ _ _ (chunk.codeAt (offset + 2)).isLt (chunk.codeAt (offset + 3)).isLt

theorem longOperand_le (chunk : KrkChunk) (offset : Nat) :
    longOperand chunk offset ≤ 16777215 := by
  rw [longOperand_eq]
  have h1 := (chunk.codeAt (offset + 1)).isLt
  have h2 := (chunk.codeAt (offset + 2)).isLt
  have h3 := (chunk.codeAt (offset + 3)).isLt
  omega

theorem jumpOperand_eq (chunk : KrkChunk) (offset : Nat) :
    jumpOperand chunk offset
      = (chunk.codeAt (offset + 1)).val * 256 + (chunk.codeAt (offset + 2)).val := by
  unfold jumpOperand
  rw [or_shift_bytes2 _ _ (chunk.codeAt (offset + 2)).isLt]
  have h1 := (chunk.codeAt (offset + 1)).isLt
  have h2 := (chunk.codeAt (offset + 2)).isLt
  omega

theorem toInt32_of_fits (x : Int) (h1 : -2147483648 ≤ x) (h2 : x < 2147483648) :
    toInt32 x = x := by
  unfold toInt32
  split <;> omega

theorem toInt32_toSizeT_of_fits (x : Int) (h1 : -2147483648 ≤ x) (h2 : x < 2147483648) :
    toInt32 (toSizeT x) = x := by
  unfold toInt32 toSizeT
  have h64 : (0 : Int) ≤ x % 18446744073709551616 := Int.emod_nonneg _ (by norm_num)
  rw [Int.toNat_of_nonneg h64]
  split <;> omega

/-! ### Instruction widths and operand decoding -/

theorem disassemble_next (env : DebugEnv) (vm : KrkVM) (chunk : KrkChunk) (offset : Nat) :
    (krk_disassembleInstruction env vm chunk offset).next
      = (disassembleSwitch env vm chunk (chunk.codeAt offset) offset).next := rfl

theorem disassemble_out (env : DebugEnv) (vm : KrkVM) (chunk : KrkChunk) (offset : Nat) :
    (krk_disassembleInstruction env vm chunk offset).out
      = gutter chunk offset ++ (disassembleSwitch env vm chunk (chunk.codeAt offset) offset).out :=
  rfl

theorem width_of_class (env : DebugEnv) (vm : KrkVM) (chunk : KrkChunk) (O : Nat)
    (op : KrkOpCode) (h : env.opcode (chunk.codeAt O) = some op) :
    (op.isSimple = true → (krk_disassembleInstruction env vm chunk O).next = O + 1) ∧
    (op.isShort = true → (krk_disassembleInstruction env vm chunk O).next = O + 2) ∧
    (op.isLong = true → (krk_disassembleInstruction env vm chunk O).next = O + 4) ∧
    (op.isJump = true → (krk_disassembleInstruction env vm chunk O).next = O + 3) := by
  rw [disassemble_next]
  unfold disassembleSwitch
  rw [h]
  refine ⟨?_, ?_, ?_, ?_⟩
  · cases op <;> simp [KrkOpCode.isSimple, SIMPLE]
  · cases op <;> simp [KrkOpCode.isShort, OPERANDB, CONSTANT, noMore]
  · cases op <;> simp [KrkOpCode.isLong, OPERAND_LONG, CONSTANT_LONG, noMore]
  · cases op <;> simp [KrkOpCode.isJump, JUMP]

/-- C7: `krk_disassembleInstruction` returns `O + 1` for a simple opcode, `O + 2` for an
operand-short or constant-short opcode other than closure, `O + 4` for an operand-long or
constant-long opcode other than closure-long, and `O + 3` for a jump-class opcode; every
opcode is in one of these classes or is one of the two closure opcodes; for the
chunk `[OP_CONSTANT 0, OP_RETURN]` with constants `[42]` it returns 2 at offset 0 and 3
at offset 2. -/
theorem C7_instruction_width (env : DebugEnv) (vm : KrkVM) (chunk : KrkChunk) (O : Nat)
    (op : KrkOpCode) (h : env.opcode (chunk.codeAt O) = some op) :
    (op.isSimple = true → (krk_disassembleInstruction env vm chunk O).next = O + 1) ∧
    (op.isShort = true → (krk_disassembleInstruction env vm chunk O).next = O + 2) ∧
    (op.isLong = true → (krk_disassembleInstruction env vm chunk O).next = O + 4) ∧
    (op.isJump = true → (krk_disassembleInstruction env vm chunk O).next = O + 3) ∧
    (op.isSimple = true ∨ op.isShort = true ∨ op.isLong = true ∨ op.isJump = true ∨
      op = KrkOpCode.OP_CLOSURE ∨ op = KrkOpCode.OP_CLOSURE_LONG) ∧
    (krk_disassembleInstruction sampleEnv KrkVM.empty sampleChunk 0).next = 2 ∧
    (krk_disassembleInstruction sampleEnv KrkVM.empty sampleChunk 2).next = 3 := by
  obtain ⟨h1, h2, h3, h4⟩ := width_of_class env vm chunk O op h
  refine ⟨h1, h2, h3, h4, ?_, by decide, by decide⟩
  cases op <;> simp [KrkOpCode.isSimple, KrkOpCode.isShort, KrkOpCode.isLong, KrkOpCode.isJump]

/-- Witness for C7: one instruction of each class under the sample numbering. -/
theorem C7_instruction_width_witness :
    (krk_disassembleInstruction sampleEnv KrkVM.empty sampleChunk 2).next = 2 + 1 ∧
    (krk_disassembleInstruction sampleEnv KrkVM.empty sampleChunk 0).next = 0 + 2 ∧
    (krk_disassembleInstruction sampleEnv KrkVM.empty sampleLongChunk 0).next = 0 + 4 ∧
    (krk_disassembleInstruction sampleEnv KrkVM.empty sampleJumpChunk 3).next = 3 + 3 :=
  ⟨(C7_instruction_width sampleEnv KrkVM.empty sampleChunk 2 KrkOpCode.OP_RETURN
      (by decide)).1 (by decide),
   (C7_instruction_width sampleEnv KrkVM.empty sampleChunk 0 KrkOpCode.OP_CONSTANT
      (by decide)).2.1 (by decide),
   (C7_instruction_width sampleEnv KrkVM.empty sampleLongChunk 0 KrkOpCode.OP_CONSTANT_LONG
      (by decide)).2.2.1 (by decide),
   (C7_instruction_width sampleEnv KrkVM.empty sampleJumpChunk 3 KrkOpCode.OP_LOOP
      (by decide)).2.2.2.1 (by decide)⟩

theorem gutter_append_two (chunk : KrkChunk) (offset : Nat) (l : List String) (i : Nat) :
    (gutter chunk offset ++ l)[i + 2]? = l[i]? := by
  simp [gutter]

/-- C8: for a long-form opcode at `O` followed by the bytes `b1 b2 b3`, the number
written after the opcode name is `b1 * 65536 + b2 * 256 + b3`, a value in 0..16777215;
for a constant-long opcode it is also the index of the constant printed; the returned
offset is `O + 4` unless the opcode is closure-long; `OP_CONSTANT_LONG 01 02 03` reports
66051 and returns 4 from offset 0. -/
theorem C8_long_operand_decoding (env : DebugEnv) (vm : KrkVM) (chunk : KrkChunk) (O : Nat)
    (op : KrkOpCode) (h : env.opcode (chunk.codeAt O) = some op) :
    (chunk.codeAt (O + 1)).val * 65536 + (chunk.codeAt (O + 2)).val * 256
      + (chunk.codeAt (O + 3)).val ≤ 16777215 ∧
    (op.isConstantLong = true →
      (krk_disassembleInstruction env vm chunk O).out[2]?
        = some (fmtLeftS 16 op.name ++ " "
            ++ fmtD 4 (((chunk.codeAt (O + 1)).val * 65536 + (chunk.codeAt (O + 2)).val * 256
                + (chunk.codeAt (O + 3)).val : Nat) : Int) ++ " ") ∧
      (krk_disassembleInstruction env vm chunk O).out[3]?
        = some (env.printValueSafe (chunk.constantAt
            ((chunk.codeAt (O + 1)).val * 65536 + (chunk.codeAt (O + 2)).val * 256
              + (chunk.codeAt (O + 3)).val)))) ∧
    (op.isOperandLong = true →
      (krk_disassembleInstruction env vm chunk O).out
        = gutter chunk O ++ [fmtLeftS 16 op.name ++ " "
            ++ fmtD 4 (((chunk.codeAt (O + 1)).val * 65536 + (chunk.codeAt (O + 2)).val * 256
                + (chunk.codeAt (O + 3)).val : Nat) : Int) ++ "\n"]) ∧
    (op.isLong = true → (krk_disassembleInstruction env vm chunk O).next = O + 4) ∧
    (krk_disassembleInstruction sampleEnv KrkVM.empty sampleLongChunk 0).out[2]?
      = some "OP_CONSTANT_LONG 66051 " ∧
    (krk_disassembleInstruction sampleEnv KrkVM.empty sampleLongChunk 0).next = 4 := by
  have hv := longOperand_eq chunk O
  have hle := longOperand_le chunk O
  rw [hv] at hle
  have hfit : toInt32 (((chunk.codeAt (O + 1)).val * 65536 + (chunk.codeAt (O + 2)).val * 256
      + (chunk.codeAt (O + 3)).val : Nat) : Int)
      = (((chunk.codeAt (O + 1)).val * 65536 + (chunk.codeAt (O + 2)).val * 256
      + (chunk.codeAt (O + 3)).val : Nat) : Int) :=
    toInt32_of_fits _ (by omega) (by omega)
  have hmod : ((chunk.codeAt (O + 1)).val * 65536 + (chunk.codeAt (O + 2)).val * 256
      + (chunk.codeAt (O + 3)).val) % 4294967296
      = (chunk.codeAt (O + 1)).val * 65536 + (chunk.codeAt (O + 2)).val * 256
      + (chunk.codeAt (O + 3)).val := Nat.mod_eq_of_lt (by omega)
  refine ⟨hle, ?_, ?_, ?_, by decide, by decide⟩
  · intro hop
    rw [disassemble_out, gutter_append_two chunk O _ 0, gutter_append_two chunk O _ 1]
    unfold disassembleSwitch
    rw [h]
    cases op <;> simp [KrkOpCode.isConstantLong] at hop <;>
      simp only [CONSTANT_LONG, hv, hfit, KrkOpCode.name] <;>
      exact ⟨rfl, rfl⟩
  · intro hop
    rw [disassemble_out]
    unfold disassembleSwitch
    rw [h]
    cases op <;> simp [KrkOpCode.isOperandLong] at hop <;>
      simp only [OPERAND_LONG, hv, hmod, hfit, KrkOpCode.name] <;>
      rfl
  · exact (width_of_class env vm chunk O op h).2.2.1

/-- Witness for C8: `OP_CONSTANT_LONG 01 02 03` and `OP_GET_LOCAL_LONG 00 01 2c` under the
sample numbering. -/
theorem C8_long_operand_decoding_witness :
    (krk_disassembleInstruction sampleEnv KrkVM.empty sampleLongChunk 0).out[2]?
      = some (fmtLeftS 16 "OP_CONSTANT_LONG" ++ " " ++ fmtD 4 66051 ++ " ") ∧
    (krk_disassembleInstruction sampleEnv KrkVM.empty sampleOperandLongChunk 0).out
      = gutter sampleOperandLongChunk 0
          ++ [fmtLeftS 16 "OP_GET_LOCAL_LONG" ++ " " ++ fmtD 4 300 ++ "\n"] ∧
    (krk_disassembleInstruction sampleEnv KrkVM.empty sampleLongChunk 0).next = 0 + 4 :=
  ⟨((C8_long_operand_decoding sampleEnv KrkVM.empty sampleLongChunk 0
      KrkOpCode.OP_CONSTANT_LONG (by decide)).2.1 (by decide)).1,
   (C8_long_operand_decoding sampleEnv KrkVM.empty sampleOperandLongChunk 0
      KrkOpCode.OP_GET_LOCAL_LONG (by decide)).2.2.1 (by decide),
   (C8_long_operand_decoding sampleEnv KrkVM.empty sampleLongChunk 0
      KrkOpCode.OP_CONSTANT_LONG (by decide)).2.2.2.1 (by decide)⟩

/-! ### Jump targets -/

/-- C9: for a jump-class instruction at `O` with operand bytes `hi`, `lo` and
`D = hi * 256 + lo`, the line written is the name, the offset and, after ` -> `, the
target: `O + 3 + D` for `OP_JUMP`, `OP_JUMP_IF_FALSE`, `OP_JUMP_IF_TRUE` and
`OP_PUSH_TRY`, and `O + 3 - D` (negative when `D > O + 3`) for `OP_LOOP`, the target
being a value that fits the `int` it is printed as, below 2^31. -/
theorem C9_jump_target (env : DebugEnv) (vm : KrkVM) (chunk : KrkChunk) (O : Nat)
    (op : KrkOpCode) (h : env.opcode (chunk.codeAt O) = some op) :
    ((op = KrkOpCode.OP_JUMP ∨ op = KrkOpCode.OP_JUMP_IF_FALSE ∨
        op = KrkOpCode.OP_JUMP_IF_TRUE ∨ op = KrkOpCode.OP_PUSH_TRY) →
      O + 3 + ((chunk.codeAt (O + 1)).val * 256 + (chunk.codeAt (O + 2)).val) < 2147483648 →
      (krk_disassembleInstruction env vm chunk O).out
        = gutter chunk O ++ [fmtLeftS 16 op.name ++ " " ++ fmtD 4 (O : Int) ++ " -> "
            ++ fmtD 0 ((O : Int) + 3
                + (((chunk.codeAt (O + 1)).val * 256 + (chunk.codeAt (O + 2)).val : Nat) : Int))
            ++ "\n"]) ∧
    (op = KrkOpCode.OP_LOOP →
      (O : Int) + 3
        - (((chunk.codeAt (O + 1)).val * 256 + (chunk.codeAt (O + 2)).val : Nat) : Int)
        < 2147483648 →
      (krk_disassembleInstruction env vm chunk O).out
        = gutter chunk O ++ [fmtLeftS 16 op.name ++ " " ++ fmtD 4 (toInt32 (O : Int)) ++ " -> "
            ++ fmtD 0 ((O : Int) + 3
                - (((chunk.codeAt (O + 1)).val * 256 + (chunk.codeAt (O + 2)).val : Nat) : Int))
            ++ "\n"]) ∧
    (krk_disassembleInstruction sampleEnv KrkVM.empty sampleJumpChunk 0).out
      = ["0000 ", "   1 ", "OP_JUMP             0 -> 8\n"] ∧
    (krk_disassembleInstruction sampleEnv KrkVM.empty sampleJumpChunk 3).out
      = ["0003 ", "   | ", "OP_LOOP             3 -> -3\n"] := by
  have hj := jumpOperand_eq chunk O
  have h1 := (chunk.codeAt (O + 1)).isLt
  have h2 := (chunk.codeAt (O + 2)).isLt
  refine ⟨?_, ?_, by decide, by decide⟩
  · intro hop hfit
    have hO : toInt32 (O : Int) = (O : Int) := toInt32_of_fits _ (by omega) (by omega)
    have ht : jumpTarget JumpSign.plus O (jumpOperand chunk O)
        = (O : Int) + 3
          + (((chunk.codeAt (O + 1)).val * 256 + (chunk.codeAt (O + 2)).val : Nat) : Int) := by
      unfold jumpTarget
      rw [hj]
      exact toInt32_toSizeT_of_fits _ (by omega) (by omega)
    rw [disassemble_out]
    unfold disassembleSwitch
    rw [h]
    rcases hop with hop | hop | hop | hop <;> subst hop <;>
      simp only [JUMP, ht, hO, KrkOpCode.name]
  · intro hop hfit
    have ht : jumpTarget JumpSign.minus O (jumpOperand chunk O)
        = (O : Int) + 3
          - (((chunk.codeAt (O + 1)).val * 256 + (chunk.codeAt (O + 2)).val : Nat) : Int) := by
      unfold jumpTarget
      rw [hj]
      exact toInt32_toSizeT_of_fits _ (by omega) (by omega)
    rw [disassemble_out]
    unfold disassembleSwitch
    rw [h]
    subst hop
    simp only [JUMP, ht, KrkOpCode.name]

/-- Witness for C9: `OP_JUMP 00 05` at offset 0 and `OP_LOOP 00 09` at offset 3. -/
theorem C9_jump_target_witness :
    (krk_disassembleInstruction sampleEnv KrkVM.empty sampleJumpChunk 0).out
      = gutter sampleJumpChunk 0 ++ [fmtLeftS 16 "OP_JUMP" ++ " " ++ fmtD 4 0 ++ " -> "
          ++ fmtD 0 8 ++ "\n"] ∧
    (krk_disassembleInstruction sampleEnv KrkVM.empty sampleJumpChunk 3).out
      = gutter sampleJumpChunk 3 ++ [fmtLeftS 16 "OP_LOOP" ++ " " ++ fmtD 4 3 ++ " -> "
          ++ fmtD 0 (-3) ++ "\n"] :=
  ⟨(C9_jump_target sampleEnv KrkVM.empty sampleJumpChunk 0 KrkOpCode.OP_JUMP (by decide)).1
      (Or.inl rfl) (by decide),
   (C9_jump_target sampleEnv KrkVM.empty sampleJumpChunk 3 KrkOpCode.OP_LOOP (by decide)).2.1
      rfl (by decide)⟩

/-! ### Closure trailers -/

/-- The loop of `CLOSURE_MORE` in closed form: iteration `j` reads the bytes at
`offset + 2 * j + 2` and `offset + 2 * j + 3` and writes one line. -/
theorem closure_loop_eq (chunk : KrkChunk) :
    ∀ (n offset : Nat), CLOSURE_MORE.loop chunk n offset =
      { out := (List.range n).map (fun j =>
          closureLine (toInt32 ((offset + 2 * j + 2 : Nat) : Int) - 2)
            (chunk.codeAt (offset + 2 * j + 2)).val (chunk.codeAt (offset + 2 * j + 3)).val)
        codeReads := ((List.range n).map (fun j => [offset + 2 * j + 2, offset + 2 * j + 3])).flatten
        constReads := []
        next := offset + 2 * n } := by
  intro n
  induction n with
  | zero => intro offset; rfl
  | succ n ih =>
    intro offset
    rw [CLOSURE_MORE.loop, ih (offset + 1 + 1), List.range_succ_eq_map]
    simp only [List.map_cons, List.map_map, List.flatten_cons, Nat.mul_zero, Nat.add_zero]
    have e1 : ∀ j : Nat, offset + 1 + 1 + 2 * j + 2 = offset + 2 * (j + 1) + 2 := by
      intro j; omega
    have e2 : ∀ j : Nat, offset + 1 + 1 + 2 * j + 3 = offset + 2 * (j + 1) + 3 := by
      intro j; omega
    have e3 : offset + 1 + 1 + 2 * n = offset + 2 * (n + 1) := by omega
    have e4 : offset + 1 + 2 = offset + 3 := by omega
    simp only [e1, e2, e3, e4]
    rfl

/-- C10: for `OP_CLOSURE` at `O` whose constant is a function with `upvalueCount = n`,
the output is the gutter, the three parts of the instruction line and then exactly `n`
trailer lines, line `j` reading `local X` when the byte at `O + 2 + 2j` is non-zero and
`upvalue X` when it is zero, `X` being the byte at `O + 3 + 2j`; the bytes read are the
opcode, the index and the `2n` bytes from `O + 2`, and the returned offset is
`O + 2 + 2n`. With `n = 2` and trailer bytes `[1, 5, 0, 3]` the trailer lines read
`local 5` and `upvalue 3` and the returned offset is 6. -/
theorem C10_closure_trailer (env : DebugEnv) (vm : KrkVM) (chunk : KrkChunk) (O r : Nat)
    (o : KrkObj) (f : KrkFunction)
    (h : env.opcode (chunk.codeAt O) = some KrkOpCode.OP_CLOSURE)
    (hconst : chunk.constantAt (chunk.codeAt (O + 1)).val = KrkValue.object r)
    (hobj : vm.heap[r]? = some o) (hfun : o.body = ObjBody.function f) :
    (krk_disassembleInstruction env vm chunk O).out
      = gutter chunk O
        ++ [fmtLeftS 16 "OP_CLOSURE" ++ " " ++ fmtD 4 ((chunk.codeAt (O + 1)).val : Int) ++ " ",
            env.printValueSafe (KrkValue.object r),
            " (type=" ++ env.typeName (KrkValue.object r) ++ ")\n"]
        ++ (List.range f.upvalueCount).map (fun j =>
            fmtZeroD 4 (toInt32 ((O + 2 * j + 2 : Nat) : Int) - 2)
              ++ "      |                     "
              ++ (if (chunk.codeAt (O + 2 * j + 2)).val ≠ 0 then "local" else "upvalue")
              ++ " " ++ fmtD 0 ((chunk.codeAt (O + 2 * j + 3)).val : Int) ++ "\n") ∧
    (krk_disassembleInstruction env vm chunk O).out.length = 5 + f.upvalueCount ∧
    (krk_disassembleInstruction env vm chunk O).codeReads
      = O :: (O + 1) ::
          ((List.range f.upvalueCount).map (fun j => [O + 2 * j + 2, O + 2 * j + 3])).flatten ∧
    (krk_disassembleInstruction env vm chunk O).next = O + 2 + 2 * f.upvalueCount ∧
    (krk_disassembleInstruction sampleEnv vmWithFunction sampleClosureChunk 0).out.drop 5
      = ["0000      |                     local 5\n",
         "0002      |                     upvalue 3\n"] ∧
    (krk_disassembleInstruction sampleEnv vmWithFunction sampleClosureChunk 0).next = 6 := by
  have hcount2 : vm.upvalueCountOf (KrkValue.object r) = f.upvalueCount := by
    simp [KrkVM.upvalueCountOf, hobj, hfun]
  have hcount : vm.upvalueCountOf (chunk.constantAt (chunk.codeAt (O + 1)).val)
      = f.upvalueCount := by
    rw [hconst, hcount2]
  have hfit : toInt32 (((chunk.codeAt (O + 1)).val : Nat) : Int)
      = ((chunk.codeAt (O + 1)).val : Int) := by
    have := (chunk.codeAt (O + 1)).isLt
    exact toInt32_of_fits _ (by omega) (by omega)
  have hsw : disassembleSwitch env vm chunk (chunk.codeAt O) O
      = CONSTANT env vm chunk "OP_CLOSURE" CLOSURE_MORE O := by
    unfold disassembleSwitch
    rw [h]
  have hout : (krk_disassembleInstruction env vm chunk O).out
      = gutter chunk O
        ++ [fmtLeftS 16 "OP_CLOSURE" ++ " " ++ fmtD 4 ((chunk.codeAt (O + 1)).val : Int) ++ " ",
            env.printValueSafe (KrkValue.object r),
            " (type=" ++ env.typeName (KrkValue.object r) ++ ")\n"]
        ++ (List.range f.upvalueCount).map (fun j =>
            fmtZeroD 4 (toInt32 ((O + 2 * j + 2 : Nat) : Int) - 2)
              ++ "      |                     "
              ++ (if (chunk.codeAt (O + 2 * j + 2)).val ≠ 0 then "local" else "upvalue")
              ++ " " ++ fmtD 0 ((chunk.codeAt (O + 2 * j + 3)).val : Int) ++ "\n") := by
    rw [disassemble_out, hsw]
    simp only [CONSTANT, CLOSURE_MORE, hcount, closure_loop_eq, hfit, hconst, hcount2,
      closureLine, List.append_assoc]
  refine ⟨hout, ?_, ?_, ?_, by decide, by decide⟩
  · rw [hout]
    simp [gutter]
    omega
  · show O :: (disassembleSwitch env vm chunk (chunk.codeAt O) O).codeReads = _
    rw [hsw]
    simp only [CONSTANT, CLOSURE_MORE, hcount, closure_loop_eq]
  · rw [disassemble_next, hsw]
    simp only [CONSTANT, CLOSURE_MORE, hcount, closure_loop_eq]
    omega

/-- Witness for C10: `OP_CLOSURE 0` with trailer `[1, 5, 0, 3]`, constant 0 being a
function with two upvalues. -/
theorem C10_closure_trailer_witness :
    (krk_disassembleInstruction sampleEnv vmWithFunction sampleClosureChunk 0).next
      = 0 + 2 + 2 * 2 :=
  (C10_closure_trailer sampleEnv vmWithFunction sampleClosureChunk 0 0
    { type := ObjType.OBJ_FUNCTION, isMarked := false, next := Option.none,
      body := ObjBody.function { arity := 0, upvalueCount := 2, name := Option.none,
                                 chunk := krk_initChunk } }
    { arity := 0, upvalueCount := 2, name := Option.none, chunk := krk_initChunk }
    (by decide) (by decide) (by decide) rfl).2.2.2.1

/-! ### Unknown opcodes -/

set_option maxRecDepth 100000 in
theorem fmtZeroX_two_digits : ∀ b : Byte, fmtZeroX 2 b.val
      = String.mk [Nat.digitChar (b.val / 16), Nat.digitChar (b.val % 16)] := by
  decide

/-- C11: when the byte at `O` is no opcode of the catalogue, `krk_disassembleInstruction`
returns a result (it is total), writes after the gutter the one line
`Unknown opcode: HH`, `HH` being the two lower-case hexadecimal digits of the byte, reads
no other byte of the code and no constant, and returns `O + 1`; under the sample
numbering the byte 200 at offset 1 gives `Unknown opcode: c8` and offset 2. -/
theorem C11_unknown_opcode (env : DebugEnv) (vm : KrkVM) (chunk : KrkChunk) (O : Nat)
    (h : env.opcode (chunk.codeAt O) = Option.none) :
    (krk_disassembleInstruction env vm chunk O).out
      = gutter chunk O ++ ["Unknown opcode: "
          ++ String.mk [Nat.digitChar ((chunk.codeAt O).val / 16),
                        Nat.digitChar ((chunk.codeAt O).val % 16)] ++ "\n"] ∧
    (krk_disassembleInstruction env vm chunk O).codeReads = [O] ∧
    (krk_disassembleInstruction env vm chunk O).constReads = [] ∧
    (krk_disassembleInstruction env vm chunk O).next = O + 1 ∧
    (krk_disassembleInstruction sampleEnv KrkVM.empty sampleUnknownChunk 1).out
      = ["0001 ", "   2 ", "Unknown opcode: c8\n"] ∧
    (krk_disassembleInstruction sampleEnv KrkVM.empty sampleUnknownChunk 1).next = 2 := by
  have hsw : disassembleSwitch env vm chunk (chunk.codeAt O) O
      = unknownOpcode (chunk.codeAt O) O := by
    unfold disassembleSwitch
    rw [h]
  refine ⟨?_, ?_, ?_, ?_, by decide, by decide⟩
  · rw [disassemble_out, hsw]
    simp only [unknownOpcode, fmtZeroX_two_digits]
  · show O :: (disassembleSwitch env vm chunk (chunk.codeAt O) O).codeReads = [O]
    rw [hsw]
    rfl
  · show (disassembleSwitch env vm chunk (chunk.codeAt O) O).constReads = []
    rw [hsw]
    rfl
  · rw [disassemble_next, hsw]
    rfl

/-- Witness for C11: the byte 200 at offset 1 of the sample chunk. -/
theorem C11_unknown_opcode_witness :
    (krk_disassembleInstruction sampleEnv KrkVM.empty sampleUnknownChunk 1).next = 1 + 1 :=
  (C11_unknown_opcode sampleEnv KrkVM.empty sampleUnknownChunk 1 (by decide)).2.2.2.1

/-! ### The gutter -/

theorem padLeft_length (c : Char) (w : Nat) (s : String) (h : s.length ≤ w) :
    (padLeft c w s).length = w := by
  unfold padLeft
  rw [String.length_append]
  simp only [String.length, List.length_replicate]
  simp only [String.length] at h
  omega

theorem toString_natCast (n : Nat) : toString ((n : Nat) : Int) = toString n := rfl

/-- C16: the first text `krk_disassembleInstruction` writes is the offset in decimal,
zero-padded to four digits (exactly four characters for `O < 10000`), and a blank; the
second is the source-line column: the line `krk_lineNumber(chunk, O)`, right-justified
in four columns, when `O = 0` or the byte at `O - 1` maps to a different line, and
`   | ` when `O > 0` and the byte at `O - 1` maps to the same line. The offset is taken
below 2^32 and the line below 2^31, the ranges of the `unsigned int` and `int` they are
printed as. -/
theorem C16_gutter (env : DebugEnv) (vm : KrkVM) (chunk : KrkChunk) (O : Nat)
    (hO : O < 4294967296) (hline : krk_lineNumber chunk O < 2147483648) :
    (krk_disassembleInstruction env vm chunk O).out[0]?
      = some (padLeft '0' 4 (toString O) ++ " ") ∧
    (O < 10000 → (padLeft '0' 4 (toString O)).length = 4) ∧
    ((O = 0 ∨ krk_lineNumber chunk O ≠ krk_lineNumber chunk (O - 1)) →
      (krk_disassembleInstruction env vm chunk O).out[1]?
        = some (padLeft ' ' 4 (toString (krk_lineNumber chunk O)) ++ " ")) ∧
    ((0 < O ∧ krk_lineNumber chunk O = krk_lineNumber chunk (O - 1)) →
      (krk_disassembleInstruction env vm chunk O).out[1]? = some "   | ") ∧
    (krk_disassembleInstruction sampleEnv KrkVM.empty sampleUnknownChunk 0).out.take 2
      = ["0000 ", "   1 "] ∧
    (krk_disassembleInstruction sampleEnv KrkVM.empty sampleUnknownChunk 1).out.take 2
      = ["0001 ", "   2 "] ∧
    (krk_disassembleInstruction sampleEnv KrkVM.empty sampleChunk 2).out.take 2
      = ["0002 ", "   | "] := by
  have hmod : O % 4294967296 = O := Nat.mod_eq_of_lt hO
  have hfit : toInt32 ((krk_lineNumber chunk O : Nat) : Int) = (krk_lineNumber chunk O : Nat) :=
    toInt32_of_fits _ (by omega) (by omega)
  refine ⟨?_, ?_, ?_, ?_, by decide, by decide, by decide⟩
  · rw [disassemble_out]
    simp only [gutter, hmod, fmtZeroU, List.cons_append, List.getElem?_cons_zero]
  · intro h4
    exact padLeft_length '0' 4 _ (Nat.repr_length O 4 (by norm_num) (by norm_num; omega))
  · intro hfirst
    have hcond : ¬ (O > 0 ∧ krk_lineNumber chunk O = krk_lineNumber chunk (O - 1)) := by
      rcases hfirst with h0 | hne
      · omega
      · exact fun hc => hne hc.2
    rw [disassemble_out]
    simp only [gutter, hcond, if_false, hfit, fmtD, toString_natCast, List.cons_append,
      List.getElem?_cons_succ, List.getElem?_cons_zero]
  · intro hsame
    have hcond : O > 0 ∧ krk_lineNumber chunk O = krk_lineNumber chunk (O - 1) := hsame
    rw [disassemble_out]
    simp only [gutter, hcond, and_self, if_true, List.cons_append,
      List.getElem?_cons_succ, List.getElem?_cons_zero]

/-- Witness for C16: offsets 0 and 1 of the sample chunk start lines 1 and 2, and offset 2
of the round-trip sample continues line 1. -/
theorem C16_gutter_witness :
    (krk_disassembleInstruction sampleEnv KrkVM.empty sampleUnknownChunk 1).out[0]?
      = some (padLeft '0' 4 (toString 1) ++ " ") ∧
    (padLeft '0' 4 (toString 1)).length = 4 ∧
    (krk_disassembleInstruction sampleEnv KrkVM.empty sampleUnknownChunk 1).out[1]?
      = some (padLeft ' ' 4 (toString (krk_lineNumber sampleUnknownChunk 1)) ++ " ") ∧
    (krk_disassembleInstruction sampleEnv KrkVM.empty sampleChunk 2).out[1]? = some "   | " :=
  ⟨(C16_gutter sampleEnv KrkVM.empty sampleUnknownChunk 1 (by decide) (by decide)).1,
   (C16_gutter sampleEnv KrkVM.empty sampleUnknownChunk 1 (by decide) (by decide)).2.1
     (by decide),
   (C16_gutter sampleEnv KrkVM.empty sampleUnknownChunk 1 (by decide) (by decide)).2.2.1
     (Or.inr (by decide)),
   (C16_gutter sampleEnv KrkVM.empty sampleChunk 2 (by decide) (by decide)).2.2.2.1
     ⟨by decide, by decide⟩⟩

/-! ### Progress and the walk over a chunk -/

theorem disassemble_codeReads (env : DebugEnv) (vm : KrkVM) (chunk : KrkChunk) (offset : Nat) :
    (krk_disassembleInstruction env vm chunk offset).codeReads
      = offset :: (disassembleSwitch env vm chunk (chunk.codeAt offset) offset).codeReads := rfl

theorem disassemble_constReads (env : DebugEnv) (vm : KrkVM) (chunk : KrkChunk) (offset : Nat) :
    (krk_disassembleInstruction env vm chunk offset).constReads
      = (disassembleSwitch env vm chunk (chunk.codeAt offset) offset).constReads := rfl

theorem mem_closure_reads (O n i : Nat)
    (h : i ∈ ((List.range n).map (fun j => [O + 2 * j + 2, O + 2 * j + 3])).flatten) :
    O + 2 ≤ i ∧ i < O + 2 + 2 * n := by
  simp only [List.mem_flatten, List.mem_map, List.mem_range] at h
  obtain ⟨l, ⟨j, hj, hl⟩, hi⟩ := h
  subst hl
  simp only [List.mem_cons, List.mem_singleton, List.not_mem_nil, or_false] at hi
  omega

/-- What one call does to a catalogue opcode: it returns the offset after the complete
instruction, reads only bytes of the instruction, and reads no constant but the one the
instruction names. -/
theorem instruction_facts (env : DebugEnv) (vm : KrkVM) (chunk : KrkChunk) (O : Nat)
    (op : KrkOpCode) (h : env.opcode (chunk.codeAt O) = some op) :
    (krk_disassembleInstruction env vm chunk O).next = O + instructionWidth vm chunk O op ∧
    (∀ i ∈ (krk_disassembleInstruction env vm chunk O).codeReads,
      O ≤ i ∧ i < O + instructionWidth vm chunk O op) ∧
    (∀ k ∈ (krk_disassembleInstruction env vm chunk O).constReads,
      constantIndexOf chunk O op = some k) := by
  rw [disassemble_next, disassemble_codeReads, disassemble_constReads]
  unfold disassembleSwitch
  rw [h]
  by_cases hc : op = KrkOpCode.OP_CLOSURE
  · subst hc
    simp only [CONSTANT, CLOSURE_MORE, closure_loop_eq, instructionWidth, constantIndexOf,
      KrkOpCode.isSimple, KrkOpCode.isShort, KrkOpCode.isLong, KrkOpCode.isJump,
      KrkOpCode.isConstantShort]
    refine ⟨by simp; omega, ?_, ?_⟩
    · intro i hi
      simp only [List.mem_cons] at hi
      rcases hi with hi | hi | hi
      · simp; omega
      · simp; omega
      · have := mem_closure_reads O _ i hi
        simp
        omega
    · intro k hk
      simp only [List.mem_cons, List.not_mem_nil, or_false, or_self] at hk
      simp [hk]
  · by_cases hcl : op = KrkOpCode.OP_CLOSURE_LONG
    · subst hcl
      simp only [CONSTANT_LONG, CLOSURE_MORE, closure_loop_eq, instructionWidth,
        constantIndexOf, KrkOpCode.isSimple, KrkOpCode.isShort, KrkOpCode.isLong,
        KrkOpCode.isJump, KrkOpCode.isConstantShort, KrkOpCode.isConstantLong, longOperand_eq,
        bigEndian24]
      refine ⟨by simp; omega, ?_, ?_⟩
      · intro i hi
        simp only [List.mem_cons] at hi
        rcases hi with hi | hi | hi | hi | hi
        · simp; omega
        · simp; omega
        · simp; omega
        · simp; omega
        · have := mem_closure_reads O _ i hi
          simp
          omega
      · intro k hk
        simp only [List.mem_cons, List.not_mem_nil, or_false, or_self] at hk
        simp [hk]
    · cases op <;>
        simp [instructionWidth, constantIndexOf, KrkOpCode.isSimple, KrkOpCode.isShort,
          KrkOpCode.isLong, KrkOpCode.isJump, KrkOpCode.isConstantShort,
          KrkOpCode.isConstantLong, SIMPLE, OPERANDB, CONSTANT, CONSTANT_LONG, OPERAND_LONG,
          JUMP, noMore, longOperand_eq, bigEndian24] at hc hcl ⊢

theorem instructionWidth_pos (vm : KrkVM) (chunk : KrkChunk) (O : Nat) (op : KrkOpCode) :
    0 < instructionWidth vm chunk O op := by
  unfold instructionWidth
  split
  · omega
  · split
    · omega
    · split
      · omega
      · split
        · omega
        · split <;> omega

theorem disassemble_progress (env : DebugEnv) (vm : KrkVM) (chunk : KrkChunk) (O : Nat) :
    O < (krk_disassembleInstruction env vm chunk O).next := by
  cases h : env.opcode (chunk.codeAt O) with
  | none =>
    have hsw : disassembleSwitch env vm chunk (chunk.codeAt O) O
        = unknownOpcode (chunk.codeAt O) O := by
      unfold disassembleSwitch
      rw [h]
    rw [disassemble_next, hsw]
    simp [unknownOpcode]
  | some op =>
    rw [(instruction_facts env vm chunk O op h).1]
    have := instructionWidth_pos vm chunk O op
    omega

/-- The loop ends within `chunk.count - offset` calls, whatever the code holds. -/
theorem loop_terminates (env : DebugEnv) (vm : KrkVM) (chunk : KrkChunk) :
    ∀ (fuel offset : Nat), chunk.count - offset ≤ fuel →
      ∃ calls final, krk_disassembleChunk.loop env vm chunk fuel offset = some (calls, final) ∧
        calls.length ≤ chunk.count - offset ∧ chunk.count ≤ final ∧
        ∀ more, krk_disassembleChunk.loop env vm chunk (fuel + more) offset
          = some (calls, final) := by
  intro fuel
  induction fuel with
  | zero =>
    intro offset hfuel
    have hnot : ¬ offset < chunk.count := by omega
    refine ⟨[], offset, by simp [krk_disassembleChunk.loop, hnot], by simp, by omega, ?_⟩
    intro more
    cases more with
    | zero => simp [krk_disassembleChunk.loop, hnot]
    | succ m => simp [krk_disassembleChunk.loop, hnot]
  | succ fuel ih =>
    intro offset hfuel
    by_cases hlt : offset < chunk.count
    · have hprog := disassemble_progress env vm chunk offset
      obtain ⟨calls, final, hloop, hlen, hfinal, hmore⟩ :=
        ih (krk_disassembleInstruction env vm chunk offset).next (by omega)
      refine ⟨(offset, krk_disassembleInstruction env vm chunk offset) :: calls, final, ?_, ?_,
        hfinal, ?_⟩
      · simp [krk_disassembleChunk.loop, hlt, hloop]
      · simp only [List.length_cons]
        omega
      · intro more
        have e : fuel + 1 + more = (fuel + more) + 1 := by omega
        rw [e]
        simp [krk_disassembleChunk.loop, hlt, hmore more]
    · refine ⟨[], offset, by simp [krk_disassembleChunk.loop, hlt], by simp, by omega, ?_⟩
      intro more
      have e : fuel + 1 + more = (fuel + more) + 1 := by omega
      rw [e]
      simp [krk_disassembleChunk.loop, hlt]

/-- C19: `krk_disassembleInstruction` returns an offset strictly greater than `O` for every
chunk, offset and opcode byte; so the loop of `krk_disassembleChunk` ends: run for
`chunk.count` calls it returns, having made at most `chunk.count` calls and left `offset`
at or past `count`, and more fuel changes nothing. When `chunk->filename` leads to a
null-terminated string, so that the header line before the loop can be written,
`krk_disassembleChunk` returns with that header and these calls; when it does not, the
function does not get past the header. -/
theorem C19_disassembly_progress (env : DebugEnv) (vm : KrkVM) (chunk : KrkChunk) :
    (∀ O, O < (krk_disassembleInstruction env vm chunk O).next) ∧
    (∃ calls final,
      krk_disassembleChunk.loop env vm chunk chunk.count 0 = some (calls, final) ∧
      calls.length ≤ chunk.count ∧ chunk.count ≤ final ∧
      (∀ more, krk_disassembleChunk.loop env vm chunk (chunk.count + more) 0
        = some (calls, final)) ∧
      ∀ name file, chunkFilename vm chunk = some file →
        krk_disassembleChunk env vm chunk name chunk.count
          = some { header := "[" ++ name ++ " from " ++ file ++ "]\n"
                   calls := calls
                   offset := final }) ∧
    (chunkFilename vm chunk = Option.none →
      ∀ name fuel, krk_disassembleChunk env vm chunk name fuel = Option.none) := by
  refine ⟨disassemble_progress env vm chunk, ?_, ?_⟩
  · obtain ⟨calls, final, hloop, hlen, hfinal, hmore⟩ :=
      loop_terminates env vm chunk chunk.count 0 (by omega)
    refine ⟨calls, final, hloop, by simpa using hlen, hfinal, hmore, ?_⟩
    intro name file hfile
    unfold krk_disassembleChunk
    rw [hfile, hloop]
  · intro hnone name fuel
    unfold krk_disassembleChunk
    rw [hnone]

/-- Witness for C19: the chunk of the file "main", seven bytes of code, is walked in at
most seven calls; the same code in a chunk whose `filename` is null gives no result. -/
theorem C19_disassembly_progress_witness :
    (∃ calls final,
      krk_disassembleChunk sampleEnv vmWithFunctionAndFile sampleFileChunk "sample"
          sampleFileChunk.count
        = some { header := "[" ++ "sample" ++ " from " ++ "main" ++ "]\n"
                 calls := calls
                 offset := final } ∧
      calls.length ≤ sampleFileChunk.count ∧ sampleFileChunk.count ≤ final) ∧
    krk_disassembleChunk sampleEnv vmWithFunction sampleClosureChunkAt1 "sample" 7
      = Option.none :=
  ⟨match (C19_disassembly_progress sampleEnv vmWithFunctionAndFile sampleFileChunk).2.1 with
    | ⟨calls, final, _, hlen, hfinal, _, hfile⟩ =>
      ⟨calls, final, hfile "sample" "main" (by decide), hlen, hfinal⟩,
   (C19_disassembly_progress sampleEnv vmWithFunction sampleClosureChunkAt1).2.2
     (by decide) "sample" 7⟩

/-- The walk over well-formed code: from an instruction start the loop calls
`krk_disassembleInstruction` at the start of each instruction in order, reads in bounds
only, and ends at `count`. -/
theorem walk_instructions (env : DebugEnv) (vm : KrkVM) (chunk : KrkChunk) :
    ∀ (O : Nat) (starts : List Nat), InstructionsFrom env vm chunk O starts →
      ∀ fuel, chunk.count - O ≤ fuel →
      ∃ calls, krk_disassembleChunk.loop env vm chunk fuel O = some (calls, chunk.count) ∧
        calls.map Prod.fst = starts ∧
        ∀ c ∈ calls, c.2 = krk_disassembleInstruction env vm chunk c.1 ∧
          (∀ i ∈ c.2.codeReads, i < chunk.count) ∧
          (∀ k ∈ c.2.constReads, k < chunk.constants.length) := by
  intro O starts hwf
  induction hwf with
  | done O h =>
    intro fuel _
    have hnot : ¬ O < chunk.count := by omega
    refine ⟨[], ?_, rfl, ?_⟩
    · cases fuel <;> simp [krk_disassembleChunk.loop, hnot, h]
    · intro c hc
      cases hc
  | step O op rest hop hfit hconst _ ih =>
    intro fuel hfuel
    obtain ⟨hnext, hreads, hconsts⟩ := instruction_facts env vm chunk O op hop
    have hpos := instructionWidth_pos vm chunk O op
    have hlt : O < chunk.count := by omega
    cases fuel with
    | zero => omega
    | succ fuel =>
      obtain ⟨calls, hloop, hstarts, hall⟩ := ih fuel (by omega)
      refine ⟨(O, krk_disassembleInstruction env vm chunk O) :: calls, ?_, ?_, ?_⟩
      · simp [krk_disassembleChunk.loop, hlt, hnext, hloop]
      · simp [hstarts]
      · intro c hc
        rcases List.mem_cons.mp hc with hc | hc
        · subst hc
          refine ⟨rfl, ?_, ?_⟩
          · intro i hi
            have := hreads i hi
            omega
          · intro k hk
            exact hconst k (hconsts k hk)
        · exact hall c hc

/-- C20: when `chunk->filename` leads to a null-terminated string and the code of the
chunk is a concatenation of complete instructions starting at the offsets `starts`, each
naming a constant below the constants count if it names one, `krk_disassembleChunk`
returns, having written its header, its calls of `krk_disassembleInstruction` are made
at exactly the offsets `starts` in order, every read of `code[i]` has `i < count`, every
read of `constants[k]` has `k` below the constants count, and the loop ends with `offset`
equal to `count`. -/
theorem C20_in_bounds_walk (env : DebugEnv) (vm : KrkVM) (chunk : KrkChunk)
    (starts : List Nat) (name file : String)
    (hfile : chunkFilename vm chunk = some file)
    (hwf : InstructionsFrom env vm chunk 0 starts) :
    ∃ r, krk_disassembleChunk env vm chunk name chunk.count = some r ∧
      r.header = "[" ++ name ++ " from " ++ file ++ "]\n" ∧
      r.calls.map Prod.fst = starts ∧
      r.offset = chunk.count ∧
      ∀ c ∈ r.calls, c.2 = krk_disassembleInstruction env vm chunk c.1 ∧
        (∀ i ∈ c.2.codeReads, i < chunk.count) ∧
        (∀ k ∈ c.2.constReads, k < chunk.constants.length) := by
  obtain ⟨calls, hloop, hstarts, hall⟩ :=
    walk_instructions env vm chunk 0 starts hwf chunk.count (by omega)
  unfold krk_disassembleChunk
  rw [hfile, hloop]
  exact ⟨_, rfl, rfl, hstarts, rfl, hall⟩

theorem sampleFileChunk_instructions :
    InstructionsFrom sampleEnv vmWithFunctionAndFile sampleFileChunk 0 [0, 1] := by
  refine InstructionsFrom.step 0 KrkOpCode.OP_RETURN [1] (by decide) (by decide) ?_ ?_
  · intro k hk
    simp [constantIndexOf, KrkOpCode.isConstantShort, KrkOpCode.isConstantLong] at hk
  · refine InstructionsFrom.step 1 KrkOpCode.OP_CLOSURE [] (by decide) (by decide) ?_ ?_
    · intro k hk
      simp only [constantIndexOf, KrkOpCode.isConstantShort, if_true, Option.some.injEq] at hk
      subst hk
      decide
    · exact InstructionsFrom.done _ (by decide)

/-- Witness for C20: the chunk of the file "main": `OP_RETURN` at offset 0, then
`OP_CLOSURE 0` with two trailer pairs at offset 1, seven bytes in all. -/
theorem C20_in_bounds_walk_witness :
    ∃ r, krk_disassembleChunk sampleEnv vmWithFunctionAndFile sampleFileChunk "sample"
        sampleFileChunk.count = some r ∧
      r.header = "[" ++ "sample" ++ " from " ++ "main" ++ "]\n" ∧
      r.calls.map Prod.fst = [0, 1] ∧
      r.offset = sampleFileChunk.count ∧
      ∀ c ∈ r.calls,
        c.2 = krk_disassembleInstruction sampleEnv vmWithFunctionAndFile sampleFileChunk c.1 ∧
        (∀ i ∈ c.2.codeReads, i < sampleFileChunk.count) ∧
        (∀ k ∈ c.2.constReads, k < sampleFileChunk.constants.length) :=
  C20_in_bounds_walk sampleEnv vmWithFunctionAndFile sampleFileChunk [0, 1] "sample" "main"
    (by decide) sampleFileChunk_instructions

/-! ### Closure trailers: long form and labels -/

/-- The output for `OP_CLOSURE_LONG`: the trailer loop starts from the same `offset + 2`
as in the short form, so line `j` is built from the bytes at `O + 2 + 2j` and
`O + 3 + 2j`. -/
theorem closure_long_out (env : DebugEnv) (vm : KrkVM) (chunk : KrkChunk) (O r : Nat)
    (o : KrkObj) (f : KrkFunction)
    (h : env.opcode (chunk.codeAt O) = some KrkOpCode.OP_CLOSURE_LONG)
    (hconst : chunk.constantAt (bigEndian24 chunk O) = KrkValue.object r)
    (hobj : vm.heap[r]? = some o) (hfun : o.body = ObjBody.function f) :
    (krk_disassembleInstruction env vm chunk O).out
      = gutter chunk O
        ++ [fmtLeftS 16 "OP_CLOSURE_LONG" ++ " " ++ fmtD 4 ((bigEndian24 chunk O : Nat) : Int)
              ++ " ",
            env.printValueSafe (KrkValue.object r),
            " (type=" ++ env.typeName (KrkValue.object r) ++ ")\n"]
        ++ (List.range f.upvalueCount).map (fun j =>
            closureLine (toInt32 ((O + 2 * j + 2 : Nat) : Int) - 2)
              (chunk.codeAt (O + 2 * j + 2)).val (chunk.codeAt (O + 2 * j + 3)).val) ∧
    (krk_disassembleInstruction env vm chunk O).codeReads
      = O :: (O + 1) :: (O + 2) :: (O + 3) ::
          ((List.range f.upvalueCount).map (fun j => [O + 2 * j + 2, O + 2 * j + 3])).flatten ∧
    (krk_disassembleInstruction env vm chunk O).next = O + 4 + 2 * f.upvalueCount := by
  have hcount2 : vm.upvalueCountOf (KrkValue.object r) = f.upvalueCount := by
    simp [KrkVM.upvalueCountOf, hobj, hfun]
  have hlong : longOperand chunk O = bigEndian24 chunk O := longOperand_eq chunk O
  have hle := longOperand_le chunk O
  rw [hlong] at hle
  have hfit : toInt32 ((bigEndian24 chunk O : Nat) : Int) = ((bigEndian24 chunk O : Nat) : Int) :=
    toInt32_of_fits _ (by omega) (by omega)
  have hsw : disassembleSwitch env vm chunk (chunk.codeAt O) O
      = CONSTANT_LONG env vm chunk "OP_CLOSURE" CLOSURE_MORE O := by
    unfold disassembleSwitch
    rw [h]
  refine ⟨?_, ?_, ?_⟩
  · rw [disassemble_out, hsw]
    simp only [CONSTANT_LONG, CLOSURE_MORE, closure_loop_eq, hlong, hfit, hconst, hcount2,
      List.append_assoc]
    rfl
  · rw [disassemble_codeReads, hsw]
    simp only [CONSTANT_LONG, CLOSURE_MORE, closure_loop_eq, hlong, hconst, hcount2]
  · rw [disassemble_next, hsw]
    simp only [CONSTANT_LONG, CLOSURE_MORE, closure_loop_eq, hlong, hconst, hcount2]
    omega

/-- C17, the code at the failing input and in general: for `OP_CLOSURE_LONG` at `O` the
trailer line `j` is built from the bytes at `O + 2 + 2j` and `O + 3 + 2j`, which for
`j = 0` are the last two bytes of the constant index, not from the pair stored at
`O + 4 + 2j`; the returned offset is `O + 4 + 2n`. For `OP_CLOSURE_LONG 00 00 00` with
trailer bytes `[1, 5, 0, 3]` the lines read `upvalue 0` and `local 5`, while the short form
on the same function and trailer reads `local 5` and `upvalue 3`. -/
theorem C17_closure_long_trailer_misread (env : DebugEnv) (vm : KrkVM) (chunk : KrkChunk)
    (O r : Nat) (o : KrkObj) (f : KrkFunction)
    (h : env.opcode (chunk.codeAt O) = some KrkOpCode.OP_CLOSURE_LONG)
    (hconst : chunk.constantAt (bigEndian24 chunk O) = KrkValue.object r)
    (hobj : vm.heap[r]? = some o) (hfun : o.body = ObjBody.function f) :
    (krk_disassembleInstruction env vm chunk O).out.drop 5
      = (List.range f.upvalueCount).map (fun j =>
          fmtZeroD 4 (toInt32 ((O + 2 * j + 2 : Nat) : Int) - 2)
            ++ "      |                     "
            ++ (if (chunk.codeAt (O + 2 * j + 2)).val ≠ 0 then "local" else "upvalue")
            ++ " " ++ fmtD 0 ((chunk.codeAt (O + 2 * j + 3)).val : Int) ++ "\n") ∧
    (krk_disassembleInstruction env vm chunk O).next = O + 4 + 2 * f.upvalueCount ∧
    (krk_disassembleInstruction sampleEnv vmWithFunction sampleClosureLongChunk 0).out.drop 5
      = ["0000      |                     upvalue 0\n",
         "0002      |                     local 5\n"] ∧
    (krk_disassembleInstruction sampleEnv vmWithFunction sampleClosureChunk 0).out.drop 5
      = ["0000      |                     local 5\n",
         "0002      |                     upvalue 3\n"] ∧
    (krk_disassembleInstruction sampleEnv vmWithFunction sampleClosureLongChunk 0).codeReads
      = [0, 1, 2, 3, 2, 3, 4, 5] ∧
    (krk_disassembleInstruction sampleEnv vmWithFunction sampleClosureLongChunk 0).next = 8 := by
  obtain ⟨hout, _, hnext⟩ := closure_long_out env vm chunk O r o f h hconst hobj hfun
  refine ⟨?_, hnext, by decide, by decide, by decide, by decide⟩
  rw [hout]
  simp [gutter, closureLine]

/-- Witness for C17: `OP_CLOSURE_LONG 00 00 00` with trailer `[1, 5, 0, 3]`. -/
theorem C17_closure_long_trailer_misread_witness :
    (krk_disassembleInstruction sampleEnv vmWithFunction sampleClosureLongChunk 0).next
      = 0 + 4 + 2 * 2 :=
  (C17_closure_long_trailer_misread sampleEnv vmWithFunction sampleClosureLongChunk 0 0
    { type := ObjType.OBJ_FUNCTION, isMarked := false, next := Option.none,
      body := ObjBody.function { arity := 0, upvalueCount := 2, name := Option.none,
                                 chunk := krk_initChunk } }
    { arity := 0, upvalueCount := 2, name := Option.none, chunk := krk_initChunk }
    (by decide) (by decide) (by decide) rfl).2.1

/-- The output for `OP_CLOSURE`, trailer lines as `closureLine`. -/
theorem closure_short_out (env : DebugEnv) (vm : KrkVM) (chunk : KrkChunk) (O r : Nat)
    (o : KrkObj) (f : KrkFunction)
    (h : env.opcode (chunk.codeAt O) = some KrkOpCode.OP_CLOSURE)
    (hconst : chunk.constantAt (chunk.codeAt (O + 1)).val = KrkValue.object r)
    (hobj : vm.heap[r]? = some o) (hfun : o.body = ObjBody.function f) :
    (krk_disassembleInstruction env vm chunk O).out.drop 5
      = (List.range f.upvalueCount).map (fun j =>
          closureLine (toInt32 ((O + 2 * j + 2 : Nat) : Int) - 2)
            (chunk.codeAt (O + 2 * j + 2)).val (chunk.codeAt (O + 2 * j + 3)).val) := by
  have hcount2 : vm.upvalueCountOf (KrkValue.object r) = f.upvalueCount := by
    simp [KrkVM.upvalueCountOf, hobj, hfun]
  have hsw : disassembleSwitch env vm chunk (chunk.codeAt O) O
      = CONSTANT env vm chunk "OP_CLOSURE" CLOSURE_MORE O := by
    unfold disassembleSwitch
    rw [h]
  rw [disassemble_out, hsw]
  simp [CONSTANT, CLOSURE_MORE, closure_loop_eq, hconst, hcount2, gutter]

/-- C18, the code at the failing input and in general: for `OP_CLOSURE` at `O` the
trailer line `j` is labelled `O + 2j`, two less than the offset `O + 2 + 2j` at which its
pair is stored, so the first trailer line carries the offset `O` of the closure
instruction itself; the labels of two trailer lines differ. For `OP_CLOSURE 0` at
offset 1 with trailer bytes at offsets 3 to 6 the labels are `0001` and `0003`. -/
theorem C18_closure_trailer_labels (env : DebugEnv) (vm : KrkVM) (chunk : KrkChunk)
    (O r : Nat) (o : KrkObj) (f : KrkFunction)
    (h : env.opcode (chunk.codeAt O) = some KrkOpCode.OP_CLOSURE)
    (hconst : chunk.constantAt (chunk.codeAt (O + 1)).val = KrkValue.object r)
    (hobj : vm.heap[r]? = some o) (hfun : o.body = ObjBody.function f)
    (hfit : O + 2 * f.upvalueCount < 2147483648) :
    (∀ j, j < f.upvalueCount →
      (krk_disassembleInstruction env vm chunk O).out[5 + j]?
        = some (fmtZeroD 4 ((O + 2 * j : Nat) : Int) ++ "      |                     "
            ++ (if (chunk.codeAt (O + 2 + 2 * j)).val ≠ 0 then "local" else "upvalue")
            ++ " " ++ fmtD 0 ((chunk.codeAt (O + 2 + 2 * j + 1)).val : Int) ++ "\n")) ∧
    (∀ i j, i < f.upvalueCount → j < f.upvalueCount → i ≠ j → O + 2 * i ≠ O + 2 * j) ∧
    (krk_disassembleInstruction sampleEnv vmWithFunction sampleClosureChunkAt1 1).out
      = ["0001 ", "   | ", "OP_CLOSURE          0 ", "<value>", " (type=object)\n",
         "0001      |                     local 5\n",
         "0003      |                     upvalue 3\n"] ∧
    (krk_disassembleInstruction sampleEnv vmWithFunction sampleClosureChunkAt1 1).codeReads
      = [1, 2, 3, 4, 5, 6] := by
  refine ⟨?_, ?_, by decide, by decide⟩
  · intro j hj
    have hdrop := closure_short_out env vm chunk O r o f h hconst hobj hfun
    have hget : (krk_disassembleInstruction env vm chunk O).out[5 + j]?
        = ((krk_disassembleInstruction env vm chunk O).out.drop 5)[j]? := by
      rw [List.getElem?_drop]
    rw [hget, hdrop, List.getElem?_map, List.getElem?_range hj]
    have hlabel : toInt32 ((O + 2 + 2 * j : Nat) : Int) - 2 = ((O + 2 * j : Nat) : Int) := by
      rw [toInt32_of_fits _ (by omega) (by omega)]
      push_cast
      ring
    have e1 : O + 2 * j + 2 = O + 2 + 2 * j := by omega
    have e2 : O + 2 * j + 3 = O + 2 + 2 * j + 1 := by omega
    simp only [Option.map_some', closureLine, hlabel, e1, e2]
  · intro i j _ _ hij
    omega

/-- Witness for C18: `OP_CLOSURE 0` at offset 1 with two trailer pairs. -/
theorem C18_closure_trailer_labels_witness :
    (krk_disassembleInstruction sampleEnv vmWithFunction sampleClosureChunkAt1 1).out[5 + 0]?
      = some (fmtZeroD 4 ((1 + 2 * 0 : Nat) : Int) ++ "      |                     "
          ++ (if (sampleClosureChunkAt1.codeAt (1 + 2 + 2 * 0)).val ≠ 0 then "local"
              else "upvalue")
          ++ " " ++ fmtD 0 ((sampleClosureChunkAt1.codeAt (1 + 2 + 2 * 0 + 1)).val : Int)
          ++ "\n") :=
  (C18_closure_trailer_labels sampleEnv vmWithFunction sampleClosureChunkAt1 1 0
    { type := ObjType.OBJ_FUNCTION, isMarked := false, next := Option.none,
      body := ObjBody.function { arity := 0, upvalueCount := 2, name := Option.none,
                                 chunk := krk_initChunk } }
    { arity := 0, upvalueCount := 2, name := Option.none, chunk := krk_initChunk }
    (by decide) (by decide) (by decide) rfl (by decide)).1 0 (by decide)

/-! ### Rendering of objects -/

theorem cString_eq_some (bytes cs : List Byte) :
    cString bytes = some cs ↔ (∃ rest, bytes = cs ++ 0 :: rest) ∧ ∀ c ∈ cs, c ≠ 0 := by
  induction bytes generalizing cs with
  | nil =>
    simp only [cString]
    constructor
    · intro h
      cases h
    · rintro ⟨⟨rest, h⟩, _⟩
      cases cs <;> cases h
  | cons b rest ih =>
    unfold cString
    by_cases hb : b = 0
    · simp only [hb, if_true, Option.some.injEq]
      constructor
      · intro h
        subst h
        exact ⟨⟨rest, rfl⟩, by simp⟩
      · rintro ⟨⟨rest2, h⟩, hnz⟩
        cases cs with
        | nil => rfl
        | cons c cs2 =>
          simp only [List.cons_append, List.cons.injEq] at h
          exact absurd h.1.symm (hnz c (List.mem_cons_self c cs2))
    · simp only [hb, if_false, Option.map_eq_some']
      constructor
      · rintro ⟨cs2, hcs2, rfl⟩
        obtain ⟨⟨rest2, hrest⟩, hnz⟩ := (ih cs2).mp hcs2
        refine ⟨⟨rest2, by rw [hrest]; rfl⟩, ?_⟩
        intro c hc
        rcases List.mem_cons.mp hc with rfl | hc
        · exact hb
        · exact hnz c hc
      · rintro ⟨⟨rest2, h⟩, hnz⟩
        cases cs with
        | nil =>
          simp only [List.nil_append, List.cons.injEq] at h
          exact absurd h.1 hb
        | cons c cs2 =>
          simp only [List.cons_append, List.cons.injEq] at h
          refine ⟨cs2, (ih cs2).mpr ⟨⟨rest2, h.2⟩, ?_⟩, by rw [h.1]⟩
          intro d hd
          exact hnz d (List.mem_cons_of_mem c hd)

theorem printObject_string (vm : KrkVM) (r : Nat) (o : KrkObj) (s : KrkString)
    (hobj : vm.heap[r]? = some o) (htype : o.type = ObjType.OBJ_STRING)
    (hbody : o.body = ObjBody.string s) :
    krk_printObject vm (KrkValue.object r)
      = (vm.cStringAt s.chars).map (fun cs => ["\""] ++ cs.map printStringChar ++ ["\""]) := by
  simp only [krk_printObject, hobj, htype, hbody]
  cases vm.cStringAt s.chars <;> rfl

/-- C13, as stated, fails: the string "a\0b" of length 3, interned by `krk_copyString`, is
written as a quote, `a` and a quote; the null byte and the `b` after it are omitted. -/
theorem C13_printObject_string_counterexample :
    vmWithObjects.stringAt 0 = some { length := 3, chars := 0, hash := hashString true [97, 0, 98] 3 } ∧
    vmWithObjects.charsAt 0 = some [97, 0, 98, 0] ∧
    krk_printObject vmWithObjects (KrkValue.object 0) = some ["\"", "a", "\""] ∧
    renderString [97, 0, 98]
      = ["\"", "a", String.singleton (Char.ofNat 0), "b", "\""] ∧
    krk_printObject vmWithObjects (KrkValue.object 0) ≠ some (renderString [97, 0, 98]) := by
  decide

/-- C13, amended: for a string object `krk_printObject` writes a double quote, then for
each byte of the string before its first null byte, in order, its rendering (newline as
`\n`, carriage return as `\r`, tab as `\t`, double quote as `\"`, byte 0x1B as `\[`, any
other byte unchanged), then a closing double quote; when none of the `length` bytes is
null and the terminator follows them, these are all the bytes of the string. -/
theorem C13_printObject_string (vm : KrkVM) (r : Nat) (o : KrkObj) (s : KrkString)
    (bytes : List Byte)
    (hobj : vm.heap[r]? = some o) (htype : o.type = ObjType.OBJ_STRING)
    (hbody : o.body = ObjBody.string s) (hchars : vm.charsAt s.chars = some bytes) :
    (∀ cs rest, bytes = cs ++ 0 :: rest → (∀ c ∈ cs, c ≠ 0) →
      krk_printObject vm (KrkValue.object r) = some (renderString cs)) ∧
    (∀ content, bytes = content ++ [0] → content.length = s.length →
      (∀ c ∈ content, c ≠ 0) →
      krk_printObject vm (KrkValue.object r) = some (renderString content)) ∧
    (∀ out, krk_printObject vm (KrkValue.object r) = some out →
      ∃ cs rest, bytes = cs ++ 0 :: rest ∧ (∀ c ∈ cs, c ≠ 0) ∧ out = renderString cs) := by
  have hprint := printObject_string vm r o s hobj htype hbody
  have hcs : vm.cStringAt s.chars = cString bytes := by
    simp only [KrkVM.cStringAt, hchars]
  rw [hcs] at hprint
  have hmain : ∀ cs rest, bytes = cs ++ 0 :: rest → (∀ c ∈ cs, c ≠ 0) →
      krk_printObject vm (KrkValue.object r) = some (renderString cs) := by
    intro cs rest hb hnz
    rw [hprint, (cString_eq_some bytes cs).mpr ⟨⟨rest, hb⟩, hnz⟩]
    rfl
  refine ⟨hmain, ?_, ?_⟩
  · intro content hb _ hnz
    exact hmain content [] hb hnz
  · intro out hout
    rw [hprint] at hout
    cases hc : cString bytes with
    | none => rw [hc] at hout; cases hout
    | some cs =>
      rw [hc] at hout
      obtain ⟨⟨rest, hb⟩, hnz⟩ := (cString_eq_some bytes cs).mp hc
      refine ⟨cs, rest, hb, hnz, ?_⟩
      simp only [Option.map_some', Option.some.injEq] at hout
      rw [← hout]
      rfl

/-- Witness for C13: the interned string "hi" is written with both its bytes. -/
theorem C13_printObject_string_witness :
    krk_printObject vmWithHi (KrkValue.object 0) = some (renderString [104, 105]) :=
  (C13_printObject_string vmWithHi 0
    { type := ObjType.OBJ_STRING, isMarked := false, next := Option.none,
      body := ObjBody.string { length := 2, chars := 0, hash := 6822401 } }
    { length := 2, chars := 0, hash := 6822401 } [104, 105, 0]
    (by decide) rfl rfl (by decide)).2.1 [104, 105] rfl rfl
    (by intro c hc; simp at hc; rcases hc with rfl | rfl <;> decide)

theorem printObject_boundMethod (vm : KrkVM) (r : Nat) (o : KrkObj) (b : KrkBoundMethod)
    (hobj : vm.heap[r]? = some o) (htype : o.type = ObjType.OBJ_BOUND_METHOD)
    (hbody : o.body = ObjBody.boundMethod b) :
    krk_printObject vm (KrkValue.object r)
      = (boundMethodName vm b.method).map (fun n => ["<bound <def " ++ n ++ ">>"]) := by
  simp only [krk_printObject, hobj, htype, hbody]

/-- C12, as stated, fails: a method bound to a native is written `<bound <def <native>>>`
and a method bound to an object of another kind (here a string) is written
`<bound <def <unknown>>>`; the format `<bound <def %s>>` is used in all three cases. -/
theorem C12_printObject_bound_counterexample :
    krk_printObject vmWithObjects (KrkValue.object 7) = some ["<bound <def <native>>>"] ∧
    krk_printObject vmWithObjects (KrkValue.object 7) ≠ some ["<bound <native>>"] ∧
    krk_printObject vmWithObjects (KrkValue.object 8) = some ["<bound <def <unknown>>>"] ∧
    krk_printObject vmWithObjects (KrkValue.object 8) ≠ some ["<bound <unknown>>"] := by
  decide

/-- C12, amended: for a bound-method object `krk_printObject` writes `<bound <def NAME>>`
when the method is a closure, `NAME` being the name of the closure's function read as a
C string and `(unnamed)` when the function has no name; it writes
`<bound <def <native>>>` when the method is a native and `<bound <def <unknown>>>` when
it is an object of any other kind. -/
theorem C12_printObject_bound (vm : KrkVM) (r m : Nat) (o mo : KrkObj) (b : KrkBoundMethod)
    (hobj : vm.heap[r]? = some o) (htype : o.type = ObjType.OBJ_BOUND_METHOD)
    (hbody : o.body = ObjBody.boundMethod b) (hmethod : b.method = some m)
    (hmo : vm.heap[m]? = some mo) :
    (∀ c fn, mo.type = ObjType.OBJ_CLOSURE → mo.body = ObjBody.closure c →
      vm.functionAt c.function = some fn →
      (fn.name = Option.none →
        krk_printObject vm (KrkValue.object r) = some ["<bound <def (unnamed)>>"]) ∧
      (∀ nr ns cs, fn.name = some nr → vm.stringAt nr = some ns →
        vm.cStringAt ns.chars = some cs →
        krk_printObject vm (KrkValue.object r)
          = some ["<bound <def " ++ bytesText cs ++ ">>"])) ∧
    (mo.type = ObjType.OBJ_NATIVE →
      krk_printObject vm (KrkValue.object r) = some ["<bound <def <native>>>"]) ∧
    (mo.type ≠ ObjType.OBJ_CLOSURE → mo.type ≠ ObjType.OBJ_NATIVE →
      krk_printObject vm (KrkValue.object r) = some ["<bound <def <unknown>>>"]) := by
  have hprint := printObject_boundMethod vm r o b hobj htype hbody
  rw [hmethod] at hprint
  refine ⟨?_, ?_, ?_⟩
  · intro c fn hty hbd hfn
    have hname : boundMethodName vm (some m) = NAME vm fn.name := by
      simp only [boundMethodName, hmo, hty, if_true, hbd, hfn]
    rw [hprint, hname]
    constructor
    · intro hnone
      rw [hnone]
      rfl
    · intro nr ns cs hnr hns hcs
      rw [hnr]
      simp only [NAME, hns, hcs, Option.map_some']
  · intro hty
    have hname : boundMethodName vm (some m) = some "<native>" := by
      simp [boundMethodName, hmo, hty]
    rw [hprint, hname]
    rfl
  · intro hnc hnn
    have hname : boundMethodName vm (some m) = some "<unknown>" := by
      simp [boundMethodName, hmo, hnc, hnn]
    rw [hprint, hname]
    rfl

/-- Witness for C12: a method bound to a closure of an unnamed function, one bound to a
closure of the function named `f`, one bound to a native and one bound to a string. -/
theorem C12_printObject_bound_witness :
    krk_printObject vmWithObjects (KrkValue.object 5) = some ["<bound <def (unnamed)>>"] ∧
    krk_printObject vmWithNamedMethod (KrkValue.object 3)
      = some ["<bound <def " ++ bytesText [102] ++ ">>"] ∧
    krk_printObject vmWithObjects (KrkValue.object 7) = some ["<bound <def <native>>>"] ∧
    krk_printObject vmWithObjects (KrkValue.object 8) = some ["<bound <def <unknown>>>"] :=
  ⟨((C12_printObject_bound vmWithObjects 5 4
      { type := ObjType.OBJ_BOUND_METHOD, isMarked := false, next := some 4,
        body := ObjBody.boundMethod { receiver := KrkValue.none, method := some 4 } }
      { type := ObjType.OBJ_CLOSURE, isMarked := false, next := some 3,
        body := ObjBody.closure { function := 3, upvalues := 1, upvalueCount := 0 } }
      { receiver := KrkValue.none, method := some 4 }
      (by decide) rfl rfl rfl (by decide)).1
      { function := 3, upvalues := 1, upvalueCount := 0 }
      { arity := 0, upvalueCount := 0, name := Option.none, chunk := krk_initChunk }
      rfl rfl (by decide)).1 rfl,
   ((C12_printObject_bound vmWithNamedMethod 3 2
      { type := ObjType.OBJ_BOUND_METHOD, isMarked := false, next := some 2,
        body := ObjBody.boundMethod { receiver := KrkValue.none, method := some 2 } }
      { type := ObjType.OBJ_CLOSURE, isMarked := false, next := some 1,
        body := ObjBody.closure { function := 1, upvalues := 1, upvalueCount := 0 } }
      { receiver := KrkValue.none, method := some 2 }
      (by decide) rfl rfl rfl (by decide)).1
      { function := 1, upvalues := 1, upvalueCount := 0 }
      { arity := 0, upvalueCount := 0, name := some 0, chunk := krk_initChunk }
      rfl rfl (by decide)).2 0 { length := 1, chars := 0, hash := 102 } [102] rfl
      (by decide) (by decide),
   (C12_printObject_bound vmWithObjects 7 6
      { type := ObjType.OBJ_BOUND_METHOD, isMarked := false, next := some 6,
        body := ObjBody.boundMethod { receiver := KrkValue.none, method := some 6 } }
      { type := ObjType.OBJ_NATIVE, isMarked := false, next := some 5,
        body := ObjBody.native { function := 7, isMethod := 0 } }
      { receiver := KrkValue.none, method := some 6 }
      (by decide) rfl rfl rfl (by decide)).2.1 rfl,
   (C12_printObject_bound vmWithObjects 8 0
      { type := ObjType.OBJ_BOUND_METHOD, isMarked := false, next := some 7,
        body := ObjBody.boundMethod { receiver := KrkValue.none, method := some 0 } }
      { type := ObjType.OBJ_STRING, isMarked := false, next := Option.none,
        body := ObjBody.string { length := 3, chars := 0,
                                 hash := hashString true [97, 0, 98] 3 } }
      { receiver := KrkValue.none, method := some 0 }
      (by decide) rfl rfl rfl (by decide)).2.2 (by decide) (by decide)⟩

/-! ### Closure construction -/

theorem upvalueCountOf_of_functionAt (vm : KrkVM) (f : Nat) (fn : KrkFunction)
    (h : vm.functionAt f = some fn) :
    vm.upvalueCountOf (KrkValue.object f) = fn.upvalueCount := by
  cases ho : vm.heap[f]? with
  | none => simp [KrkVM.functionAt, ho] at h
  | some o =>
    cases hb : o.body with
    | function g =>
      simp [KrkVM.functionAt, ho, hb] at h
      simp [KrkVM.upvalueCountOf, ho, hb, h]
    | _ => simp [KrkVM.functionAt, ho, hb] at h

/-- C15: for a function object `f`, `krk_newClosure(f)` returns a new closure object whose
`function` is the address `f` itself, whose `upvalues` is a fresh array of exactly
`f.upvalueCount` slots, every one null, and whose `upvalueCount` is `f.upvalueCount`; the
function object and every other object allocated before are unchanged. -/
theorem C15_newClosure (vm : KrkVM) (f : Nat) (fn : KrkFunction)
    (hf : vm.functionAt f = some fn) :
    (krk_newClosure vm f).2 = vm.heap.length ∧
    vm.heap[(krk_newClosure vm f).2]? = Option.none ∧
    (krk_newClosure vm f).1.heap[(krk_newClosure vm f).2]?
      = some { type := ObjType.OBJ_CLOSURE, isMarked := false, next := vm.objects,
               body := ObjBody.closure { function := f, upvalues := vm.arrays.length,
                                         upvalueCount := fn.upvalueCount } } ∧
    vm.arrays[vm.arrays.length]? = Option.none ∧
    (∃ slots, (krk_newClosure vm f).1.upvaluesAt vm.arrays.length = some slots ∧
      slots.length = fn.upvalueCount ∧ ∀ x ∈ slots, x = Option.none) ∧
    (krk_newClosure vm f).1.functionAt f = some fn ∧
    (∀ a, a < vm.heap.length → (krk_newClosure vm f).1.heap[a]? = vm.heap[a]?) ∧
    (∀ p, p < vm.arrays.length → (krk_newClosure vm f).1.arrays[p]? = vm.arrays[p]?) := by
  have hcount := upvalueCountOf_of_functionAt vm f fn hf
  have hflt : f < vm.heap.length := by
    by_contra hc
    unfold KrkVM.functionAt at hf
    rw [List.getElem?_eq_none (by omega)] at hf
    cases hf
  have hnew : krk_newClosure vm f =
      ({ heap := vm.heap ++ [{ type := ObjType.OBJ_CLOSURE, isMarked := false,
                               next := vm.objects,
                               body := ObjBody.closure { function := f,
                                                         upvalues := vm.arrays.length,
                                                         upvalueCount := fn.upvalueCount } }]
         arrays := vm.arrays ++ [some (RawBlock.upvalues
                    ((List.range fn.upvalueCount).map (fun _ => Option.none)))]
         objects := some vm.heap.length
         strings := vm.strings
         stack := vm.stack },
       vm.heap.length) := by
    simp only [krk_newClosure, ALLOCATE_upvalues, allocateObject, hcount]
    have h2 : KrkVM.upvalueCountOf
        { heap := vm.heap, arrays := vm.arrays ++ [some (RawBlock.upvalues
                    ((List.range fn.upvalueCount).map (fun _ => Option.none)))],
          objects := vm.objects, strings := vm.strings, stack := vm.stack }
        (KrkValue.object f) = fn.upvalueCount := hcount
    rw [h2]
  rw [hnew]
  refine ⟨rfl, List.getElem?_length _, List.getElem?_concat_length _ _, List.getElem?_length _,
    ⟨(List.range fn.upvalueCount).map (fun _ => Option.none), ?_, by simp, ?_⟩, ?_, ?_, ?_⟩
  · simp only [KrkVM.upvaluesAt, List.getElem?_concat_length]
  · intro x hx
    simp only [List.mem_map] at hx
    obtain ⟨_, _, hx⟩ := hx
    exact hx.symm
  · unfold KrkVM.functionAt at hf ⊢
    simp only [List.getElem?_append_left hflt]
    exact hf
  · intro a ha
    simp only [List.getElem?_append_left ha]
  · intro p hp
    simp only [List.getElem?_append_left hp]

/-- Witness for C15: a closure of the two-upvalue function of `vmWithFunction`. -/
theorem C15_newClosure_witness :
    (krk_newClosure vmWithFunction 0).1.heap[(krk_newClosure vmWithFunction 0).2]?
      = some { type := ObjType.OBJ_CLOSURE, isMarked := false, next := vmWithFunction.objects,
               body := ObjBody.closure { function := 0,
                                         upvalues := vmWithFunction.arrays.length,
                                         upvalueCount := 2 } } :=
  (C15_newClosure vmWithFunction 0
    { arity := 0, upvalueCount := 2, name := Option.none, chunk := krk_initChunk }
    (by decide)).2.2.1

/-! ### The heap list -/

/-- A constructor call either finds an interned string, and leaves the heap list alone, or
allocates exactly one object: unmarked, linked in front of the old head, the new head. -/
theorem runCall_cases (signedChar : Bool) (vm : KrkVM) (c : ConstructorCall) :
    (isInterningHit signedChar vm c = true ∧
      (runCall signedChar vm c).1.heap = vm.heap ∧
      (runCall signedChar vm c).1.objects = vm.objects) ∨
    (isInterningHit signedChar vm c = false ∧
      ∃ o, (runCall signedChar vm c).1.heap = vm.heap ++ [o] ∧
        o.isMarked = false ∧ o.next = vm.objects ∧
        (runCall signedChar vm c).1.objects = some vm.heap.length ∧
        (runCall signedChar vm c).2 = vm.heap.length) := by
  cases c with
  | newFunction => exact Or.inr ⟨rfl, _, rfl, rfl, rfl, rfl, rfl⟩
  | newNative function => exact Or.inr ⟨rfl, _, rfl, rfl, rfl, rfl, rfl⟩
  | newClosure function => exact Or.inr ⟨rfl, _, rfl, rfl, rfl, rfl, rfl⟩
  | newUpvalue slot => exact Or.inr ⟨rfl, _, rfl, rfl, rfl, rfl, rfl⟩
  | newClass name => exact Or.inr ⟨rfl, _, rfl, rfl, rfl, rfl, rfl⟩
  | newInstance _class => exact Or.inr ⟨rfl, _, rfl, rfl, rfl, rfl, rfl⟩
  | newBoundMethod receiver method => exact Or.inr ⟨rfl, _, rfl, rfl, rfl, rfl, rfl⟩
  | takeString chars length =>
    cases hfind : krk_tableFindString vm vm.strings ((vm.charsAt chars).getD []) length
        (hashString signedChar ((vm.charsAt chars).getD []) length) with
    | some r =>
      left
      have hrun : runCall signedChar vm (ConstructorCall.takeString chars length)
          = (FREE_ARRAY vm chars, r) := by
        simp only [runCall, krk_takeString, hfind]
      rw [hrun]
      exact ⟨by simp [isInterningHit, hfind], rfl, rfl⟩
    | none =>
      right
      have hrun : runCall signedChar vm (ConstructorCall.takeString chars length)
          = krk_takeString signedChar vm chars length := rfl
      rw [hrun, takeString_miss signedChar vm chars length hfind]
      exact ⟨by simp [isInterningHit, hfind], _, rfl, rfl, rfl, rfl, rfl⟩
  | copyString chars length =>
    cases hfind : krk_tableFindString vm vm.strings chars length
        (hashString signedChar chars length) with
    | some r =>
      left
      have hrun : runCall signedChar vm (ConstructorCall.copyString chars length)
          = (vm, r) := by
        simp only [runCall, krk_copyString, hfind]
      rw [hrun]
      exact ⟨by simp [isInterningHit, hfind], rfl, rfl⟩
    | none =>
      right
      have hrun : runCall signedChar vm (ConstructorCall.copyString chars length)
          = krk_copyString signedChar vm chars length := rfl
      rw [hrun, copyString_miss signedChar vm chars length hfind]
      exact ⟨by simp [isInterningHit, hfind], _, rfl, rfl, rfl, rfl, rfl⟩

theorem objectListFrom_chain (heap : List KrkObj)
    (hnext : ∀ a o, heap[a]? = some o → o.next = (if a = 0 then Option.none else some (a - 1))) :
    ∀ (k fuel : Nat), k ≤ heap.length → k ≤ fuel →
      objectListFrom heap fuel (if k = 0 then Option.none else some (k - 1))
        = (List.range k).reverse := by
  intro k
  induction k with
  | zero =>
    intro fuel _ _
    cases fuel <;> simp [objectListFrom]
  | succ k ih =>
    intro fuel hk hfuel
    cases fuel with
    | zero => omega
    | succ fuel =>
      have hlt : k < heap.length := by omega
      have hget : heap[k]? = some heap[k] := List.getElem?_eq_getElem hlt
      have hn := hnext k heap[k] hget
      simp only [Nat.add_one_ne_zero, if_false, Nat.add_sub_cancel, objectListFrom, hget, hn]
      rw [ih fuel (by omega) (by omega), List.range_succ, List.reverse_append]
      rfl

theorem objectList_of_allLinked (vm : KrkVM) (h : vm.allLinked) :
    vm.objectList = (List.range vm.heap.length).reverse := by
  unfold KrkVM.objectList
  rw [h.1]
  exact objectListFrom_chain vm.heap (fun a o ho => (h.2 a o ho).2) vm.heap.length
    vm.heap.length (le_refl _) (le_refl _)

theorem allLinked_runCall (signedChar : Bool) (vm : KrkVM) (c : ConstructorCall)
    (h : vm.allLinked) : (runCall signedChar vm c).1.allLinked := by
  rcases runCall_cases signedChar vm c with ⟨_, hheap, hobj⟩ | ⟨_, o, hheap, hmark, hnext, hobj, _⟩
  · unfold KrkVM.allLinked
    rw [hheap, hobj]
    exact h
  · unfold KrkVM.allLinked
    rw [hheap, hobj]
    refine ⟨by simp, ?_⟩
    intro a o2 ho2
    by_cases ha : a < vm.heap.length
    · rw [List.getElem?_append_left ha] at ho2
      exact h.2 a o2 ho2
    · have hlen : a < (vm.heap ++ [o]).length := by
        by_contra hc
        rw [List.getElem?_eq_none (by omega)] at ho2
        cases ho2
      simp only [List.length_append, List.length_singleton] at hlen
      have ha2 : a = vm.heap.length := by omega
      subst ha2
      rw [List.getElem?_concat_length] at ho2
      cases ho2
      refine ⟨hmark, ?_⟩
      rw [hnext, h.1]

theorem allLinked_runCalls (signedChar : Bool) (calls : List ConstructorCall) :
    ∀ vm : KrkVM, vm.allLinked → (runCalls signedChar vm calls).allLinked := by
  induction calls with
  | nil => intro vm h; exact h
  | cons c rest ih =>
    intro vm h
    exact ih _ (allLinked_runCall signedChar vm c h)

theorem heap_length_runCalls (signedChar : Bool) (calls : List ConstructorCall) :
    ∀ vm : KrkVM, (runCalls signedChar vm calls).heap.length
      = vm.heap.length + objectsCreated signedChar vm calls := by
  induction calls with
  | nil => intro vm; rfl
  | cons c rest ih =>
    intro vm
    have hstep : runCalls signedChar vm (c :: rest)
        = runCalls signedChar (runCall signedChar vm c).1 rest := rfl
    rw [hstep, ih, objectsCreated]
    rcases runCall_cases signedChar vm c with ⟨hhit, hheap, _⟩ | ⟨hhit, o, hheap, _⟩
    · rw [hheap, hhit]
      simp
    · rw [hheap, hhit]
      simp only [List.length_append, List.length_singleton, Bool.false_eq_true, if_false]
      omega

theorem objectsCreated_no_strings (signedChar : Bool) (calls : List ConstructorCall) :
    ∀ vm : KrkVM, (∀ c ∈ calls, isInterningHit signedChar vm c = false ∧
        ∀ vm2 : KrkVM, isInterningHit signedChar vm2 c = false) →
      objectsCreated signedChar vm calls = calls.length := by
  induction calls with
  | nil => intro vm _; rfl
  | cons c rest ih =>
    intro vm h
    rw [objectsCreated, (h c (List.mem_cons_self c rest)).1]
    rw [ih _ (fun d hd =>
      ⟨(h d (List.mem_cons_of_mem c hd)).2 _, (h d (List.mem_cons_of_mem c hd)).2⟩)]
    simp only [Bool.false_eq_true, if_false, List.length_cons]
    omega

/-- C14: starting from a VM with nothing allocated, after any sequence of constructor
calls the list reachable from `vm.objects` has as many elements as objects were created
(one per call, a string call that finds its string interned creating none), every object
on it is unmarked, and a further call that creates an object returns the new head, whose
`next` is the head before the call, in front of the unchanged list, while a further call
that finds its string interned leaves the list as it is. -/
theorem C14_heap_list (signedChar : Bool) (vm0 : KrkVM) (calls : List ConstructorCall)
    (hheap : vm0.heap = []) (hobjects : vm0.objects = Option.none) :
    (runCalls signedChar vm0 calls).objectList.length = objectsCreated signedChar vm0 calls ∧
    (∀ a ∈ (runCalls signedChar vm0 calls).objectList,
      ∃ o, (runCalls signedChar vm0 calls).heap[a]? = some o ∧ o.isMarked = false) ∧
    ((∀ c ∈ calls, (∀ p n, c ≠ ConstructorCall.takeString p n) ∧
        (∀ s n, c ≠ ConstructorCall.copyString s n)) →
      (runCalls signedChar vm0 calls).objectList.length = calls.length) ∧
    (∀ c, isInterningHit signedChar (runCalls signedChar vm0 calls) c = false →
      (runCall signedChar (runCalls signedChar vm0 calls) c).1.objectList
        = (runCall signedChar (runCalls signedChar vm0 calls) c).2
            :: (runCalls signedChar vm0 calls).objectList ∧
      (runCall signedChar (runCalls signedChar vm0 calls) c).1.objects
        = some (runCall signedChar (runCalls signedChar vm0 calls) c).2 ∧
      ∃ o, (runCall signedChar (runCalls signedChar vm0 calls) c).1.heap[
            (runCall signedChar (runCalls signedChar vm0 calls) c).2]? = some o ∧
        o.next = (runCalls signedChar vm0 calls).objects ∧ o.isMarked = false) ∧
    (∀ c, isInterningHit signedChar (runCalls signedChar vm0 calls) c = true →
      (runCall signedChar (runCalls signedChar vm0 calls) c).1.objectList
        = (runCalls signedChar vm0 calls).objectList) := by
  have h0 : vm0.allLinked := by
    unfold KrkVM.allLinked
    rw [hheap, hobjects]
    refine ⟨by simp, ?_⟩
    intro a o ho
    simp at ho
  have hl := allLinked_runCalls signedChar calls vm0 h0
  have hlist := objectList_of_allLinked _ hl
  have hlen := heap_length_runCalls signedChar calls vm0
  rw [hheap] at hlen
  simp only [List.length_nil, Nat.zero_add] at hlen
  refine ⟨?_, ?_, ?_, ?_, ?_⟩
  · rw [hlist, List.length_reverse, List.length_range, hlen]
  · intro a ha
    rw [hlist, List.mem_reverse, List.mem_range] at ha
    refine ⟨_, List.getElem?_eq_getElem ha, ?_⟩
    exact (hl.2 a _ (List.getElem?_eq_getElem ha)).1
  · intro hno
    rw [hlist, List.length_reverse, List.length_range, hlen]
    apply objectsCreated_no_strings
    intro c hc
    have hc2 := hno c hc
    have hall : ∀ vm2 : KrkVM, isInterningHit signedChar vm2 c = false := by
      intro vm2
      cases c with
      | takeString p n => exact absurd rfl (hc2.1 p n)
      | copyString s n => exact absurd rfl (hc2.2 s n)
      | _ => rfl
    exact ⟨hall _, hall⟩
  · intro c hmiss
    have hl2 := allLinked_runCall signedChar _ c hl
    have hlist2 := objectList_of_allLinked _ hl2
    rcases runCall_cases signedChar (runCalls signedChar vm0 calls) c with
      ⟨hhit, _, _⟩ | ⟨_, o, hheap2, hmark, hnext, hobj, hret⟩
    · rw [hhit] at hmiss
      cases hmiss
    · refine ⟨?_, ?_, o, ?_, hnext, hmark⟩
      · rw [hlist2, hlist, hheap2, hret]
        simp only [List.length_append, List.length_singleton]
        rw [List.range_succ, List.reverse_append]
        rfl
      · rw [hobj, hret]
      · rw [hheap2, hret, List.getElem?_concat_length]
  · intro c hhit
    have hl2 := allLinked_runCall signedChar _ c hl
    have hlist2 := objectList_of_allLinked _ hl2
    rcases runCall_cases signedChar (runCalls signedChar vm0 calls) c with
      ⟨_, hheap2, _⟩ | ⟨hmiss, _⟩
    · rw [hlist2, hlist, hheap2]
    · rw [hmiss] at hhit
      cases hhit

/-- Witness for C14: the ten calls that build `vmWithObjects` create ten objects; copying
"a\0b" once more finds it interned and leaves the list as it is. -/
theorem C14_heap_list_witness :
    (runCalls true KrkVM.empty
      [ConstructorCall.copyString [97, 0, 98] 3, ConstructorCall.newClass (some 0),
       ConstructorCall.newInstance (some 1), ConstructorCall.newFunction,
       ConstructorCall.newClosure 3, ConstructorCall.newBoundMethod KrkValue.none (some 4),
       ConstructorCall.newNative 7, ConstructorCall.newBoundMethod KrkValue.none (some 6),
       ConstructorCall.newBoundMethod KrkValue.none (some 0),
       ConstructorCall.newUpvalue 3]).objectList.length
      = objectsCreated true KrkVM.empty
      [ConstructorCall.copyString [97, 0, 98] 3, ConstructorCall.newClass (some 0),
       ConstructorCall.newInstance (some 1), ConstructorCall.newFunction,
       ConstructorCall.newClosure 3, ConstructorCall.newBoundMethod KrkValue.none (some 4),
       ConstructorCall.newNative 7, ConstructorCall.newBoundMethod KrkValue.none (some 6),
       ConstructorCall.newBoundMethod KrkValue.none (some 0),
       ConstructorCall.newUpvalue 3] ∧
    (runCalls true KrkVM.empty
      [ConstructorCall.newFunction, ConstructorCall.newNative 7]).objectList.length = 2 ∧
    (runCall true (runCalls true KrkVM.empty [ConstructorCall.copyString [104, 105] 2])
        (ConstructorCall.copyString [104, 105] 2)).1.objectList
      = (runCalls true KrkVM.empty [ConstructorCall.copyString [104, 105] 2]).objectList ∧
    (runCall true (runCalls true KrkVM.empty [ConstructorCall.copyString [104, 105] 2])
        ConstructorCall.newFunction).1.objectList
      = (runCall true (runCalls true KrkVM.empty [ConstructorCall.copyString [104, 105] 2])
          ConstructorCall.newFunction).2
        :: (runCalls true KrkVM.empty [ConstructorCall.copyString [104, 105] 2]).objectList :=
  ⟨(C14_heap_list true KrkVM.empty _ rfl rfl).1,
   (C14_heap_list true KrkVM.empty
      [ConstructorCall.newFunction, ConstructorCall.newNative 7] rfl rfl).2.2.1
      (by
        intro c hc
        simp only [List.mem_cons, List.mem_singleton, List.not_mem_nil, or_false] at hc
        rcases hc with rfl | rfl <;> exact ⟨fun _ _ h => (nomatch h), fun _ _ h => (nomatch h)⟩),
   (C14_heap_list true KrkVM.empty [ConstructorCall.copyString [104, 105] 2]
      rfl rfl).2.2.2.2 (ConstructorCall.copyString [104, 105] 2) (by decide),
   ((C14_heap_list true KrkVM.empty [ConstructorCall.copyString [104, 105] 2]
      rfl rfl).2.2.2.1 ConstructorCall.newFunction rfl).1⟩

end Kuroko
